import Mathlib

/-!
Battery capacity models of `shared/lib_battery.cpp`.

Shallow embedding of the capacity models (`capacity_t`, `capacity_kibam_t`,
`capacity_lithium_ion_t`), of the voltage models they drive, of the lifetime model
(`lifetime_t`: online rainflow counting and the fade lookup `bilinear`), of the thermal
model (`thermal_t`), of the losses model (`losses_t`), of the battery and the bank that own
them (`battery_t`, `battery_bank_t`) and of the manual dispatcher (`dispatch_manual_t`,
`getMonthHour`).  Two smaller parts embed `simpleWakeModel::velDeltaPQ` and
`simpleWakeModel::wakeCalculations` of `shared/lib_windwakemodel.cpp` and
`s_efftable::interpolate` of `tcs/csp_dispatch.h`.

Numeric model.  A C++ `double` is read as an element of a linearly ordered field `K`
(exact arithmetic: no rounding, no overflow).  The field convention `x / 0 = 0` differs from
IEEE arithmetic, where a zero divisor gives an infinity or a NaN; statements that depend on
a divisor carry the hypothesis that it is not zero.  The function `exp` of `math.h` is a
parameter `exp : K → K` of the definitions that use it; theorems that need analytic
facts about it are stated over `ℝ` with `Real.exp`.

Mutable objects become values that are passed in and returned.  A method that mutates both
the capacity model and the voltage model returns the pair of the two new values.  A method
that indexes a `std::vector` or loops returns an `Outcome`, which tells normal completion
from undefined behaviour and from an exhausted iteration bound.  The functions of
`lib_util`, which is not part of the sources, are parameters (`util_t`); the evaluations at
concrete inputs use linear interpolation for them (`util.modelled`).  The constants
`_hours_to_seconds`, `watt_to_kilowatt` and `kilowatt_to_watt` of the header, which is not
part of the sources either, are parameters of the definitions that use them.  An object
that holds pointers to other objects becomes a value that contains them: a battery contains
its five models, a bank its battery, a dispatcher its bank.

The program keeps no list of the ranges that the rainflow counting block counts.  To speak
of them, the methods that contain the block are run a second time on the pair of the state
and a list that records each counted range (`rainflow_logged`, `rainflow_finish_logged`);
erasing the list from such a run gives the run of the method itself.
-/

namespace SSC

/-! ## Charge direction -/

/-- The three charge directions `CHARGE`, `NO_CHARGE`, `DISCHARGE` that
`check_charge_change` compares.  Modelled from the spec: the enumeration is declared in
`lib_battery.h`, which is not part of the sources; the code only compares its values for
equality, so three distinct constructors are all that is used. -/
inductive ChargeState where
  | CHARGE
  | NO_CHARGE
  | DISCHARGE
  deriving DecidableEq, Repr

/-! ## Voltage model -/

/-- Members that `voltage_dynamic_t` adds to `voltage_t`: the seven reference inputs and
the five fitted constants. -/
structure voltage_dynamic_t (K : Type) where
  Vfull : K
  Vexp : K
  Vnom : K
  Qfull : K
  Qexp : K
  Qnom : K
  C_rate : K
  R : K
  A : K
  B : K
  K_ : K
  E0 : K

/-- State of a `voltage_t` object.  `dynamic` is `none` for `voltage_basic_t` and holds the
extra members for `voltage_dynamic_t`; it selects the body of the virtual `updateVoltage`. -/
structure voltage_t (K : Type) where
  num_cells : Int
  cell_voltage : K
  cutoff_voltage : K
  dynamic : Option (voltage_dynamic_t K)

section Defs

variable {K : Type} [LinearOrderedField K]

/-- Method `voltage_t::battery_voltage`. -/
def voltage_t.battery_voltage (v : voltage_t K) : K :=
  (v.num_cells : K) * v.cell_voltage

/-- The constructor `voltage_basic_t::voltage_basic_t`: the cutoff voltage is `0.`. -/
def voltage_basic_t (num_cells : Int) (voltage : K) : voltage_t K :=
  { num_cells := num_cells, cell_voltage := voltage, cutoff_voltage := 0, dynamic := none }

/-- Method `voltage_dynamic_t::voltage_model` (Unnewehr universal model, per cell). -/
def voltage_dynamic_t.voltage_model (d : voltage_dynamic_t K) (Q I q0 : K) : K :=
  let term1 := d.E0 - d.R * I
  let term2 := d.K_ * (1 - q0 / Q)
  term1 - term2

/-- The virtual `updateVoltage(capacity, dt)`.  The three reads from the capacity object,
`capacity->qmaxI()`, `capacity->I()` and `capacity->q0()`, are passed as `Q`, `I` and `q0`.
`voltage_basic_t::updateVoltage` has an empty body. -/
def voltage_t.updateVoltage (v : voltage_t K) (Q I q0 : K) (_dt : K) : voltage_t K :=
  match v.dynamic with
  | none => v
  | some d =>
    { v with cell_voltage :=
        d.voltage_model (Q / (v.num_cells : K)) (I / (v.num_cells : K)) (q0 / (v.num_cells : K)) }

/-! ## `capacity_t` -/

end Defs

/-- Members of the base class `capacity_t`. -/
structure capacity_t (K : Type) where
  q0 : K
  qmax : K
  qmax0 : K
  I : K
  P : K
  SOC : K
  DOD : K
  DOD_prev : K
  prev_charge : ChargeState
  chargeChange : Bool

section Defs

variable {K : Type} [LinearOrderedField K]

/-- The constructor `capacity_t::capacity_t(double q)`. -/
def capacity_t.new (q : K) : capacity_t K :=
  { q0 := q, qmax := q, qmax0 := q, I := 0, P := 0,
    SOC := 100, DOD := 0, DOD_prev := 0,
    prev_charge := ChargeState.DISCHARGE, chargeChange := false }

/-- The local `charging` of `check_charge_change`: the direction of the current `I`. -/
def charging_of (I : K) : ChargeState :=
  if I < 0 then ChargeState.CHARGE
  else if I > 0 then ChargeState.DISCHARGE
  else ChargeState.NO_CHARGE

/-- Method `capacity_t::check_charge_change`. -/
def capacity_t.check_charge_change (s : capacity_t K) : capacity_t K :=
  let charging := charging_of s.I
  if charging ≠ s.prev_charge ∧ charging ≠ ChargeState.NO_CHARGE
      ∧ s.prev_charge ≠ ChargeState.NO_CHARGE then
    { s with chargeChange := true, prev_charge := charging }
  else
    { s with chargeChange := false }

/-- Method `capacity_t::update_SOC()`. -/
def capacity_t.update_SOC (s : capacity_t K) : capacity_t K :=
  let SOC := 100 * (s.q0 / s.qmax)
  { s with SOC := SOC, DOD := 100 - SOC }

/-- Method `capacity_t::chargeChanged`. -/
def capacity_t.chargeChanged (s : capacity_t K) : Bool := s.chargeChange

/-- Method `capacity_t::prev_DOD`. -/
def capacity_t.prev_DOD (s : capacity_t K) : K := s.DOD_prev

/-! ## `capacity_lithium_ion_t` (coulomb counting)

The class adds no member to `capacity_t`, so its objects are values of `capacity_t K`. -/

/-- The constructor `capacity_lithium_ion_t::capacity_lithium_ion_t(double q)`. -/
def capacity_lithium_ion_t.new (q : K) : capacity_t K :=
  capacity_t.new q

/-- Method `capacity_lithium_ion_t::qmaxI`. -/
def capacity_lithium_ion_t.qmaxI (s : capacity_t K) : K := s.qmax

/-- The capacity part of `capacity_lithium_ion_t::updateCapacity`, for the battery voltage
`V` read at entry: everything up to and including `check_charge_change()`. -/
def capacity_lithium_ion_t.updateCapacity_core (s : capacity_t K) (P V dt : K) : capacity_t K :=
  let DOD_prev := s.DOD
  let q0_old := s.q0
  let I := P / V
  let P_ := P
  -- update charge ( I > 0 discharging, I < 0 charging)
  let q0 := s.q0 - I * dt
  -- check if overcharged
  let over := decide (q0 > s.qmax)
  let I := if over then -(s.qmax - q0_old) / dt else I
  let P_ := if over then I * V else P_
  let q0 := if over then s.qmax else q0
  -- check if undercharged
  let under := decide (q0 < 0)
  let I := if under then q0_old / dt else I
  let P_ := if under then I * V else P_
  let q0 := if under then 0 else q0
  -- update SOC, DOD
  let SOC := (q0 / s.qmax) * 100
  let DOD := 100 - SOC
  capacity_t.check_charge_change
    { s with DOD_prev := DOD_prev, q0 := q0, I := I, P := P_, SOC := SOC, DOD := DOD }

/-- Method `capacity_lithium_ion_t::updateCapacity(P, voltage_model, dt, cycles)`: returns the new
capacity state and the new voltage state. -/
def capacity_lithium_ion_t.updateCapacity (s : capacity_t K) (P : K) (vm : voltage_t K)
    (dt : K) (_cycles : Int) : capacity_t K × voltage_t K :=
  let s1 := capacity_lithium_ion_t.updateCapacity_core s P vm.battery_voltage dt
  (s1, vm.updateVoltage (capacity_lithium_ion_t.qmaxI s1) s1.I s1.q0 dt)

/-- Method `capacity_lithium_ion_t::updateCapacityForThermal`. -/
def capacity_lithium_ion_t.updateCapacityForThermal (s : capacity_t K)
    (capacity_percent : K) : capacity_t K :=
  capacity_t.update_SOC { s with q0 := s.q0 * (capacity_percent * 0.01) }

/-- Method `capacity_lithium_ion_t::updateCapacityForLifetime`. -/
def capacity_lithium_ion_t.updateCapacityForLifetime (s : capacity_t K)
    (capacity_percent : K) : capacity_t K :=
  capacity_t.update_SOC
    { s with q0 := s.q0 * (capacity_percent * 0.01),
             qmax := s.qmax0 * capacity_percent * 0.01 }

/-! ## `capacity_kibam_t` (two-tank kinetic battery model) -/

end Defs

/-- Members that `capacity_kibam_t` adds to `capacity_t`.  The member `_q1_0` is the
available charge returned by `q1()`, and `_q2_0` the bound charge returned by `q2()`;
`q1` and `q2` here are the members `_q1` and `_q2` that hold constructor arguments. -/
structure capacity_kibam_t (K : Type) extends capacity_t K where
  q10 : K
  q20 : K
  I20 : K
  q1 : K
  q2 : K
  t1 : K
  t2 : K
  F1 : K
  F2 : K
  k : K
  c : K
  qmaxI : K
  q1_0 : K
  q2_0 : K

section Defs

variable {K : Type} [LinearOrderedField K]

/-- The denominator `denom` of `capacity_kibam_t::c_compute`. -/
def capacity_kibam_t.c_compute_denom (exp : K → K) (F t1 t2 k_guess : K) : K :=
  F * (1 - exp (-k_guess * t1)) * t2 - (1 - exp (-k_guess * t2)) * t1
    - k_guess * F * t1 * t2 + k_guess * t1 * t2

/-- Method `capacity_kibam_t::c_compute`. -/
def capacity_kibam_t.c_compute (exp : K → K) (F t1 t2 k_guess : K) : K :=
  let num := F * (1 - exp (-k_guess * t1)) * t2 - (1 - exp (-k_guess * t2)) * t1
  let denom := capacity_kibam_t.c_compute_denom exp F t1 t2 k_guess
  num / denom

/-- Method `capacity_kibam_t::q1_compute`. -/
def capacity_kibam_t.q1_compute (exp : K → K) (s : capacity_kibam_t K) (q10 q0 dt I : K) : K :=
  let A := q10 * exp (-s.k * dt)
  let B := (q0 * s.k * s.c - I) * (1 - exp (-s.k * dt)) / s.k
  let C := I * s.c * (s.k * dt - 1 + exp (-s.k * dt)) / s.k
  A + B - C

/-- Method `capacity_kibam_t::q2_compute`. -/
def capacity_kibam_t.q2_compute (exp : K → K) (s : capacity_kibam_t K) (q20 q0 dt I : K) : K :=
  let A := q20 * exp (-s.k * dt)
  let B := q0 * (1 - s.c) * (1 - exp (-s.k * dt))
  let C := I * (1 - s.c) * (s.k * dt - 1 + exp (-s.k * dt)) / s.k
  A + B - C

/-- Method `capacity_kibam_t::Icmax_compute`. -/
def capacity_kibam_t.Icmax_compute (exp : K → K) (s : capacity_kibam_t K) (q10 q0 dt : K) : K :=
  let num := -s.k * s.c * s.qmax + s.k * q10 * exp (-s.k * dt)
    + q0 * s.k * s.c * (1 - exp (-s.k * dt))
  let denom := 1 - exp (-s.k * dt) + s.c * (s.k * dt - 1 + exp (-s.k * dt))
  num / denom

/-- Method `capacity_kibam_t::Idmax_compute`. -/
def capacity_kibam_t.Idmax_compute (exp : K → K) (s : capacity_kibam_t K) (q10 q0 dt : K) : K :=
  let num := s.k * q10 * exp (-s.k * dt) + q0 * s.k * s.c * (1 - exp (-s.k * dt))
  let denom := 1 - exp (-s.k * dt) + s.c * (s.k * dt - 1 + exp (-s.k * dt))
  num / denom

/-- Method `capacity_kibam_t::qmax_compute`. -/
def capacity_kibam_t.qmax_compute (exp : K → K) (s : capacity_kibam_t K) : K :=
  let num := s.q20 * ((1 - exp (-s.k * 20)) * (1 - s.c) + s.k * s.c * 20)
  let denom := s.k * s.c * 20
  num / denom

/-- Method `capacity_kibam_t::qmax_of_i_compute`. -/
def capacity_kibam_t.qmax_of_i_compute (exp : K → K) (s : capacity_kibam_t K) (T : K) : K :=
  (s.qmax * s.k * s.c * T) / (1 - exp (-s.k * T) + s.c * (s.k * T - 1 + exp (-s.k * T)))

/-- One iteration of the `for` loop of `parameter_compute`, on the triple
`(minRes, _k, _c)`.  When a denominator of `c_compute` is zero the IEEE quotient is a NaN
or an infinity, `fabs(c1 - c2)` is then a NaN or an infinity, and the test
`fabs(c1 - c2) < minRes` is false; the two guards on the denominators say so. -/
def capacity_kibam_t.parameter_compute_step (exp : K → K) (s : capacity_kibam_t K)
    (acc : K × K × K) (i : Nat) : K × K × K :=
  let minRes := acc.1
  let k_guess := (i : K) * 0.001
  let c1 := capacity_kibam_t.c_compute exp s.F1 s.t1 20 k_guess
  let c2 := capacity_kibam_t.c_compute exp s.F2 s.t1 s.t2 k_guess
  if capacity_kibam_t.c_compute_denom exp s.F1 s.t1 20 k_guess ≠ 0
      ∧ capacity_kibam_t.c_compute_denom exp s.F2 s.t1 s.t2 k_guess ≠ 0
      ∧ |c1 - c2| < minRes then
    (|c1 - c2|, k_guess, 0.5 * (c1 + c2))
  else
    acc

/-- Method `capacity_kibam_t::parameter_compute`: the scan over `i = 0, ..., 4999`, then
`_qmax = qmax_compute()`. -/
def capacity_kibam_t.parameter_compute (exp : K → K) (s : capacity_kibam_t K) :
    capacity_kibam_t K :=
  let r := (List.range 5000).foldl (capacity_kibam_t.parameter_compute_step exp s)
    (10000, s.k, s.c)
  let s1 := { s with k := r.2.1, c := r.2.2 }
  { s1 with qmax := capacity_kibam_t.qmax_compute exp s1 }

/-- The constructor `capacity_kibam_t::capacity_kibam_t(q20, t1, q1, q10)`.  The members
`_k` and `_c` are not initialised before `parameter_compute` runs and keep their initial
content when the scan accepts no candidate; `k_init` and `c_init` are that content.  The
members `_qmaxI`, `_q1_0` and `_q2_0` are written before they are read. -/
def capacity_kibam_t.new (exp : K → K) (q20 t1 q1 q10 : K) (k_init c_init : K) :
    capacity_kibam_t K :=
  let s0 : capacity_kibam_t K :=
    { tocapacity_t := capacity_t.new q20,
      q10 := q10, q20 := q20, I20 := q20 / 20,
      q1 := q1, q2 := q10, t1 := t1, t2 := 10,
      F1 := q1 / q20, F2 := q1 / q10,
      k := k_init, c := c_init, qmaxI := 0, q1_0 := 0, q2_0 := 0 }
  -- compute the parameters
  let s1 := capacity_kibam_t.parameter_compute exp s0
  let s2 := { s1 with qmax0 := s1.qmax }
  let T := s2.q0 / s2.I20
  let s3 := { s2 with qmaxI := capacity_kibam_t.qmax_of_i_compute exp s2 T }
  let s4 := { s3 with q0 := s3.q20 }
  let s5 := { s4 with q1_0 := s4.q0 * s4.c }
  { s5 with q2_0 := s5.q0 - s5.q1_0 }

/-- The current `_I` that `capacity_kibam_t::updateCapacity` applies: the requested current
`P / V`, limited by `Idmax` when discharging and by `Icmax` when charging. -/
def capacity_kibam_t.clamped_current (exp : K → K) (s : capacity_kibam_t K) (P V dt : K) : K :=
  let I := P / V
  let Idmax := capacity_kibam_t.Idmax_compute exp s s.q1_0 s.q0 dt
  let Icmax := capacity_kibam_t.Icmax_compute exp s s.q1_0 s.q0 dt
  if I > 0 then min I Idmax
  else if I < 0 then -(min |I| |Icmax|)
  else I

/-- The capacity part of `capacity_kibam_t::updateCapacity`, for the battery voltage `V`
read at entry: everything up to and including `check_charge_change()`. -/
def capacity_kibam_t.updateCapacity_core (exp : K → K) (s : capacity_kibam_t K)
    (P V dt : K) : capacity_kibam_t K :=
  let DOD_prev := s.DOD
  let P_ := P
  let I := capacity_kibam_t.clamped_current exp s P_ V dt
  -- new charge levels
  let q1 := capacity_kibam_t.q1_compute exp s s.q1_0 s.q0 dt I
  let q2 := capacity_kibam_t.q2_compute exp s s.q2_0 s.q0 dt I
  -- update max charge at this current
  let qmaxI := if |I| > 0 then capacity_kibam_t.qmax_of_i_compute exp s |s.qmaxI / I|
    else s.qmaxI
  -- update the SOC
  let SOC := ((q1 + q2) / s.qmax) * 100
  let SOC := if SOC > 100 then 100 else if SOC < 0 then 0 else SOC
  let DOD := 100 - SOC
  let s1 : capacity_kibam_t K :=
    { s with DOD_prev := DOD_prev, P := P_, I := I, qmaxI := qmaxI, SOC := SOC, DOD := DOD,
             q1_0 := q1, q2_0 := q2, q0 := q1 + q2 }
  { s1 with tocapacity_t := capacity_t.check_charge_change s1.tocapacity_t }

/-- Method `capacity_kibam_t::updateCapacity(P, voltage_model, dt, cycles)`: returns the new
capacity state and the new voltage state. -/
def capacity_kibam_t.updateCapacity (exp : K → K) (s : capacity_kibam_t K) (P : K)
    (vm : voltage_t K) (dt : K) (_cycles : Int) : capacity_kibam_t K × voltage_t K :=
  let s1 := capacity_kibam_t.updateCapacity_core exp s P vm.battery_voltage dt
  (s1, vm.updateVoltage s1.qmaxI s1.I s1.q0 dt)

/-- Method `capacity_kibam_t::updateCapacityForThermal`. -/
def capacity_kibam_t.updateCapacityForThermal (s : capacity_kibam_t K)
    (capacity_percent : K) : capacity_kibam_t K :=
  let s1 : capacity_kibam_t K :=
    { s with q0 := s.q0 * (capacity_percent * 0.01),
             q1_0 := s.q1_0 * (capacity_percent * 0.01),
             q2_0 := s.q2_0 * (capacity_percent * 0.01) }
  { s1 with tocapacity_t := capacity_t.update_SOC s1.tocapacity_t }

/-- Method `capacity_kibam_t::updateCapacityForLifetime`. -/
def capacity_kibam_t.updateCapacityForLifetime (s : capacity_kibam_t K)
    (capacity_percent : K) : capacity_kibam_t K :=
  let s1 : capacity_kibam_t K :=
    { s with q0 := s.q0 * (capacity_percent * 0.01),
             q1_0 := s.q1_0 * (capacity_percent * 0.01),
             q2_0 := s.q2_0 * (capacity_percent * 0.01),
             qmax := s.qmax0 * capacity_percent * 0.01 }
  { s1 with tocapacity_t := capacity_t.update_SOC s1.tocapacity_t }

end Defs

section Defs

variable {K : Type} [LinearOrderedField K]

/-- A KiBam state used to instantiate the theorems at a concrete input: `k = c = 1/2`,
`qmax = 120`, total charge `q0 = 60` split in equilibrium (`q1 = c * q0 = 30`,
`q2 = 30`), hence `SOC = DOD = 50`, at rest after a discharge. -/
def capacity_kibam_t.half_charged : capacity_kibam_t K :=
  { q0 := 60, qmax := 120, qmax0 := 120, I := 0, P := 0,
    SOC := 50, DOD := 50, DOD_prev := 50,
    prev_charge := ChargeState.DISCHARGE, chargeChange := false,
    q10 := 80, q20 := 100, I20 := 5, q1 := 60, q2 := 80, t1 := 1, t2 := 10,
    F1 := 60 / 100, F2 := 60 / 80, k := 1 / 2, c := 1 / 2, qmaxI := 110,
    q1_0 := 30, q2_0 := 30 }

end Defs

/-! ## Sequences of calls

A client of a capacity model calls `updateCapacity`, `updateCapacityForThermal` and
`updateCapacityForLifetime` in some order.  The definitions below replay such a sequence on
the pair of the capacity state and the voltage state. -/

section Defs

variable {K : Type} [LinearOrderedField K]

/-- Neither clamp of `capacity_lithium_ion_t::updateCapacity` is triggered by the request
`P` at battery voltage `V` over `dt`: after `_q0 -= _I*dt` the test `_q0 > _qmax` is false
and the test `_q0 < 0` is false. -/
def capacity_lithium_ion_t.no_clamp (s : capacity_t K) (P V dt : K) : Prop :=
  ¬ (s.q0 - P / V * dt > s.qmax) ∧ ¬ (s.q0 - P / V * dt < 0)

/-- Final state of a sequence of `updateCapacity(P, voltage_model, dt, cycles)` steps, given
as triples `(P, dt, cycles)`, first step first. -/
def capacity_lithium_ion_t.steps (st : capacity_t K × voltage_t K) :
    List (K × K × Int) → capacity_t K × voltage_t K
  | [] => st
  | (P, dt, cycles) :: rest =>
    capacity_lithium_ion_t.steps (capacity_lithium_ion_t.updateCapacity st.1 P st.2 dt cycles) rest

/-- Every step of the sequence sees a nonzero battery voltage and triggers no clamp. -/
def capacity_lithium_ion_t.steps_unclamped (st : capacity_t K × voltage_t K) :
    List (K × K × Int) → Prop
  | [] => True
  | (P, dt, cycles) :: rest =>
    st.2.battery_voltage ≠ 0
    ∧ capacity_lithium_ion_t.no_clamp st.1 P st.2.battery_voltage dt
    ∧ capacity_lithium_ion_t.steps_unclamped
        (capacity_lithium_ion_t.updateCapacity st.1 P st.2 dt cycles) rest

/-- The sum over the steps of `I() * dt`, with `I()` the current reported after the step. -/
def capacity_lithium_ion_t.charge_removed (st : capacity_t K × voltage_t K) :
    List (K × K × Int) → K
  | [] => 0
  | (P, dt, cycles) :: rest =>
    (capacity_lithium_ion_t.updateCapacity st.1 P st.2 dt cycles).1.I * dt
    + capacity_lithium_ion_t.charge_removed
        (capacity_lithium_ion_t.updateCapacity st.1 P st.2 dt cycles) rest

/-- The currents `I()` reported after each step. -/
def capacity_lithium_ion_t.reported_currents (st : capacity_t K × voltage_t K) :
    List (K × K × Int) → List K
  | [] => []
  | (P, dt, cycles) :: rest =>
    (capacity_lithium_ion_t.updateCapacity st.1 P st.2 dt cycles).1.I
    :: capacity_lithium_ion_t.reported_currents
        (capacity_lithium_ion_t.updateCapacity st.1 P st.2 dt cycles) rest

/-- The currents `P / V` requested by each step, `V` being the battery voltage at the
entry of the step. -/
def capacity_lithium_ion_t.requested_currents (st : capacity_t K × voltage_t K) :
    List (K × K × Int) → List K
  | [] => []
  | (P, dt, cycles) :: rest =>
    P / st.2.battery_voltage
    :: capacity_lithium_ion_t.requested_currents
        (capacity_lithium_ion_t.updateCapacity st.1 P st.2 dt cycles) rest

end Defs

/-! ## KiBam parameter scan -/

section Defs

variable {K : Type} [LinearOrderedField K]

/-- Candidate `i` of the scan of `parameter_compute`, `k_guess = i * 0.001`, has its two
estimates of `c` defined: both denominators of `c_compute` are nonzero. -/
def capacity_kibam_t.candidate_valid (exp : K → K) (s : capacity_kibam_t K) (i : Nat) : Prop :=
  capacity_kibam_t.c_compute_denom exp s.F1 s.t1 20 ((i : K) * 0.001) ≠ 0
  ∧ capacity_kibam_t.c_compute_denom exp s.F2 s.t1 s.t2 ((i : K) * 0.001) ≠ 0

/-- The residual `|c1 - c2|` of candidate `i` of the scan of `parameter_compute`. -/
def capacity_kibam_t.candidate_residual (exp : K → K) (s : capacity_kibam_t K) (i : Nat) : K :=
  |capacity_kibam_t.c_compute exp s.F1 s.t1 20 ((i : K) * 0.001)
    - capacity_kibam_t.c_compute exp s.F2 s.t1 s.t2 ((i : K) * 0.001)|

/-- The average `0.5 * (c1 + c2)` of candidate `i` of the scan of `parameter_compute`. -/
def capacity_kibam_t.candidate_c (exp : K → K) (s : capacity_kibam_t K) (i : Nat) : K :=
  0.5 * (capacity_kibam_t.c_compute exp s.F1 s.t1 20 ((i : K) * 0.001)
    + capacity_kibam_t.c_compute exp s.F2 s.t1 s.t2 ((i : K) * 0.001))

end Defs

/-! ## Undefined behaviour and loops -/

/-- Outcome of running a method whose C++ body can read a `std::vector` outside its bounds
or contains a `while` loop.  `done a` is normal completion with result `a`; `undefined` is
undefined behaviour (an out-of-bounds element access, `pop_back` or `erase` on an empty
vector); `out_of_fuel` says that the bound put on the number of loop iterations in the
model was reached. -/
inductive Outcome (α : Type) where
  | done (a : α)
  | undefined
  | out_of_fuel
  deriving DecidableEq, Repr

/-- Sequencing: a fault of the first part is the fault of the whole. -/
def Outcome.bind {α β : Type} : Outcome α → (α → Outcome β) → Outcome β
  | Outcome.done a, f => f a
  | Outcome.undefined, _ => Outcome.undefined
  | Outcome.out_of_fuel, _ => Outcome.out_of_fuel

instance : Monad Outcome where
  pure := Outcome.done
  bind := Outcome.bind

/-- The result of a completed run. -/
def Outcome.result? {α : Type} : Outcome α → Option α
  | Outcome.done a => some a
  | _ => none

/-! ## `lib_util` -/

/-- Modelled from the spec: the type `util::matrix_t<double>` of `lib_util.h`, which is not
part of the sources.  A matrix is its two dimensions and its entries in row-major order. -/
structure matrix_t (K : Type) where
  nrows : Nat
  ncols : Nat
  data : List K
  deriving DecidableEq

/-- Modelled from the spec: the element access `mat.at(i, j)` of `util::matrix_t`; an
access outside the dimensions is undefined. -/
def matrix_t.get {K : Type} (m : matrix_t K) (i j : Nat) : Outcome K :=
  if i < m.nrows ∧ j < m.ncols then
    match m.data.get? (i * m.ncols + j) with
    | some x => Outcome.done x
    | none => Outcome.undefined
  else Outcome.undefined

/-- The two functions of `lib_util` that `lifetime_t::bilinear` and
`thermal_t::capacity_percent` call, `util::linterp_col(mat, ixcol, xval, iycol)` and
`util::interpolate(x1, y1, x2, y2, x)`.  `lib_util` is not part of the sources, so the
two functions are parameters of the definitions that call them. -/
structure util_t (K : Type) where
  linterp_col : matrix_t K → Nat → K → Nat → K
  interpolate : K → K → K → K → K → K

/-! ## `lifetime_t` -/

/-- The return codes `LT_SUCCESS`, `LT_GET_DATA`, `LT_RERANGE` of the rainflow methods.
Modelled from the spec: the constants are declared in `lib_battery.h`, which is not part
of the sources; the code only compares them for equality. -/
inductive LT_code where
  | LT_SUCCESS
  | LT_GET_DATA
  | LT_RERANGE
  deriving DecidableEq, Repr

/-- Members of `lifetime_t`. -/
structure lifetime_t (K : Type) where
  batt_lifetime_matrix : matrix_t K
  DOD_vect : List K
  cycles_vect : List K
  capacities_vect : List K
  nCycles : Int
  Dlt : K
  Clt : K
  jlt : Int
  klt : Int
  Xlt : K
  Ylt : K
  Slt : K
  Range : K
  average_range : K
  fortyPercent : Int
  hundredPercent : Int
  Peaks : List K
  deriving DecidableEq

section Defs

variable {K : Type} [LinearOrderedField K]

/-- Element access `v[i]` of a `std::vector<double>` with an `int` index: undefined outside
`0 ≤ i < v.size()`. -/
def vector_at (v : List K) (i : Int) : Outcome K :=
  if 0 ≤ i then
    match v.get? i.toNat with
    | some x => Outcome.done x
    | none => Outcome.undefined
  else Outcome.undefined

/-- Method `std::vector::pop_back`: undefined on an empty vector. -/
def vector_pop_back (v : List K) : Outcome (List K) :=
  match v with
  | [] => Outcome.undefined
  | _ :: _ => Outcome.done v.dropLast

/-- The call `v.erase(v.begin())`: undefined on an empty vector. -/
def vector_erase_begin (v : List K) : Outcome (List K) :=
  match v with
  | [] => Outcome.undefined
  | _ :: rest => Outcome.done rest

/-- The first loop of `bilinear`: the distinct values of `_DOD_vect`, in order of first
occurrence, starting from `D_unique_vect = [_DOD_vect[0]]`. -/
def lifetime_t.D_unique_vect (d0 : K) (DOD_vect : List K) : List K :=
  DOD_vect.foldl (fun u d => if d ∈ u then u else u ++ [d]) [d0]

/-- The second loop of `bilinear`: the bracket `(D_lo, D_hi)` of `DOD`, from `(0, 100)`. -/
def lifetime_t.bracket (DOD : K) (DOD_vect : List K) : K × K :=
  DOD_vect.foldl
    (fun b D =>
      if D < DOD ∧ D > b.1 then (D, b.2)
      else if D > DOD ∧ D < b.2 then (b.1, D)
      else b)
    (0, 100)

/-- The rows of the fade table as the constructor stored them: `_DOD_vect`, `_cycles_vect`
and `_capacities_vect` are filled in lockstep and never modified, so reading the three at
one index `i` is reading the `i`-th element of their zip. -/
def lifetime_t.rows (s : lifetime_t K) : List (K × K × K) :=
  List.zip s.DOD_vect (List.zip s.cycles_vect s.capacities_vect)

/-- The pairs appended to `C_n_low_vect` or `C_n_high_vect` for the rows in `rows`:
`_cycles_vect[i]` then `_capacities_vect[i]`. -/
def lifetime_t.flatten_rows (rows : List (K × K × K)) : List K :=
  rows.flatMap (fun r => [r.2.1, r.2.2])

/-- The rows synthesised when one side of the bracket has no table row: `n` rows
`(first + i * 500, value)`. -/
def lifetime_t.synthetic_rows (n : Nat) (first value : K) : List K :=
  (List.range n).flatMap (fun i => [first + (i : K) * 500, value])

/-- The body of `lifetime_t::bilinear(DOD, cycle_number)` once `_DOD_vect[0]` has been
read as `d0`.  The locals `D_min` and `D_max` are written and never read; they are left
out. -/
def lifetime_t.bilinear_value (u : util_t K) (s : lifetime_t K) (d0 : K) (DOD : K)
    (cycle_number : Int) : K :=
  let n := (lifetime_t.D_unique_vect d0 s.DOD_vect).length
  if n > 1 then
    -- get where DOD is bracketed [D_lo, DOD, D_hi]
    let D_lo := (lifetime_t.bracket DOD s.DOD_vect).1
    let D_hi := (lifetime_t.bracket DOD s.DOD_vect).2
    -- separate table into bins
    let low_rows := s.rows.filter (fun r => decide (r.1 = D_lo))
    let high_rows := s.rows.filter (fun r => decide (¬ r.1 = D_lo ∧ r.1 = D_hi))
    let n_rows_lo := low_rows.length
    let n_rows_hi := high_rows.length
    let n_cols := 2
    -- if we aren't bounded, fill in values
    let C_n_low_vect : List K :=
      if n_rows_lo = 0 then lifetime_t.synthetic_rows n_rows_hi 0 100 else []
    let C_n_high_vect : List K :=
      if n_rows_lo = 0 then []
      else if n_rows_hi = 0 then lifetime_t.synthetic_rows n_rows_lo 100 0 else []
    let C_n_low_vect := C_n_low_vect ++ lifetime_t.flatten_rows low_rows
    let C_n_high_vect := C_n_high_vect ++ lifetime_t.flatten_rows high_rows
    let n_rows_lo := C_n_low_vect.length / n_cols
    let C_n_low : matrix_t K := { nrows := n_rows_lo, ncols := n_cols, data := C_n_low_vect }
    let C_n_high : matrix_t K := { nrows := n_rows_lo, ncols := n_cols, data := C_n_high_vect }
    -- compute C(D_lo, n), C(D_hi, n)
    let C_Dlo := u.linterp_col C_n_low 0 (cycle_number : K) 1
    let C_Dhi := u.linterp_col C_n_high 0 (cycle_number : K) 1
    let C_Dlo := if C_Dlo < 0 then 0 else C_Dlo
    let C_Dhi := if C_Dhi > 100 then 100 else C_Dhi
    -- interpolate to get C(D, n)
    u.interpolate D_lo C_Dlo D_hi C_Dhi DOD
  else
    -- just have one row, single level interpolation
    u.linterp_col s.batt_lifetime_matrix 1 (cycle_number : K) 2

/-- Method `lifetime_t::bilinear(DOD, cycle_number)`.  Its first statement reads
`_DOD_vect[0]`, which is undefined when the vector is empty. -/
def lifetime_t.bilinear (u : util_t K) (s : lifetime_t K) (DOD : K) (cycle_number : Int) :
    Outcome K :=
  match s.DOD_vect with
  | [] => Outcome.undefined
  | d0 :: _ => Outcome.done (lifetime_t.bilinear_value u s d0 DOD cycle_number)

/-- The loop of the constructor that copies the three columns of the table, row by row. -/
def lifetime_t.read_columns (m : matrix_t K) :
    List Nat → List K × List K × List K → Outcome (List K × List K × List K)
  | [], acc => Outcome.done acc
  | i :: rest, acc => do
    let d ← m.get i 0
    let c ← m.get i 1
    let p ← m.get i 2
    lifetime_t.read_columns m rest (acc.1 ++ [d], acc.2.1 ++ [c], acc.2.2 ++ [p])

/-- The constructor `lifetime_t::lifetime_t(batt_lifetime_matrix)`.  The members other than
the table are zero when `bilinear(0., 0)` runs (the vector `_Peaks` is empty). -/
def lifetime_t.new (u : util_t K) (batt_lifetime_matrix : matrix_t K) :
    Outcome (lifetime_t K) := do
  let cols ← lifetime_t.read_columns batt_lifetime_matrix
    (List.range batt_lifetime_matrix.nrows) ([], [], [])
  let s : lifetime_t K :=
    { batt_lifetime_matrix := batt_lifetime_matrix,
      DOD_vect := cols.1, cycles_vect := cols.2.1, capacities_vect := cols.2.2,
      nCycles := 0, Dlt := 0, Clt := 0, jlt := 0, klt := 0, Xlt := 0, Ylt := 0, Slt := 0,
      Range := 0, average_range := 0, fortyPercent := 0, hundredPercent := 0, Peaks := [] }
  let Clt ← lifetime_t.bilinear u s 0 0
  pure { s with Clt := Clt }

end Defs

section Defs

variable {K : Type} [LinearOrderedField K]

/-- Method `lifetime_t::rainflow_ranges`. -/
def lifetime_t.rainflow_ranges (s : lifetime_t K) : Outcome (lifetime_t K) := do
  let a ← vector_at s.Peaks (s.jlt - 1)
  let b ← vector_at s.Peaks (s.jlt - 2)
  let Ylt := |a - b|
  let c ← vector_at s.Peaks s.jlt
  let a ← vector_at s.Peaks (s.jlt - 1)
  let Xlt := |c - a|
  pure { s with Ylt := Ylt, Xlt := Xlt }

/-- Method `lifetime_t::rainflow_ranges_circular(index)`. -/
def lifetime_t.rainflow_ranges_circular (s : lifetime_t K) (index : Int) :
    Outcome (lifetime_t K) :=
  let end_ : Int := (s.Peaks.length : Int) - 1
  if index = 0 then do
    let p0 ← vector_at s.Peaks 0
    let pe ← vector_at s.Peaks end_
    let Xlt := |p0 - pe|
    let pe ← vector_at s.Peaks end_
    let pe1 ← vector_at s.Peaks (end_ - 1)
    let Ylt := |pe - pe1|
    pure { s with Xlt := Xlt, Ylt := Ylt }
  else if index = 1 then do
    let p1 ← vector_at s.Peaks 1
    let p0 ← vector_at s.Peaks 0
    let Xlt := |p1 - p0|
    let p0 ← vector_at s.Peaks 0
    let pe ← vector_at s.Peaks end_
    let Ylt := |p0 - pe|
    pure { s with Xlt := Xlt, Ylt := Ylt }
  else
    lifetime_t.rainflow_ranges s

/-- The test `(_Slt == _Peaks[_jlt - 1]) || (_Slt == _Peaks[_jlt - 2])` of
`rainflow_compareRanges`: the second element is read only when the first comparison is
false. -/
def lifetime_t.S_is_endpoint (s : lifetime_t K) : Outcome Bool := do
  let p1 ← vector_at s.Peaks (s.jlt - 1)
  if s.Slt = p1 then pure true
  else do
    let p2 ← vector_at s.Peaks (s.jlt - 2)
    pure (decide (s.Slt = p2))

/-- The block that counts the range `Y`, which `rainflow_compareRanges` (step 5) and
`rainflow_finish` (step 8) both contain: `_Range`, `_average_range`, `_nCycles`, `_Clt`
and the two threshold counters. -/
def lifetime_t.count_range (u : util_t K) (s : lifetime_t K) : Outcome (lifetime_t K) := do
  let Range := s.Ylt
  let average_range := (s.average_range * (s.nCycles : K) + Range) / ((s.nCycles + 1 : Int) : K)
  let s1 : lifetime_t K :=
    { s with Range := Range, average_range := average_range, nCycles := s.nCycles + 1 }
  let Clt ← lifetime_t.bilinear u s1 s1.average_range s1.nCycles
  let s2 : lifetime_t K := { s1 with Clt := Clt }
  -- check DOD, increment counters
  if s2.Range > 40 then
    pure { s2 with fortyPercent := s2.fortyPercent + 1 }
  else if s2.Range > 98 then
    pure { s2 with hundredPercent := s2.hundredPercent + 1 }
  else
    pure s2

/-- The first part of `rainflow_compareRanges`, up to the comment `Step 5`: the values of
`retCode` and `contained`, and the state (step 4 moves `S`). -/
def lifetime_t.compareRanges_decide (s : lifetime_t K) :
    Outcome (LT_code × Bool × lifetime_t K) :=
  if s.Xlt < s.Ylt then
    pure (LT_code.LT_GET_DATA, true, s)
  else if s.Xlt = s.Ylt then do
    let e ← lifetime_t.S_is_endpoint s
    if e then pure (LT_code.LT_GET_DATA, true, s)
    else pure (LT_code.LT_SUCCESS, false, s)
  else if s.Xlt ≥ s.Ylt then
    if s.Xlt > s.Ylt then do
      let e ← lifetime_t.S_is_endpoint s
      if e then do
        -- Step 4: move S to next point in vector, then go to step 1
        let klt := s.klt + 1
        let Slt ← vector_at s.Peaks klt
        pure (LT_code.LT_GET_DATA, true, { s with klt := klt, Slt := Slt })
      else pure (LT_code.LT_SUCCESS, false, s)
    else if s.Xlt = s.Ylt then do
      let e ← lifetime_t.S_is_endpoint s
      if e then pure (LT_code.LT_SUCCESS, true, s)
      else pure (LT_code.LT_SUCCESS, false, s)
    else pure (LT_code.LT_SUCCESS, true, s)
  else pure (LT_code.LT_SUCCESS, true, s)

/-- Method `lifetime_t::rainflow_compareRanges`: the return code and the new state. -/
def lifetime_t.rainflow_compareRanges (u : util_t K) (s : lifetime_t K) :
    Outcome (LT_code × lifetime_t K) := do
  let r ← lifetime_t.compareRanges_decide s
  let retCode := r.1
  let contained := r.2.1
  let s1 := r.2.2
  -- Step 5: count range Y, discard peak & valley of Y, go to Step 2
  if ¬ contained then do
    let s2 ← lifetime_t.count_range u s1
    -- discard peak & valley of Y
    let save ← vector_at s2.Peaks s2.jlt
    let p ← vector_pop_back s2.Peaks
    let p ← vector_pop_back p
    let p ← vector_pop_back p
    pure (LT_code.LT_RERANGE, { s2 with Peaks := p ++ [save], jlt := s2.jlt - 2 })
  else
    pure (retCode, s1)

/-- The `while (atStepTwo)` loop of `lifetime_t::rainflow`, with a bound on the number of
iterations: the final `retCode` and the state. -/
def lifetime_t.rainflow_loop (u : util_t K) :
    Nat → lifetime_t K → Outcome (LT_code × lifetime_t K)
  | 0, _ => Outcome.out_of_fuel
  | fuel + 1, s =>
    if s.jlt ≥ 2 then do
      -- Step 2: form ranges X, Y
      let s1 ← lifetime_t.rainflow_ranges s
      -- Step 3: compare ranges
      let r ← lifetime_t.rainflow_compareRanges u s1
      if r.1 = LT_code.LT_GET_DATA then pure r
      else lifetime_t.rainflow_loop u fuel r.2
    else
      pure (LT_code.LT_GET_DATA, s)

/-- Method `lifetime_t::rainflow(DOD)`.  Every iteration of the loop that does not leave it
has counted a range and removed two elements of `_Peaks`, so `_Peaks.size() + 1` bounds the
number of iterations. -/
def lifetime_t.rainflow (u : util_t K) (s : lifetime_t K) (DOD : K) : Outcome (lifetime_t K) := do
  let s1 : lifetime_t K := { s with Peaks := s.Peaks ++ [DOD] }
  -- assign S, which is the starting peak or valley
  let s2 : lifetime_t K := if s1.jlt = 0 then { s1 with Slt := DOD, klt := s1.jlt } else s1
  let r ← lifetime_t.rainflow_loop u (s2.Peaks.length + 1) s2
  if r.1 = LT_code.LT_GET_DATA then pure { r.2 with jlt := r.2.jlt + 1 }
  else pure r.2

/-- The block of `rainflow_finish` after `Step 8` when `X < Y` is false: count the range
`Y` and discard its peak and valley.  The conditions `if (ii = 0)` and `else if (ii = 1)`
are assignments: the first assigns `0` and is false, the second assigns `1` and is true,
so the branch `erase(begin()); pop_back()` always runs and `ii` is `1` afterwards. -/
def lifetime_t.finish_count (u : util_t K) (s : lifetime_t K) :
    Outcome (lifetime_t K × Int) := do
  let s1 ← lifetime_t.count_range u s
  let ii : Int := 1
  let p ← vector_erase_begin s1.Peaks
  let p ← vector_pop_back p
  pure ({ s1 with Peaks := p, jlt := s1.jlt - 2 }, ii)

/-- The `while (atStepSeven)` loop of `rainflow_finish`, with a bound on the number of
iterations: the state and the locals `ii` and `rereadCount` when the loop is left. -/
def lifetime_t.finish_inner (u : util_t K) :
    Nat → lifetime_t K → Int → K → Int → Outcome (lifetime_t K × Int × Int)
  | 0, _, _, _, _ => Outcome.out_of_fuel
  | fuel + 1, s, ii, P, rereadCount =>
    if s.jlt ≥ 2 then do
      let s1 ← lifetime_t.rainflow_ranges_circular s ii
      -- Step 8: compare X, Y
      if s1.Xlt < s1.Ylt then
        pure (s1, ii + 1, rereadCount)
      else do
        let r ← lifetime_t.finish_count u s1
        lifetime_t.finish_inner u fuel r.1 r.2 P rereadCount
    else if s.jlt = 1 then do
      let s1 : lifetime_t K := { s with Peaks := s.Peaks ++ [P], jlt := s.jlt + 1 }
      -- move to end point
      let ii := s1.jlt
      let s2 ← lifetime_t.rainflow_ranges_circular s1 ii
      if s2.Xlt < s2.Ylt then
        pure (s2, ii + 1, rereadCount)
      else do
        let r ← lifetime_t.finish_count u s2
        pure (r.1, r.2, rereadCount)
    else
      -- _jlt == 0: force out of while
      pure (s, ii, rereadCount + 1)

/-- The `while (rereadCount <= 1)` loop of `rainflow_finish`, with a bound on the number of
iterations.  Every iteration of the inner loop that does not leave it has lowered `_jlt`
by two from a value of at least two, so `_jlt + 1` bounds its iterations. -/
def lifetime_t.finish_outer (u : util_t K) :
    Nat → lifetime_t K → Int → K → Int → Outcome (lifetime_t K)
  | 0, _, _, _, _ => Outcome.out_of_fuel
  | fuel + 1, s, ii, _, rereadCount =>
    if rereadCount ≤ 1 then
      if 0 ≤ ii ∧ ii < (s.Peaks.length : Int) then do
        let P ← vector_at s.Peaks ii
        -- Step 6
        let rereadCount := if P = s.Slt then rereadCount + 1 else rereadCount
        let r ← lifetime_t.finish_inner u (s.jlt.toNat + 1) s ii P rereadCount
        lifetime_t.finish_outer u fuel r.1 r.2.1 P r.2.2
      else pure s
    else pure s

/-- Method `lifetime_t::rainflow_finish`, with a bound `fuel` on the number of iterations of
its outer loop. -/
def lifetime_t.rainflow_finish (u : util_t K) (fuel : Nat) (s : lifetime_t K) :
    Outcome (lifetime_t K) :=
  lifetime_t.finish_outer u fuel { s with jlt := s.jlt - 1 } 0 0 0

/-- Method `lifetime_t::cycles_elapsed`. -/
def lifetime_t.cycles_elapsed (s : lifetime_t K) : Int := s.nCycles

/-- Method `lifetime_t::capacity_percent`. -/
def lifetime_t.capacity_percent (s : lifetime_t K) : K := s.Clt

/-- Method `lifetime_t::forty_percent_cycles`. -/
def lifetime_t.forty_percent_cycles (s : lifetime_t K) : Int := s.fortyPercent

/-- Method `lifetime_t::hundred_percent_cycles`. -/
def lifetime_t.hundred_percent_cycles (s : lifetime_t K) : Int := s.hundredPercent

/-- Feeding a list of samples to `rainflow`, first sample first. -/
def lifetime_t.rainflow_all (u : util_t K) (s : lifetime_t K) : List K → Outcome (lifetime_t K)
  | [] => pure s
  | x :: rest => do
    let s1 ← lifetime_t.rainflow u s x
    lifetime_t.rainflow_all u s1 rest

/-- Every range of the sequence is smaller than the range before it:
`|c - b| < |b - a|` for all consecutive `a, b, c`. -/
def ranges_decreasing : List K → Prop
  | a :: b :: c :: rest => |c - b| < |b - a| ∧ ranges_decreasing (b :: c :: rest)
  | _ => True

/-! ### `lib_util`, modelled -/

/-- Modelled from the spec: `util::interpolate(x1, y1, x2, y2, x)` of `lib_util`, which is
not part of the sources: the value at `x` of the line through `(x1, y1)` and `(x2, y2)`
("linearly interpolate"). -/
def util.interpolate (x1 y1 x2 y2 x : K) : K :=
  y1 + (y2 - y1) * (x - x1) / (x2 - x1)

/-- Piecewise-linear interpolation through a list of points of ascending abscissa: the
segment used is the first whose right end is not below `x`, and the last one beyond. -/
def util.linterp_points : List (K × K) → K → K
  | [], _ => 0
  | [p], _ => p.2
  | p :: q :: rest, x =>
    if x ≤ q.1 ∨ rest = [] then util.interpolate p.1 p.2 q.1 q.2 x
    else util.linterp_points (q :: rest) x

/-- Modelled from the spec: `util::linterp_col(mat, ixcol, xval, iycol)` of `lib_util`,
which is not part of the sources: linear interpolation of column `iycol` against column
`ixcol` along the rows of `mat` ("linearly interpolate retained-capacity against cycle
count along that DOD's sub-curve"). -/
def util.linterp_col (mat : matrix_t K) (ixcol : Nat) (xval : K) (iycol : Nat) : K :=
  util.linterp_points
    ((List.range mat.nrows).map (fun i =>
      ((mat.data.get? (i * mat.ncols + ixcol)).getD 0,
       (mat.data.get? (i * mat.ncols + iycol)).getD 0)))
    xval

/-- The two modelled functions of `lib_util`. -/
def util.modelled : util_t K :=
  { linterp_col := util.linterp_col, interpolate := util.interpolate }

/-- A fade table used to instantiate the theorems at a concrete input, rows
`(DOD, cycles, capacity)`: at 20 % depth of discharge `100 %` at `0` cycles and `90 %` at
`1000` cycles, at 80 % depth of discharge `100 %` at `0` cycles and `50 %` at `1000`
cycles. -/
def fade_table_example : matrix_t K :=
  { nrows := 4, ncols := 3,
    data := [20, 0, 100, 20, 1000, 90, 80, 0, 100, 80, 1000, 50] }

/-- A lifetime model of `fade_table_example` that has counted nothing, with the given peak
buffer, cursors and reference; `example_state [] 0 0 0` is the freshly constructed model. -/
def lifetime_t.example_state (Peaks : List K) (jlt klt : Int) (Slt : K) : lifetime_t K :=
  { batt_lifetime_matrix := fade_table_example,
    DOD_vect := [20, 20, 80, 80], cycles_vect := [0, 1000, 0, 1000],
    capacities_vect := [100, 90, 100, 50],
    nCycles := 0, Dlt := 0, Clt := 100, jlt := jlt, klt := klt, Xlt := 0, Ylt := 0,
    Slt := Slt, Range := 0, average_range := 0, fortyPercent := 0, hundredPercent := 0,
    Peaks := Peaks }

/-! ## `thermal_t` -/

end Defs

/-- Members of `thermal_t`. -/
structure thermal_t (K : Type) where
  cap_vs_temp : matrix_t K
  mass : K
  length : K
  width : K
  height : K
  Cp : K
  h : K
  T_room : K
  R : K
  A : K
  T_battery : K
  capacity_percent : K

section Defs

variable {K : Type} [LinearOrderedField K]

/-- The loop of the constructor `thermal_t::thermal_t` that adds `273.15` to column `0` of
`_cap_vs_temp`, row by row; an element access outside the matrix is undefined. -/
def thermal_t.convert_rows (m : matrix_t K) : List Nat → Outcome (matrix_t K)
  | [] => Outcome.done m
  | i :: rest => do
    let x ← m.get i 0
    thermal_t.convert_rows { m with data := m.data.set (i * m.ncols + 0) (x + 273.15) } rest

/-- The constructor `thermal_t::thermal_t(mass, length, width, height, Cp, h, T_room, R,
c_vs_t)`. -/
def thermal_t.new (mass length width height Cp h T_room R : K) (c_vs_t : matrix_t K) :
    Outcome (thermal_t K) := do
  let cap_vs_temp ← thermal_t.convert_rows c_vs_t (List.range c_vs_t.nrows)
  pure
    { cap_vs_temp := cap_vs_temp, mass := mass, length := length, width := width,
      height := height, Cp := Cp, h := h, T_room := T_room, R := R,
      capacity_percent := 100,
      -- assume all surfaces are exposed
      A := 2 * (length * width + length * height + width * height),
      -- initialize to room temperature
      T_battery := T_room }

/-- Method `thermal_t::f(T_battery, I)`. -/
def thermal_t.f (t : thermal_t K) (T_battery I : K) : K :=
  (1 / (t.mass * t.Cp)) * ((t.h * (t.T_room - T_battery) * t.A) + I ^ 2 * t.R)

/-- Method `thermal_t::rk4(I, dt)`. -/
def thermal_t.rk4 (t : thermal_t K) (I dt : K) : K :=
  let k1 := dt * t.f t.T_battery I
  let k2 := dt * t.f (t.T_battery + k1 / 2) I
  let k3 := dt * t.f (t.T_battery + k2 / 2) I
  let k4 := dt * t.f (t.T_battery + k3) I
  t.T_battery + (1 / 6) * (k1 + k4) + (1 / 3) * (k2 + k3)

/-- Method `thermal_t::trapezoidal(I, dt)`. -/
def thermal_t.trapezoidal (t : thermal_t K) (I dt : K) : K :=
  let B := 1 / (t.mass * t.Cp)
  let C := t.h * t.A
  let D := I ^ 2 * t.R
  let T_prime := t.f t.T_battery I
  (t.T_battery + 0.5 * dt * (T_prime + B * (C * t.T_room + D))) / (1 + 0.5 * dt * B * C)

/-- Method `thermal_t::updateTemperature(I, dt)`.  The constant `_hours_to_seconds` is
declared in `lib_battery.h`, which is not part of the sources; it is the parameter
`hours_to_seconds`. -/
def thermal_t.updateTemperature (hours_to_seconds : K) (t : thermal_t K) (I dt : K) :
    thermal_t K :=
  let T_new := t.trapezoidal I (dt * hours_to_seconds)
  { t with T_battery := T_new }

/-- Method `thermal_t::capacity_percent()`. -/
def thermal_t.get_capacity_percent (u : util_t K) (t : thermal_t K) : K :=
  u.linterp_col t.cap_vs_temp 0 t.T_battery 1

/-- A sequence of `updateTemperature(0, dt)` calls, one per element of `dts`. -/
def thermal_t.rest_steps (hours_to_seconds : K) (t : thermal_t K) : List K → thermal_t K
  | [] => t
  | dt :: rest =>
    thermal_t.rest_steps hours_to_seconds (t.updateTemperature hours_to_seconds 0 dt) rest

/-- The denominator of `trapezoidal` is not zero for any step of the list: with `dt` the
step that is integrated, `1 + dt*h*A/(2*mass*Cp) ≠ 0`. -/
def thermal_t.steps_regular (hours_to_seconds : K) (t : thermal_t K) : List K → Prop
  | [] => True
  | dt :: rest =>
    0 ≤ dt ∧ 1 + (dt * hours_to_seconds) * t.h * t.A / (2 * t.mass * t.Cp) ≠ 0
    ∧ thermal_t.steps_regular hours_to_seconds t rest

/-- A thermal state used to instantiate the theorems at a concrete input: a battery of
`500` kg and unit dimensions at the ambient temperature `293.15` K. -/
def thermal_t.example_state : thermal_t K :=
  { cap_vs_temp := { nrows := 2, ncols := 2, data := [273.15, 80, 298.15, 100] },
    mass := 500, length := 1, width := 1, height := 1, Cp := 1000, h := 5,
    T_room := 293.15, R := 0.001, A := 6, T_battery := 293.15, capacity_percent := 100 }

end Defs

/-! ## Fit of the dynamic voltage model -/

section Defs

variable {K : Type} [LinearOrderedField K]

/-- Method `voltage_dynamic_t::parameter_compute` (Tremblay 2009, page 2): the five fitted
constants from the seven reference inputs; `exp` is `std::exp`. -/
def voltage_dynamic_t.parameter_compute (exp : K → K) (d : voltage_dynamic_t K) :
    voltage_dynamic_t K :=
  let eta : K := 0.995
  let I := d.Qfull * d.C_rate
  let R := d.Vnom * (1 - eta) / (d.C_rate * d.Qnom)
  let A := d.Vfull - d.Vexp
  let B := 3 / d.Qexp
  let K_ := ((d.Vfull - d.Vnom + A * (exp (-B * d.Qnom) - 1)) * (d.Qfull - d.Qnom)) / d.Qnom
  let E0 := d.Vfull + K_ + R * I - A
  { d with R := R, A := A, B := B, K_ := K_, E0 := E0 }

/-- The constructor `voltage_dynamic_t::voltage_dynamic_t`: the cell voltage starts at
`Vfull` (the argument `voltage` is overwritten) and the constants are fitted.  The five
fitted members are not initialised before `parameter_compute` assigns all of them. -/
def voltage_dynamic_t.new (exp : K → K) (num_cells : Int)
    (_voltage Vfull Vexp Vnom Qfull Qexp Qnom C_rate V_cutoff : K) : voltage_t K :=
  { num_cells := num_cells, cell_voltage := Vfull, cutoff_voltage := V_cutoff,
    dynamic := some (voltage_dynamic_t.parameter_compute exp
      { Vfull := Vfull, Vexp := Vexp, Vnom := Vnom, Qfull := Qfull, Qexp := Qexp,
        Qnom := Qnom, C_rate := C_rate, R := 0, A := 0, B := 0, K_ := 0, E0 := 0 }) }

/-- Reference points of a lithium-ion cell used to instantiate the theorems: 4.1 V full,
4.05 V at the end of the exponential zone, 3.4 V nominal; 2.25, 0.04 and 2.0 Ah. -/
def voltage_dynamic_t.example_points : voltage_dynamic_t K :=
  { Vfull := 4.1, Vexp := 4.05, Vnom := 3.4, Qfull := 2.25, Qexp := 0.04, Qnom := 2,
    C_rate := 0.2, R := 0, A := 0, B := 0, K_ := 0, E0 := 0 }

end Defs

/-! ## The capacity object behind a `capacity_t *` -/

/-- The object a `capacity_t *` points to: one of the two derived classes.  The virtual
methods dispatch on the constructor. -/
inductive capacity_model (K : Type) where
  | kibam (c : capacity_kibam_t K)
  | lithium_ion (c : capacity_t K)

/-- State of a `losses_t` object.  Its three pointers `_lifetime`, `_thermal` and
`_capacity` refer to the objects that the owning battery holds; the methods below take
these objects as arguments. -/
structure losses_t where
  nCycle : Int
  deriving DecidableEq, Repr

/-- State of a `battery_t` object together with the five objects it points to. -/
structure battery_t (K : Type) where
  capacity : capacity_model K
  voltage : voltage_t K
  lifetime : lifetime_t K
  thermal : thermal_t K
  losses : losses_t
  firstStep : Bool
  power_conversion_efficiency : K
  dt : K

/-- State of a `battery_bank_t` object together with its battery. -/
structure battery_bank_t (K : Type) where
  battery : battery_t K
  num_batteries_series : Int
  num_batteries_parallel : Int
  num_batteries : Int
  battery_chemistry : Int
  power_conversion_efficiency : K

/-- State of a `dispatch_manual_t` object (with the members of `dispatch_t`) together with
its bank.  The schedule `util::matrix_static_t<float, 12, 24>` is a 12 by 24 table of
`float` values, each of which is a rational number; the three `bool *` members are the
arrays they point to. -/
structure dispatch_manual_t (K : Type) where
  BatteryBank : battery_bank_t K
  dt : K
  pv_to_load : K
  battery_to_load : K
  grid_to_load : K
  e_tofrom_batt : K
  e_grid : K
  sched : Fin 12 → Fin 24 → ℚ
  charge_array : List Bool
  discharge_array : List Bool
  gridcharge_array : List Bool
  can_charge : Bool
  can_discharge : Bool
  can_grid_charge : Bool

section Defs

variable {K : Type} [LinearOrderedField K]

/-- The `capacity_t` members of the object. -/
def capacity_model.base : capacity_model K → capacity_t K
  | capacity_model.kibam c => c.tocapacity_t
  | capacity_model.lithium_ion c => c

/-- Method `capacity_t::I`. -/
def capacity_model.I (c : capacity_model K) : K := c.base.I

/-- Method `capacity_t::q0`. -/
def capacity_model.q0 (c : capacity_model K) : K := c.base.q0

/-- Method `capacity_t::qmax`. -/
def capacity_model.qmax (c : capacity_model K) : K := c.base.qmax

/-- Method `capacity_t::prev_DOD`. -/
def capacity_model.prev_DOD (c : capacity_model K) : K := c.base.prev_DOD

/-- Method `capacity_t::chargeChanged`. -/
def capacity_model.chargeChanged (c : capacity_model K) : Bool := c.base.chargeChanged

/-- The virtual `q1()`: the available tank `_q1_0` for KiBam and `_q0` for lithium-ion. -/
def capacity_model.q1 : capacity_model K → K
  | capacity_model.kibam c => c.q1_0
  | capacity_model.lithium_ion c => c.q0

/-- The virtual `updateCapacity(P, voltage_model, dt, cycles)`. -/
def capacity_model.updateCapacity (exp : K → K) (c : capacity_model K) (P : K)
    (vm : voltage_t K) (dt : K) (cycles : Int) : capacity_model K × voltage_t K :=
  match c with
  | capacity_model.kibam s =>
    let r := capacity_kibam_t.updateCapacity exp s P vm dt cycles
    (capacity_model.kibam r.1, r.2)
  | capacity_model.lithium_ion s =>
    let r := capacity_lithium_ion_t.updateCapacity s P vm dt cycles
    (capacity_model.lithium_ion r.1, r.2)

/-- The virtual `updateCapacityForThermal(capacity_percent)`. -/
def capacity_model.updateCapacityForThermal (c : capacity_model K) (capacity_percent : K) :
    capacity_model K :=
  match c with
  | capacity_model.kibam s =>
    capacity_model.kibam (capacity_kibam_t.updateCapacityForThermal s capacity_percent)
  | capacity_model.lithium_ion s =>
    capacity_model.lithium_ion
      (capacity_lithium_ion_t.updateCapacityForThermal s capacity_percent)

/-- The virtual `updateCapacityForLifetime(capacity_percent)`. -/
def capacity_model.updateCapacityForLifetime (c : capacity_model K) (capacity_percent : K) :
    capacity_model K :=
  match c with
  | capacity_model.kibam s =>
    capacity_model.kibam (capacity_kibam_t.updateCapacityForLifetime s capacity_percent)
  | capacity_model.lithium_ion s =>
    capacity_model.lithium_ion
      (capacity_lithium_ion_t.updateCapacityForLifetime s capacity_percent)

/-! ## `losses_t` -/

/-- The constructor `losses_t::losses_t`. -/
def losses_t.new : losses_t := { nCycle := 0 }

/-- The inner block of `run_losses`, entered when `_capacity->I() > 0`, up to the thermal
derate: the comparison of `_lifetime->cycles_elapsed()` with `_nCycle`. -/
def losses_t.lifetime_losses (l : losses_t) (lifetime : lifetime_t K)
    (c : capacity_model K) : losses_t × capacity_model K :=
  if lifetime.cycles_elapsed > l.nCycle then
    ({ nCycle := l.nCycle + 1 }, c.updateCapacityForLifetime lifetime.capacity_percent)
  else (l, c)

/-- Method `losses_t::run_losses`: returns the new `_nCycle` and the new capacity. -/
def losses_t.run_losses (u : util_t K) (l : losses_t) (lifetime : lifetime_t K)
    (thermal : thermal_t K) (c : capacity_model K) : losses_t × capacity_model K :=
  -- only update losses if there is power flow from
  if c.I > 0 then
    let r := l.lifetime_losses lifetime c
    (r.1, r.2.updateCapacityForThermal (thermal.get_capacity_percent u))
  else (l, c)

/-! ## `battery_t` -/

/-- The constructor `battery_t::battery_t(power_conversion_efficiency, dt)` followed by
`initialize(capacity, voltage, lifetime, thermal, losses)`. -/
def battery_t.initialize (power_conversion_efficiency dt : K) (capacity : capacity_model K)
    (voltage : voltage_t K) (lifetime : lifetime_t K) (thermal : thermal_t K)
    (losses : losses_t) : battery_t K :=
  { capacity := capacity, voltage := voltage, lifetime := lifetime, thermal := thermal,
    losses := losses, firstStep := true,
    power_conversion_efficiency := power_conversion_efficiency, dt := dt }

/-- The first statement group of `battery_t::run`: the conditional call of
`runLifetimeModel(lastDOD)`. -/
def battery_t.run_lifetime (u : util_t K) (b : battery_t K) : Outcome (battery_t K) :=
  let lastDOD := b.capacity.prev_DOD
  if b.capacity.chargeChanged || b.firstStep then do
    let lifetime ← b.lifetime.rainflow u lastDOD
    pure { b with lifetime := lifetime, firstStep := false }
  else pure b

/-- The rest of `battery_t::run`: `runThermalModel`, `runCapacityModel`, `runLossesModel`. -/
def battery_t.run_models (exp : K → K) (u : util_t K) (hours_to_seconds : K)
    (b : battery_t K) (P : K) : battery_t K :=
  -- Compute temperature at end of timestep
  let thermal := b.thermal.updateTemperature hours_to_seconds (P / b.voltage.battery_voltage) b.dt
  let r := b.capacity.updateCapacity exp P b.voltage b.dt b.lifetime.cycles_elapsed
  let l := b.losses.run_losses u b.lifetime thermal r.1
  { b with thermal := thermal, capacity := l.2, voltage := r.2, losses := l.1 }

/-- Method `battery_t::run(P)`. -/
def battery_t.run (exp : K → K) (u : util_t K) (hours_to_seconds : K) (b : battery_t K)
    (P : K) : Outcome (battery_t K) := do
  let b1 ← b.run_lifetime u
  pure (b1.run_models exp u hours_to_seconds P)

/-- Method `battery_t::chargeNeededToFill`. -/
def battery_t.chargeNeededToFill (b : battery_t K) : K :=
  let charge_needed := b.capacity.qmax - b.capacity.q0
  if charge_needed > 0 then charge_needed else 0

/-- Method `battery_t::getCurrentCharge`. -/
def battery_t.getCurrentCharge (b : battery_t K) : K := b.capacity.q1

/-- Method `battery_t::cell_voltage`. -/
def battery_t.cell_voltage (b : battery_t K) : K := b.voltage.cell_voltage

/-- Method `battery_t::battery_voltage`. -/
def battery_t.battery_voltage (b : battery_t K) : K := b.voltage.battery_voltage

/-! ## `battery_bank_t` -/

/-- The constructor `battery_bank_t::battery_bank_t`. -/
def battery_bank_t.new (battery : battery_t K) (num_batteries_series : Int)
    (num_batteries_parallel : Int) (battery_chemistry : Int)
    (power_conversion_efficiency : K) : battery_bank_t K :=
  { battery := battery, num_batteries_series := num_batteries_series,
    num_batteries_parallel := num_batteries_parallel,
    num_batteries := num_batteries_parallel + num_batteries_series,
    battery_chemistry := battery_chemistry,
    power_conversion_efficiency := power_conversion_efficiency }

/-- Method `battery_bank_t::run(P)`. -/
def battery_bank_t.run (exp : K → K) (u : util_t K) (hours_to_seconds : K)
    (bank : battery_bank_t K) (P : K) : Outcome (battery_bank_t K) := do
  let battery ← bank.battery.run exp u hours_to_seconds (P / (bank.num_batteries_series : K))
  pure { bank with battery := battery }

/-- Method `battery_bank_t::bank_charge_needed`. -/
def battery_bank_t.bank_charge_needed (bank : battery_bank_t K) : K :=
  (bank.num_batteries : K) * bank.battery.chargeNeededToFill

/-- Method `battery_bank_t::bank_charge_available`. -/
def battery_bank_t.bank_charge_available (bank : battery_bank_t K) : K :=
  (bank.num_batteries : K) * bank.battery.getCurrentCharge

/-- Method `battery_bank_t::bank_voltage`. -/
def battery_bank_t.bank_voltage (bank : battery_bank_t K) : K :=
  (bank.num_batteries_series : K) * bank.battery.battery_voltage

/-- Method `battery_bank_t::cell_voltage`. -/
def battery_bank_t.cell_voltage (bank : battery_bank_t K) : K := bank.battery.cell_voltage

end Defs

/-! ## Month and hour of an hour of the year -/

/-- Modelled from the spec: the function `util::hours_in_month(month)` of `lib_util`, which
is not part of the sources: 24 hours for each day of the month of a non-leap year, and
`0` for a number that is not a month. -/
def util.hours_in_month (month : Int) : Int :=
  if month = 1 ∨ month = 3 ∨ month = 5 ∨ month = 7 ∨ month = 8 ∨ month = 10 ∨ month = 12
  then 744
  else if month = 4 ∨ month = 6 ∨ month = 9 ∨ month = 11 then 720
  else if month = 2 then 672
  else 0

/-- The loop of `getMonthHour`, with `n` iterations left before `month <= 12` fails, and
the two assignments after it.  `floor((float)(hourOfYear) / 24)` is the floor of the exact
quotient (the quotient of two `float` values is rounded, which does not change its floor
for an `int` below 2^24 in absolute value). -/
def getMonthHour_loop (hourOfYear : Int) : Nat → Int → Int → Int × Int
  | 0, month, _ => (month, 0)
  | n + 1, month, tmpSum =>
    let hoursInMonth := util.hours_in_month month
    let tmpSum := tmpSum + hoursInMonth
    -- found the month
    if hourOfYear + 1 ≤ tmpSum then
      -- get the day of the month
      let tmp : Int := ⌊(hourOfYear : ℚ) / 24⌋
      (month, (hourOfYear + 1) - (tmp * 24))
    else getMonthHour_loop hourOfYear n (month + 1) tmpSum

/-- The function `getMonthHour(hourOfYear, out_month, out_hour)`: the pair of the two
outputs. -/
def getMonthHour (hourOfYear : Int) : Int × Int :=
  getMonthHour_loop hourOfYear 12 1 0

/-- The first hour of the year of a calendar month (non-leap year, 24 hours per day):
the hours of the months before it. -/
def month_start (month : Int) : Int :=
  ((List.range (month - 1).toNat).map
    (fun (i : Nat) => util.hours_in_month ((i : Int) + 1))).sum

/-! ## `dispatch_manual_t` -/

/-- Conversion of a `float` to `int`: truncation toward zero. -/
def float_to_int (x : ℚ) : Int := if 0 ≤ x then ⌊x⌋ else ⌈x⌉

/-- Element access `_sched(r, c)` of the static 12 by 24 matrix with `int` indices:
undefined outside the matrix. -/
def sched_at (sched : Fin 12 → Fin 24 → ℚ) (r c : Int) : Outcome ℚ :=
  if h : 0 ≤ r ∧ r < 12 ∧ 0 ≤ c ∧ c < 24 then
    Outcome.done (sched ⟨r.toNat, by omega⟩ ⟨c.toNat, by omega⟩)
  else Outcome.undefined

/-- Element access `a[i]` through a `bool *` with an `int` index: undefined outside the
array pointed to. -/
def array_at (a : List Bool) (i : Int) : Outcome Bool :=
  if 0 ≤ i then
    match a.get? i.toNat with
    | some x => Outcome.done x
    | none => Outcome.undefined
  else Outcome.undefined

section Defs

variable {K : Type} [LinearOrderedField K]

/-- The constructor `dispatch_manual_t::dispatch_manual_t` (with `dispatch_t::dispatch_t`).
The three permission members are not initialised by it; their initial values are
arguments here. -/
def dispatch_manual_t.new (BatteryBank : battery_bank_t K) (dt : K)
    (dm_sched : Fin 12 → Fin 24 → ℚ) (dm_charge dm_discharge dm_gridcharge : List Bool)
    (can_charge can_discharge can_grid_charge : Bool) : dispatch_manual_t K :=
  { BatteryBank := BatteryBank, dt := dt,
    -- positive quantities describing how much went to load
    pv_to_load := 0, battery_to_load := 0, grid_to_load := 0,
    -- positive or negative quantities describing net power flows
    e_tofrom_batt := 0, e_grid := 0,
    sched := dm_sched, charge_array := dm_charge, discharge_array := dm_discharge,
    gridcharge_array := dm_gridcharge,
    can_charge := can_charge, can_discharge := can_discharge,
    can_grid_charge := can_grid_charge }

/-- The first part of `dispatch_manual_t::dispatch`: the profile of the hour is looked up
in the schedule and the three permissions are read.  The `size_t` argument is converted
to the `int` parameter of `getMonthHour`. -/
def dispatch_manual_t.read_profile (d : dispatch_manual_t K) (hour_of_year : Nat) :
    Outcome (dispatch_manual_t K) := do
  let mh := getMonthHour (hour_of_year : Int)
  let entry ← sched_at d.sched (mh.1 - 1) (mh.2 - 1)
  let iprofile := float_to_int (entry - 1)
  let can_charge ← array_at d.charge_array iprofile
  let can_discharge ← array_at d.discharge_array iprofile
  let can_grid_charge ← array_at d.gridcharge_array iprofile
  pure { d with can_charge := can_charge, can_discharge := can_discharge,
                can_grid_charge := can_grid_charge }

/-- The quantity `energyNeededToFill` of `dispatch`, in kWh; `watt_to_kilowatt` is a
constant of `lib_battery.h`, which is not part of the sources. -/
def dispatch_manual_t.energyNeededToFill (watt_to_kilowatt : K) (d : dispatch_manual_t K) :
    K :=
  let chargeNeededToFill := d.BatteryBank.bank_charge_needed
  let cell_voltage := d.BatteryBank.cell_voltage
  (chargeNeededToFill * cell_voltage) * watt_to_kilowatt

/-- The value of `_e_tofrom_batt` in `dispatch` when the bank is run: the nest of
conditionals on the permissions, starting from `0`. -/
def dispatch_manual_t.commanded_energy (can_charge can_discharge can_grid_charge : Bool)
    (e_pv e_load energyNeededToFill : K) : K :=
  -- Is there extra energy from array
  if e_pv > e_load then
    if can_charge then
      -- use all energy available, it will only use what it can handle
      if e_pv - e_load < energyNeededToFill ∧ can_grid_charge = true then
        -energyNeededToFill
      else -(e_pv - e_load)
    -- if we want to charge from grid without charging from array
    else if can_grid_charge then -energyNeededToFill
    else 0
  -- Or, is the demand greater than or equal to what the array provides
  else if e_load ≥ e_pv then
    if can_discharge then e_load - e_pv
    -- if we want to charge from grid
    else if can_grid_charge then -energyNeededToFill
    else 0
  else 0

/-- The last part of `dispatch`, after the bank has run: the realized battery energy from
the current of the capacity model and the bank voltage read before the run, the grid
energy, and the three flows to the load (all five outputs start from `0`). -/
def dispatch_manual_t.allocate (d : dispatch_manual_t K) (bank : battery_bank_t K)
    (bank_voltage e_pv e_load : K) : dispatch_manual_t K :=
  let current := bank.battery.capacity.I
  let e_tofrom_batt := current * bank_voltage * d.dt / 1000
  let e_grid := e_pv + e_tofrom_batt - e_load
  let pv_to_load := if e_pv > e_load then e_load else e_pv
  let battery_to_load :=
    if e_pv > e_load then 0 else if e_tofrom_batt > 0 then e_tofrom_batt else 0
  let grid_to_load :=
    if e_pv > e_load then 0 else e_load - (pv_to_load + battery_to_load)
  { d with BatteryBank := bank, e_tofrom_batt := e_tofrom_batt, e_grid := e_grid,
           pv_to_load := pv_to_load, battery_to_load := battery_to_load,
           grid_to_load := grid_to_load }

/-- The power at which `dispatch` runs the bank; `kilowatt_to_watt` is a constant of
`lib_battery.h`, which is not part of the sources. -/
def dispatch_manual_t.commanded_power (watt_to_kilowatt kilowatt_to_watt : K)
    (d : dispatch_manual_t K) (e_pv e_load : K) : K :=
  kilowatt_to_watt *
    dispatch_manual_t.commanded_energy d.can_charge d.can_discharge d.can_grid_charge
      e_pv e_load (d.energyNeededToFill watt_to_kilowatt) / d.dt

/-- Method `dispatch_manual_t::dispatch(hour_of_year, e_pv, e_load)`. -/
def dispatch_manual_t.dispatch (exp : K → K) (u : util_t K)
    (hours_to_seconds watt_to_kilowatt kilowatt_to_watt : K) (d : dispatch_manual_t K)
    (hour_of_year : Nat) (e_pv e_load : K) : Outcome (dispatch_manual_t K) := do
  let d1 ← d.read_profile hour_of_year
  -- current charge state of battery from last time step
  let bank_voltage := d1.BatteryBank.bank_voltage
  -- Run Battery Model to update charge based on charge/discharge
  let bank ← d1.BatteryBank.run exp u hours_to_seconds
    (d1.commanded_power watt_to_kilowatt kilowatt_to_watt e_pv e_load)
  pure (d1.allocate bank bank_voltage e_pv e_load)

end Defs

/-! ## Sample battery, bank and dispatcher -/

section Defs

variable {K : Type} [LinearOrderedField K]

/-- A coulomb-counting battery used to instantiate the theorems at a concrete input: 100 Ah
of which 50 Ah are stored, six cells of 2 V (basic voltage model), a fresh lifetime model of
`fade_table_example`, the thermal state `thermal_t.example_state`, time step 1 h, just
initialised. -/
def battery_t.example_state : battery_t K :=
  battery_t.initialize 1 1
    (capacity_model.lithium_ion
      { capacity_lithium_ion_t.new 100 with q0 := 50, SOC := 50, DOD := 50 })
    (voltage_basic_t 6 2) (lifetime_t.example_state [] 0 0 0) thermal_t.example_state
    losses_t.new

/-- A bank of two batteries `battery_t.example_state` in series and one in parallel. -/
def battery_bank_t.example_state : battery_bank_t K :=
  battery_bank_t.new battery_t.example_state 2 1 0 1

/-- A manual dispatcher over `battery_bank_t.example_state` with time step 1 h whose
schedule holds profile 1 in every hour; `charge`, `discharge` and `gridcharge` are the
permissions of that profile. -/
def dispatch_manual_t.example_state (charge discharge gridcharge : Bool) :
    dispatch_manual_t K :=
  dispatch_manual_t.new battery_bank_t.example_state 1 (fun _ _ => 1)
    [charge] [discharge] [gridcharge] false false false

/-- A lifetime model of `fade_table_example` that has counted one cycle and holds the
relative capacity 90 %. -/
def lifetime_t.one_cycle_state : lifetime_t K :=
  { lifetime_t.example_state [] 0 0 0 with nCycles := 1, Clt := 90 }

/-- A lifetime model of `fade_table_example` that has counted two cycles and holds the
relative capacity 90 %. -/
def lifetime_t.two_cycle_state : lifetime_t K :=
  { lifetime_t.example_state [] 0 0 0 with nCycles := 2, Clt := 90 }

/-- A full coulomb-counting capacity of 100 Ah whose last step ran at current `I`. -/
def capacity_model.example_with_current (I : K) : capacity_model K :=
  capacity_model.lithium_ion { capacity_lithium_ion_t.new 100 with I := I }

end Defs

/-! ## `s_efftable` of `csp_dispatch.h` -/

/-- A point of an efficiency table, `s_efftable::s_effmember`. -/
structure s_effmember (K : Type) where
  x : K
  eta : K
  deriving DecidableEq

/-- State of an `s_efftable` object: the vector `table`, filled by `add_point`. -/
structure s_efftable (K : Type) where
  table : List (s_effmember K)

/-- The calls `v.front()` of a `std::vector`: undefined on an empty vector. -/
def vector_front {α : Type} (v : List α) : Outcome α :=
  match v with
  | [] => Outcome.undefined
  | a :: _ => Outcome.done a

/-- The calls `v.back()` of a `std::vector`: undefined on an empty vector. -/
def vector_back {α : Type} (v : List α) : Outcome α :=
  match v.getLast? with
  | none => Outcome.undefined
  | some a => Outcome.done a

section Defs

variable {K : Type} [LinearOrderedField K]

/-- Method `s_efftable::add_point`. -/
def s_efftable.add_point (t : s_efftable K) (x eta : K) : s_efftable K :=
  { table := t.table ++ [{ x := x, eta := eta }] }

/-- The `while( true )` loop of `s_efftable::interpolate`, with a bound on the number of
iterations, from the value `ind` of the index: the value of `eff` when the loop is left.
An index outside the vector makes `table.at` throw; in the model that is the outcome
`undefined`, as for `front()` and `back()` on an empty vector. -/
def s_efftable.interpolate_loop (t : s_efftable K) (x : K) : Nat → Int → Outcome K
  | 0, _ => Outcome.out_of_fuel
  | fuel + 1, ind =>
    let ni : Int := (t.table.length : Int)
    if ind = ni - 1 then do
      let b ← vector_back t.table
      pure b.eta
    else do
      let p ← vector_at t.table ind
      if x < p.x then
        if ind = 0 then do
          let f ← vector_front t.table
          pure f.eta
        else do
          let p1 ← vector_at t.table (ind - 1)
          let p ← vector_at t.table ind
          pure (p1.eta + (p.eta - p1.eta) * (x - p1.x) / (p.x - p1.x))
      else s_efftable.interpolate_loop t x fuel (ind + 1)

/-- Method `s_efftable::interpolate(x)`.  The index grows by one in every iteration that
does not leave the loop and the loop is left at `ind == ni - 1`, so `table.size() + 1`
bounds the number of iterations of a table that is not empty. -/
def s_efftable.interpolate (t : s_efftable K) (x : K) : Outcome K := do
  let _eff ← vector_front t.table
  s_efftable.interpolate_loop t x (t.table.length + 1) 0

/-- An efficiency table used to instantiate the theorems at a concrete input: the points
`(0, 10)`, `(1, 20)`, `(2, 40)`, `(3, 80)`. -/
def s_efftable.example_table : s_efftable K :=
  { table := [{ x := 0, eta := 10 }, { x := 1, eta := 20 }, { x := 2, eta := 40 },
      { x := 3, eta := 80 }] }

/-! ## `simpleWakeModel` of `lib_windwakemodel.cpp` -/

/-- Modelled from the spec: the macro `max_of(a, b)` of `lib_util.h`, which is not part of
the sources: the larger of the two values (the call in `velDeltaPQ` is commented
"limit result from zero to one"). -/
def max_of (a b : K) : K := if a > b then a else b

/-- Modelled from the spec: the macro `min_of(a, b)` of `lib_util.h`, which is not part of
the sources: the smaller of the two values. -/
def min_of (a b : K) : K := if a < b then a else b

/-- Method `simpleWakeModel::velDeltaPQ`: the pair of the returned velocity deficit and
the value of `*newTurbulenceIntensity` at return.  The functions `log`, `sqrt` and `exp`
of `math.h` are parameters; `pow(x, 2.0)` is the square. -/
def simpleWakeModel.velDeltaPQ (log sqrt exp : K → K)
    (radiiCrosswind axialDistInRadii thrustCoeff newTurbulenceIntensity : K) : K × K :=
  if radiiCrosswind > 20 ∨ newTurbulenceIntensity ≤ 0 ∨ axialDistInRadii ≤ 0
      ∨ thrustCoeff ≤ 0 then
    (0, newTurbulenceIntensity)
  else
    let fAddedTurbulence := (thrustCoeff / 7) * (1 - (2 / 5) * log (2 * axialDistInRadii))
    let newTurbulenceIntensity := sqrt (fAddedTurbulence ^ 2 + newTurbulenceIntensity ^ 2)
    let AA := newTurbulenceIntensity ^ 2 * axialDistInRadii ^ 2
    let fExp := max_of (-99) (-(radiiCrosswind ^ 2) / (2 * AA))
    let dVelocityDeficit := (thrustCoeff / (4 * AA)) * exp fExp
    -- limit result from zero to one
    (max_of (min_of dVelocityDeficit 1) 0, newTurbulenceIntensity)

/-- Element access `a[i]` through a `double` array parameter: undefined outside the array
that was passed. -/
def array_get (a : List K) (i : Nat) : Outcome K :=
  match a.get? i with
  | some x => Outcome.done x
  | none => Outcome.undefined

/-- The inner loop of `simpleWakeModel::wakeCalculations` for the turbine `i`, over the
upwind turbines `j` of the list: the pair of `dDeficit` and `turbulenceIntensity[i]`, which
`velDeltaPQ` updates through its pointer argument. -/
def simpleWakeModel.wake_deficit (log sqrt exp : K → K)
    (distanceDownwind distanceCrosswind thrust : List K) (i : Nat) :
    List Nat → K × K → Outcome (K × K)
  | [], acc => pure acc
  | j :: rest, acc => do
    let dj ← array_get distanceDownwind j
    let di ← array_get distanceDownwind i
    let fDistanceDownwind := |dj - di|
    let cj ← array_get distanceCrosswind j
    let ci ← array_get distanceCrosswind i
    let fDistanceCrosswind := |cj - ci|
    let tj ← array_get thrust j
    let r := simpleWakeModel.velDeltaPQ log sqrt exp fDistanceCrosswind fDistanceDownwind
      tj acc.2
    let vdef := r.1
    simpleWakeModel.wake_deficit log sqrt exp distanceDownwind distanceCrosswind thrust i
      rest (acc.1 * (1 - vdef), r.2)

/-- The outer loop of `simpleWakeModel::wakeCalculations` over the turbines `i` of the
list, on the pair of the arrays `windSpeed` and `turbulenceIntensity`. -/
def simpleWakeModel.wake_turbines (log sqrt exp : K → K)
    (distanceDownwind distanceCrosswind thrust : List K) :
    List Nat → List K × List K → Outcome (List K × List K)
  | [], st => pure st
  | i :: rest, st => do
    let ti ← array_get st.2 i
    let r ← simpleWakeModel.wake_deficit log sqrt exp distanceDownwind distanceCrosswind
      thrust i (List.range i) (1, ti)
    let w ← array_get st.1 i
    simpleWakeModel.wake_turbines log sqrt exp distanceDownwind distanceCrosswind thrust
      rest (st.1.set i (w * r.1), st.2.set i r.2)

/-- Method `simpleWakeModel::wakeCalculations` for `nTurbines` turbines: the arrays
`windSpeed` and `turbulenceIntensity` at return.  The first and the fourth parameter of
the method have no name and are not read. -/
def simpleWakeModel.wakeCalculations (log sqrt exp : K → K) (nTurbines : Nat)
    (distanceDownwind distanceCrosswind thrust windSpeed turbulenceIntensity : List K) :
    Outcome (List K × List K) :=
  simpleWakeModel.wake_turbines log sqrt exp distanceDownwind distanceCrosswind thrust
    (List.range' 1 (nTurbines - 1)) (windSpeed, turbulenceIntensity)

end Defs

/-! ## Invariants of the rainflow buffer -/

section Defs

variable {K : Type} [LinearOrderedField K]

/-- The state `s1` has the accumulators of `s` (cycle count, running average range, fade
percentage) and its fade table. -/
def lifetime_t.same_accumulators (s s1 : lifetime_t K) : Prop :=
  s1.nCycles = s.nCycles ∧ s1.average_range = s.average_range ∧ s1.Clt = s.Clt
  ∧ s1.DOD_vect = s.DOD_vect ∧ s1.cycles_vect = s.cycles_vect
  ∧ s1.capacities_vect = s.capacities_vect
  ∧ s1.batt_lifetime_matrix = s.batt_lifetime_matrix

/-- A relation between the accumulators of two states: `counted u s rs s1` says that the
accumulators of `s1` arise from those of `s` by one run of the counting block `count_range`
for each element of `rs`, in this order, with that element as the range `Y`, and by changes
of state in between that leave the accumulators alone.  The relation speaks of the
accumulators only; which ranges a run counted is recorded by the definitions with the
suffix `_logged`. -/
inductive lifetime_t.counted (u : util_t K) : lifetime_t K → List K → lifetime_t K → Prop
  | same (s s1 : lifetime_t K) (h : lifetime_t.same_accumulators s s1) :
      lifetime_t.counted u s [] s1
  | count (s s1 s2 s3 : lifetime_t K) (rs : List K) (h : lifetime_t.counted u s rs s1)
      (hc : lifetime_t.count_range u s1 = Outcome.done s2)
      (hs : lifetime_t.same_accumulators s2 s3) :
      lifetime_t.counted u s (rs ++ [s1.Ylt]) s3

/-- The state of the buffer inside the loop of `rainflow`, after the sample was appended:
the cursor `_jlt` is the last index, and the reference `S` is the element at the cursor
`_klt`, which lies before the last element. -/
def lifetime_t.loop_invariant (s : lifetime_t K) : Prop :=
  s.DOD_vect ≠ [] ∧ s.jlt + 1 = (s.Peaks.length : Int) ∧ 0 ≤ s.nCycles
  ∧ 0 ≤ s.klt ∧ s.klt + 1 ≤ s.jlt ∧ vector_at s.Peaks s.klt = Outcome.done s.Slt

/-- The state of the buffer between two calls of `rainflow`, after `m` samples: the write
cursor `_jlt` is the buffer length, every sample is buffered or was discarded in a counted
pair, and after the first sample the reference `S` is the element at the cursor `_klt`. -/
def lifetime_t.buffer_invariant (s : lifetime_t K) (m : Nat) : Prop :=
  s.DOD_vect ≠ [] ∧ s.jlt = (s.Peaks.length : Int) ∧ 0 ≤ s.nCycles
  ∧ (s.Peaks.length : Int) + 2 * s.nCycles = (m : Int)
  ∧ (m ≠ 0 → 0 ≤ s.klt ∧ s.klt < (s.Peaks.length : Int)
      ∧ vector_at s.Peaks s.klt = Outcome.done s.Slt)

/-- A quantity that every iteration of the outer loop of `rainflow_finish` lowers, at the
head of the loop with the locals `ii` and `rereadCount`; it is `0` when the loop is left. -/
def lifetime_t.finish_measure (s : lifetime_t K) (ii rereadCount : Int) : Nat :=
  if rereadCount ≤ 1 ∧ 0 ≤ ii ∧ ii < (s.Peaks.length : Int) then
    1 + s.Peaks.length * s.Peaks.length + ((s.Peaks.length : Int) - ii).toNat
      + (2 - rereadCount).toNat
  else 0

end Defs

/-! ## Log of the counted ranges

The methods of `lifetime_t` that contain the counting block, run on a pair of the state
and a list: the list is not a member of `lifetime_t`, it records the ranges `Y` in the order
in which the counting block counted them.  Each definition below is the definition of the
same name without the suffix `_logged`, with the list passed along and extended where the
counting block runs. -/

section Defs

variable {K : Type} [LinearOrderedField K]

/-- The outcome of a run with a function applied to its result. -/
def Outcome.map {α β : Type} (f : α → β) : Outcome α → Outcome β
  | Outcome.done a => Outcome.done (f a)
  | Outcome.undefined => Outcome.undefined
  | Outcome.out_of_fuel => Outcome.out_of_fuel

/-- The counting block `count_range`, with the range that it counts (`_Range = _Ylt`)
appended to the log. -/
def lifetime_t.count_range_logged (u : util_t K) (sl : lifetime_t K × List K) :
    Outcome (lifetime_t K × List K) := do
  let s1 ← lifetime_t.count_range u sl.1
  pure (s1, sl.2 ++ [sl.1.Ylt])

/-- Method `lifetime_t::rainflow_compareRanges`, with the log. -/
def lifetime_t.rainflow_compareRanges_logged (u : util_t K) (sl : lifetime_t K × List K) :
    Outcome (LT_code × lifetime_t K × List K) := do
  let r ← lifetime_t.compareRanges_decide sl.1
  let retCode := r.1
  let contained := r.2.1
  let s1 := r.2.2
  -- Step 5: count range Y, discard peak & valley of Y, go to Step 2
  if ¬ contained then do
    let c ← lifetime_t.count_range_logged u (s1, sl.2)
    let s2 := c.1
    -- discard peak & valley of Y
    let save ← vector_at s2.Peaks s2.jlt
    let p ← vector_pop_back s2.Peaks
    let p ← vector_pop_back p
    let p ← vector_pop_back p
    pure (LT_code.LT_RERANGE, { s2 with Peaks := p ++ [save], jlt := s2.jlt - 2 }, c.2)
  else
    pure (retCode, s1, sl.2)

/-- The `while (atStepTwo)` loop of `lifetime_t::rainflow`, with the log. -/
def lifetime_t.rainflow_loop_logged (u : util_t K) :
    Nat → lifetime_t K × List K → Outcome (LT_code × lifetime_t K × List K)
  | 0, _ => Outcome.out_of_fuel
  | fuel + 1, sl =>
    if sl.1.jlt ≥ 2 then do
      -- Step 2: form ranges X, Y
      let s1 ← lifetime_t.rainflow_ranges sl.1
      -- Step 3: compare ranges
      let r ← lifetime_t.rainflow_compareRanges_logged u (s1, sl.2)
      if r.1 = LT_code.LT_GET_DATA then pure r
      else lifetime_t.rainflow_loop_logged u fuel r.2
    else
      pure (LT_code.LT_GET_DATA, sl)

/-- Method `lifetime_t::rainflow(DOD)`, with the log. -/
def lifetime_t.rainflow_logged (u : util_t K) (sl : lifetime_t K × List K) (DOD : K) :
    Outcome (lifetime_t K × List K) := do
  let s := sl.1
  let s1 : lifetime_t K := { s with Peaks := s.Peaks ++ [DOD] }
  -- assign S, which is the starting peak or valley
  let s2 : lifetime_t K := if s1.jlt = 0 then { s1 with Slt := DOD, klt := s1.jlt } else s1
  let r ← lifetime_t.rainflow_loop_logged u (s2.Peaks.length + 1) (s2, sl.2)
  if r.1 = LT_code.LT_GET_DATA then pure ({ r.2.1 with jlt := r.2.1.jlt + 1 }, r.2.2)
  else pure r.2

/-- The counting block of `rainflow_finish` (`finish_count`), with the log. -/
def lifetime_t.finish_count_logged (u : util_t K) (sl : lifetime_t K × List K) :
    Outcome ((lifetime_t K × List K) × Int) := do
  let c ← lifetime_t.count_range_logged u sl
  let s1 := c.1
  let ii : Int := 1
  let p ← vector_erase_begin s1.Peaks
  let p ← vector_pop_back p
  pure (({ s1 with Peaks := p, jlt := s1.jlt - 2 }, c.2), ii)

/-- The `while (atStepSeven)` loop of `rainflow_finish`, with the log. -/
def lifetime_t.finish_inner_logged (u : util_t K) :
    Nat → lifetime_t K × List K → Int → K → Int
      → Outcome ((lifetime_t K × List K) × Int × Int)
  | 0, _, _, _, _ => Outcome.out_of_fuel
  | fuel + 1, sl, ii, P, rereadCount =>
    let s := sl.1
    if s.jlt ≥ 2 then do
      let s1 ← lifetime_t.rainflow_ranges_circular s ii
      -- Step 8: compare X, Y
      if s1.Xlt < s1.Ylt then
        pure ((s1, sl.2), ii + 1, rereadCount)
      else do
        let r ← lifetime_t.finish_count_logged u (s1, sl.2)
        lifetime_t.finish_inner_logged u fuel r.1 r.2 P rereadCount
    else if s.jlt = 1 then do
      let s1 : lifetime_t K := { s with Peaks := s.Peaks ++ [P], jlt := s.jlt + 1 }
      -- move to end point
      let ii := s1.jlt
      let s2 ← lifetime_t.rainflow_ranges_circular s1 ii
      if s2.Xlt < s2.Ylt then
        pure ((s2, sl.2), ii + 1, rereadCount)
      else do
        let r ← lifetime_t.finish_count_logged u (s2, sl.2)
        pure (r.1, r.2, rereadCount)
    else
      -- _jlt == 0: force out of while
      pure (sl, ii, rereadCount + 1)

/-- The `while (rereadCount <= 1)` loop of `rainflow_finish`, with the log. -/
def lifetime_t.finish_outer_logged (u : util_t K) :
    Nat → lifetime_t K × List K → Int → K → Int → Outcome (lifetime_t K × List K)
  | 0, _, _, _, _ => Outcome.out_of_fuel
  | fuel + 1, sl, ii, _, rereadCount =>
    let s := sl.1
    if rereadCount ≤ 1 then
      if 0 ≤ ii ∧ ii < (s.Peaks.length : Int) then do
        let P ← vector_at s.Peaks ii
        -- Step 6
        let rereadCount := if P = s.Slt then rereadCount + 1 else rereadCount
        let r ← lifetime_t.finish_inner_logged u (s.jlt.toNat + 1) sl ii P rereadCount
        lifetime_t.finish_outer_logged u fuel r.1 r.2.1 P r.2.2
      else pure sl
    else pure sl

/-- Method `lifetime_t::rainflow_finish`, with the log. -/
def lifetime_t.rainflow_finish_logged (u : util_t K) (fuel : Nat)
    (sl : lifetime_t K × List K) : Outcome (lifetime_t K × List K) :=
  lifetime_t.finish_outer_logged u fuel ({ sl.1 with jlt := sl.1.jlt - 1 }, sl.2) 0 0 0

/-- Feeding a list of samples to `rainflow`, first sample first, with the log. -/
def lifetime_t.rainflow_all_logged (u : util_t K) (sl : lifetime_t K × List K) :
    List K → Outcome (lifetime_t K × List K)
  | [] => pure sl
  | x :: rest => do
    let s1 ← lifetime_t.rainflow_logged u sl x
    lifetime_t.rainflow_all_logged u s1 rest

end Defs

/-! ## Helper lemmas -/

section Lemmas

variable {K : Type} [LinearOrderedField K]

theorem check_charge_change_SOC (s : capacity_t K) :
    (capacity_t.check_charge_change s).SOC = s.SOC := by
  simp only [capacity_t.check_charge_change]
  split_ifs <;> rfl

theorem check_charge_change_DOD (s : capacity_t K) :
    (capacity_t.check_charge_change s).DOD = s.DOD := by
  simp only [capacity_t.check_charge_change]
  split_ifs <;> rfl

theorem check_charge_change_q0 (s : capacity_t K) :
    (capacity_t.check_charge_change s).q0 = s.q0 := by
  simp only [capacity_t.check_charge_change]
  split_ifs <;> rfl

theorem check_charge_change_qmax (s : capacity_t K) :
    (capacity_t.check_charge_change s).qmax = s.qmax := by
  simp only [capacity_t.check_charge_change]
  split_ifs <;> rfl

theorem check_charge_change_I (s : capacity_t K) :
    (capacity_t.check_charge_change s).I = s.I := by
  simp only [capacity_t.check_charge_change]
  split_ifs <;> rfl

theorem check_charge_change_P (s : capacity_t K) :
    (capacity_t.check_charge_change s).P = s.P := by
  simp only [capacity_t.check_charge_change]
  split_ifs <;> rfl

/-- The reversal flag and the recorded direction after `check_charge_change`. -/
theorem check_charge_change_spec (s : capacity_t K) :
    ((capacity_t.check_charge_change s).chargeChange = true ↔
        (charging_of s.I ≠ ChargeState.NO_CHARGE ∧ s.prev_charge ≠ ChargeState.NO_CHARGE
          ∧ charging_of s.I ≠ s.prev_charge))
    ∧ ((capacity_t.check_charge_change s).chargeChange = true →
        (capacity_t.check_charge_change s).prev_charge = charging_of s.I)
    ∧ ((capacity_t.check_charge_change s).chargeChange = false →
        (capacity_t.check_charge_change s).prev_charge = s.prev_charge) := by
  simp only [capacity_t.check_charge_change]
  split_ifs with h
  · obtain ⟨h1, h2, h3⟩ := h
    simp [h1, h2, h3]
  · simp only [Bool.false_eq_true, false_iff, false_implies, true_and, implies_true, and_true]
    intro h'
    exact h ⟨h'.2.2, h'.1, h'.2.1⟩

/-- The same, stated on the result: the direction is that of the current the result
reports, and `p` is the direction recorded before the call. -/
theorem check_charge_change_result (s r : capacity_t K) (p : ChargeState)
    (hr : r = capacity_t.check_charge_change s) (hp : s.prev_charge = p) :
    (r.chargeChanged = true ↔
        (charging_of r.I ≠ ChargeState.NO_CHARGE ∧ p ≠ ChargeState.NO_CHARGE
          ∧ charging_of r.I ≠ p))
    ∧ (r.chargeChanged = true → r.prev_charge = charging_of r.I)
    ∧ (r.chargeChanged = false → r.prev_charge = p) := by
  subst hr hp
  simp only [capacity_t.chargeChanged, check_charge_change_I]
  exact check_charge_change_spec s

theorem lithium_core_is_check (s : capacity_t K) (P V dt : K) :
    ∃ s1 : capacity_t K,
      capacity_lithium_ion_t.updateCapacity_core s P V dt = capacity_t.check_charge_change s1
      ∧ s1.prev_charge = s.prev_charge :=
  ⟨_, rfl, rfl⟩

theorem kibam_core_is_check (exp : K → K) (s : capacity_kibam_t K) (P V dt : K) :
    ∃ s1 : capacity_t K,
      (capacity_kibam_t.updateCapacity_core exp s P V dt).tocapacity_t
          = capacity_t.check_charge_change s1
      ∧ s1.prev_charge = s.prev_charge :=
  ⟨_, rfl, rfl⟩

/-- One coulomb-counting step without clamp: plain integration of the requested current. -/
theorem lithium_core_no_clamp (s : capacity_t K) (P V dt : K)
    (h : capacity_lithium_ion_t.no_clamp s P V dt) :
    (capacity_lithium_ion_t.updateCapacity_core s P V dt).q0 = s.q0 - P / V * dt
    ∧ (capacity_lithium_ion_t.updateCapacity_core s P V dt).I = P / V := by
  obtain ⟨h1, h2⟩ := h
  simp only [capacity_lithium_ion_t.updateCapacity_core, check_charge_change_q0,
    check_charge_change_I, decide_eq_true_eq, h1, h2, if_false]
  exact ⟨trivial, trivial⟩

theorem lithium_steps_integral (steps : List (K × K × Int)) :
    ∀ st : capacity_t K × voltage_t K, capacity_lithium_ion_t.steps_unclamped st steps →
      st.1.q0 - (capacity_lithium_ion_t.steps st steps).1.q0
          = capacity_lithium_ion_t.charge_removed st steps
      ∧ capacity_lithium_ion_t.reported_currents st steps
          = capacity_lithium_ion_t.requested_currents st steps := by
  induction steps with
  | nil =>
    intro st _
    simp [capacity_lithium_ion_t.steps, capacity_lithium_ion_t.charge_removed,
      capacity_lithium_ion_t.reported_currents, capacity_lithium_ion_t.requested_currents]
  | cons x rest ih =>
    intro st h
    obtain ⟨P, dt, cycles⟩ := x
    obtain ⟨_, hc, hrest⟩ := h
    obtain ⟨hq, hI⟩ := lithium_core_no_clamp st.1 P st.2.battery_voltage dt hc
    obtain ⟨ih1, ih2⟩ := ih _ hrest
    have hq1 : (capacity_lithium_ion_t.updateCapacity st.1 P st.2 dt cycles).1.q0
        = st.1.q0 - P / st.2.battery_voltage * dt := hq
    have hI1 : (capacity_lithium_ion_t.updateCapacity st.1 P st.2 dt cycles).1.I
        = P / st.2.battery_voltage := hI
    constructor
    · simp only [capacity_lithium_ion_t.steps, capacity_lithium_ion_t.charge_removed]
      rw [← ih1, hq1, hI1]
      ring
    · simp only [capacity_lithium_ion_t.reported_currents,
        capacity_lithium_ion_t.requested_currents]
      rw [ih2, hI1]

/-- One coulomb-counting step from a state with `0 ≤ q0 ≤ qmax`, for `dt > 0` and
`V ≠ 0`. -/
theorem lithium_core_clamp (s : capacity_t K) (P V dt : K) (hdt : 0 < dt) (hV : V ≠ 0)
    (h0 : 0 ≤ s.q0) (h1 : s.q0 ≤ s.qmax) :
    0 ≤ (capacity_lithium_ion_t.updateCapacity_core s P V dt).q0
    ∧ (capacity_lithium_ion_t.updateCapacity_core s P V dt).q0
        ≤ (capacity_lithium_ion_t.updateCapacity_core s P V dt).qmax
    ∧ (capacity_lithium_ion_t.updateCapacity_core s P V dt).qmax = s.qmax
    ∧ s.q0 - (capacity_lithium_ion_t.updateCapacity_core s P V dt).q0
        = (capacity_lithium_ion_t.updateCapacity_core s P V dt).I * dt
    ∧ |(capacity_lithium_ion_t.updateCapacity_core s P V dt).I| ≤ |P / V|
    ∧ (capacity_lithium_ion_t.updateCapacity_core s P V dt).P
        = (capacity_lithium_ion_t.updateCapacity_core s P V dt).I * V := by
  have hdt0 : dt ≠ 0 := ne_of_gt hdt
  have hqmax : 0 ≤ s.qmax := le_trans h0 h1
  simp only [capacity_lithium_ion_t.updateCapacity_core, check_charge_change_q0,
    check_charge_change_I, check_charge_change_P, check_charge_change_qmax,
    decide_eq_true_eq]
  by_cases hover : s.q0 - P / V * dt > s.qmax
  · have hnot : ¬ (s.qmax < 0) := not_lt.mpr hqmax
    simp only [hover, if_true, hnot, if_false]
    refine ⟨hqmax, le_refl _, trivial, ?_, ?_, trivial⟩
    · field_simp
    · have hI : P / V * dt < -(s.qmax - s.q0) := by linarith
      have hneg : P / V < 0 := by
        by_contra hcon
        have : 0 ≤ P / V * dt := mul_nonneg (not_lt.mp hcon) hdt.le
        linarith
      rw [abs_of_neg hneg, neg_div, abs_neg, abs_of_nonneg (div_nonneg (by linarith) hdt.le),
        div_le_iff₀ hdt]
      linarith
  · by_cases hunder : s.q0 - P / V * dt < 0
    · simp only [hover, if_false, hunder, if_true]
      refine ⟨le_refl _, hqmax, trivial, ?_, ?_, trivial⟩
      · field_simp
      · have hpos : 0 < P / V := by
          by_contra hcon
          have : P / V * dt ≤ 0 := mul_nonpos_of_nonpos_of_nonneg (not_lt.mp hcon) hdt.le
          linarith
        rw [abs_of_pos hpos, abs_of_nonneg (div_nonneg h0 hdt.le), div_le_iff₀ hdt]
        linarith
    · simp only [hover, if_false, hunder]
      refine ⟨not_lt.mp hunder, not_lt.mp hover, trivial, by ring, le_refl _, ?_⟩
      field_simp

/-- The three cases of one coulomb-counting step from a state with `0 ≤ q0 ≤ qmax`: the
overcharge test fires, the undercharge test fires, or neither does. -/
theorem lithium_core_clamp_cases (s : capacity_t K) (P V dt : K)
    (h0 : 0 ≤ s.q0) (h1 : s.q0 ≤ s.qmax) :
    (s.q0 - P / V * dt > s.qmax →
      (capacity_lithium_ion_t.updateCapacity_core s P V dt).q0 = s.qmax
      ∧ (capacity_lithium_ion_t.updateCapacity_core s P V dt).I = -(s.qmax - s.q0) / dt
      ∧ (capacity_lithium_ion_t.updateCapacity_core s P V dt).P
          = -(s.qmax - s.q0) / dt * V)
    ∧ (s.q0 - P / V * dt < 0 →
      (capacity_lithium_ion_t.updateCapacity_core s P V dt).q0 = 0
      ∧ (capacity_lithium_ion_t.updateCapacity_core s P V dt).I = s.q0 / dt
      ∧ (capacity_lithium_ion_t.updateCapacity_core s P V dt).P = s.q0 / dt * V)
    ∧ (capacity_lithium_ion_t.no_clamp s P V dt →
      (capacity_lithium_ion_t.updateCapacity_core s P V dt).q0 = s.q0 - P / V * dt
      ∧ (capacity_lithium_ion_t.updateCapacity_core s P V dt).I = P / V
      ∧ (capacity_lithium_ion_t.updateCapacity_core s P V dt).P = P) := by
  have hqmax : 0 ≤ s.qmax := le_trans h0 h1
  simp only [capacity_lithium_ion_t.updateCapacity_core, check_charge_change_q0,
    check_charge_change_I, check_charge_change_P, decide_eq_true_eq,
    capacity_lithium_ion_t.no_clamp]
  refine ⟨?_, ?_, ?_⟩
  · intro hover
    have hnot : ¬ (s.qmax < 0) := not_lt.mpr hqmax
    simp only [hover, if_true, hnot, if_false]
    exact ⟨trivial, trivial, trivial⟩
  · intro hunder
    have hover : ¬ (s.q0 - P / V * dt > s.qmax) := by
      intro h
      linarith
    simp only [hover, if_false, hunder, if_true]
    exact ⟨trivial, trivial, trivial⟩
  · rintro ⟨hover, hunder⟩
    simp only [hover, if_false, hunder]
    exact ⟨trivial, trivial, trivial⟩

theorem updateVoltage_basic (v : voltage_t K) (Q I q0 dt : K) (h : v.dynamic = none) :
    v.updateVoltage Q I q0 dt = v := by
  simp only [voltage_t.updateVoltage, h]

theorem kibam_core_I (exp : K → K) (s : capacity_kibam_t K) (P V dt : K) :
    (capacity_kibam_t.updateCapacity_core exp s P V dt).I
      = capacity_kibam_t.clamped_current exp s P V dt := by
  simp only [capacity_kibam_t.updateCapacity_core, check_charge_change_I]

theorem kibam_core_P (exp : K → K) (s : capacity_kibam_t K) (P V dt : K) :
    (capacity_kibam_t.updateCapacity_core exp s P V dt).P = P := by
  simp only [capacity_kibam_t.updateCapacity_core, check_charge_change_P]

theorem lithium_updateCapacity_basic (s : capacity_t K) (vm : voltage_t K) (P dt : K)
    (cycles : Int) (hvm : vm.dynamic = none) :
    capacity_lithium_ion_t.updateCapacity s P vm dt cycles
      = (capacity_lithium_ion_t.updateCapacity_core s P vm.battery_voltage dt, vm) := by
  simp only [capacity_lithium_ion_t.updateCapacity, updateVoltage_basic vm _ _ _ dt hvm]

/-- With the constant-voltage model, unclamped steps subtract `Σ P_t / V * dt_t`. -/
theorem lithium_steps_basic (vm : voltage_t K) (hvm : vm.dynamic = none)
    (l : List (K × K × Int)) :
    ∀ s : capacity_t K, capacity_lithium_ion_t.steps_unclamped (s, vm) l →
      (capacity_lithium_ion_t.steps (s, vm) l).1.q0
        = s.q0 - (l.map (fun x => x.1 / vm.battery_voltage * x.2.1)).sum := by
  induction l with
  | nil =>
    intro s _
    simp [capacity_lithium_ion_t.steps]
  | cons x rest ih =>
    intro s h
    obtain ⟨P, dt, cycles⟩ := x
    simp only [capacity_lithium_ion_t.steps_unclamped,
      lithium_updateCapacity_basic s vm P dt cycles hvm] at h
    obtain ⟨_, hc, hrest⟩ := h
    have hq := (lithium_core_no_clamp s P vm.battery_voltage dt hc).1
    simp only [capacity_lithium_ion_t.steps, lithium_updateCapacity_basic s vm P dt cycles hvm,
      List.map_cons, List.sum_cons]
    rw [ih _ hrest, hq]
    ring

end Lemmas

section RealLemmas

/-- The common denominator of `Idmax_compute` and `Icmax_compute` is positive for
`k, c, dt > 0`. -/
theorem kibam_rate_denom_pos (k c dt : ℝ) (hk : 0 < k) (hc : 0 < c) (hdt : 0 < dt) :
    0 < 1 - Real.exp (-k * dt) + c * (k * dt - 1 + Real.exp (-k * dt)) := by
  have hx : 0 < k * dt := mul_pos hk hdt
  have hneg : -k * dt < 0 := by rw [neg_mul]; linarith
  have he1 : Real.exp (-k * dt) < 1 := Real.exp_lt_one_iff.mpr hneg
  have he2 : -k * dt + 1 ≤ Real.exp (-k * dt) := Real.add_one_le_exp _
  have h3 : 0 ≤ k * dt - 1 + Real.exp (-k * dt) := by rw [neg_mul] at he2; rw [neg_mul]; linarith
  have h4 : 0 ≤ c * (k * dt - 1 + Real.exp (-k * dt)) := mul_nonneg hc.le h3
  linarith

/-- The discharge limit `Idmax` is not negative when the tank levels are not negative. -/
theorem kibam_Idmax_nonneg (s : capacity_kibam_t ℝ) (q10 q0 dt : ℝ) (hq1 : 0 ≤ q10)
    (hq0 : 0 ≤ q0) (hk : 0 < s.k) (hc : 0 < s.c) (hdt : 0 < dt) :
    0 ≤ capacity_kibam_t.Idmax_compute Real.exp s q10 q0 dt := by
  have hden := kibam_rate_denom_pos s.k s.c dt hk hc hdt
  have hneg : -s.k * dt < 0 := by rw [neg_mul]; linarith [mul_pos hk hdt]
  have he1 : Real.exp (-s.k * dt) < 1 := Real.exp_lt_one_iff.mpr hneg
  have he0 : 0 < Real.exp (-s.k * dt) := Real.exp_pos _
  simp only [capacity_kibam_t.Idmax_compute]
  apply div_nonneg _ hden.le
  have a1 : 0 ≤ s.k * q10 * Real.exp (-s.k * dt) :=
    mul_nonneg (mul_nonneg hk.le hq1) he0.le
  have a2 : 0 ≤ q0 * s.k * s.c * (1 - Real.exp (-s.k * dt)) :=
    mul_nonneg (mul_nonneg (mul_nonneg hq0 hk.le) hc.le) (by linarith)
  linarith

end RealLemmas

section KibLemmas

variable {K : Type} [LinearOrderedField K]

theorem parameter_compute_step_accept (exp : K → K) (s : capacity_kibam_t K)
    (acc : K × K × K) (i : Nat)
    (h : capacity_kibam_t.candidate_valid exp s i
      ∧ capacity_kibam_t.candidate_residual exp s i < acc.1) :
    capacity_kibam_t.parameter_compute_step exp s acc i
      = (capacity_kibam_t.candidate_residual exp s i, (i : K) * 0.001,
          capacity_kibam_t.candidate_c exp s i) := by
  simp only [capacity_kibam_t.candidate_valid, capacity_kibam_t.candidate_residual,
    and_assoc] at h
  simp only [capacity_kibam_t.parameter_compute_step, capacity_kibam_t.candidate_residual,
    capacity_kibam_t.candidate_c, if_pos h]

theorem parameter_compute_step_reject (exp : K → K) (s : capacity_kibam_t K)
    (acc : K × K × K) (i : Nat)
    (h : ¬ (capacity_kibam_t.candidate_valid exp s i
      ∧ capacity_kibam_t.candidate_residual exp s i < acc.1)) :
    capacity_kibam_t.parameter_compute_step exp s acc i = acc := by
  simp only [capacity_kibam_t.candidate_valid, capacity_kibam_t.candidate_residual,
    and_assoc] at h
  simp only [capacity_kibam_t.parameter_compute_step, if_neg h]

/-- The scan keeps the first candidate of least residual among the valid candidates whose
residual is below the initial `minRes`, and keeps its initial triple when there is none. -/
theorem parameter_scan_spec (exp : K → K) (s : capacity_kibam_t K) (l : List Nat) :
    ∀ acc : K × K × K,
      (l.foldl (capacity_kibam_t.parameter_compute_step exp s) acc = acc
        ∧ ∀ j ∈ l, capacity_kibam_t.candidate_valid exp s j →
            acc.1 ≤ capacity_kibam_t.candidate_residual exp s j)
      ∨ (∃ l1 i l2, l = l1 ++ i :: l2
          ∧ capacity_kibam_t.candidate_valid exp s i
          ∧ capacity_kibam_t.candidate_residual exp s i < acc.1
          ∧ l.foldl (capacity_kibam_t.parameter_compute_step exp s) acc
              = (capacity_kibam_t.candidate_residual exp s i, (i : K) * 0.001,
                  capacity_kibam_t.candidate_c exp s i)
          ∧ (∀ j ∈ l1, capacity_kibam_t.candidate_valid exp s j →
              capacity_kibam_t.candidate_residual exp s i
                < capacity_kibam_t.candidate_residual exp s j)
          ∧ (∀ j ∈ l2, capacity_kibam_t.candidate_valid exp s j →
              capacity_kibam_t.candidate_residual exp s i
                ≤ capacity_kibam_t.candidate_residual exp s j)) := by
  induction l with
  | nil =>
    intro acc
    left
    exact ⟨rfl, fun j hj => absurd hj (List.not_mem_nil j)⟩
  | cons a l ih =>
    intro acc
    rw [List.foldl_cons]
    by_cases hc : capacity_kibam_t.candidate_valid exp s a
        ∧ capacity_kibam_t.candidate_residual exp s a < acc.1
    · rw [parameter_compute_step_accept exp s acc a hc]
      right
      rcases ih (capacity_kibam_t.candidate_residual exp s a, (a : K) * 0.001,
          capacity_kibam_t.candidate_c exp s a) with ⟨h1, h2⟩ | ⟨l1, i, l2, hl, hv, hr, hf, hb, ha⟩
      · exact ⟨[], a, l, rfl, hc.1, hc.2, h1,
          fun j hj => absurd hj (List.not_mem_nil j), h2⟩
      · refine ⟨a :: l1, i, l2, by rw [hl]; rfl, hv, lt_trans hr hc.2, hf, ?_, ha⟩
        intro j hj hvj
        rcases List.mem_cons.mp hj with rfl | hj1
        · exact hr
        · exact hb j hj1 hvj
    · rw [parameter_compute_step_reject exp s acc a hc]
      rcases ih acc with ⟨h1, h2⟩ | ⟨l1, i, l2, hl, hv, hr, hf, hb, ha⟩
      · left
        refine ⟨h1, ?_⟩
        intro j hj hvj
        rcases List.mem_cons.mp hj with rfl | hj1
        · exact not_lt.mp (fun hlt => hc ⟨hvj, hlt⟩)
        · exact h2 j hj1 hvj
      · right
        refine ⟨a :: l1, i, l2, by rw [hl]; rfl, hv, hr, hf, ?_, ha⟩
        intro j hj hvj
        rcases List.mem_cons.mp hj with rfl | hj1
        · exact lt_of_lt_of_le hr (not_lt.mp (fun hlt => hc ⟨hvj, hlt⟩))
        · exact hb j hj1 hvj

/-- Where an element of `List.range n` sits: the elements before it are the smaller
numbers. -/
theorem range_split (n i : Nat) (l1 l2 : List Nat) (h : List.range n = l1 ++ i :: l2) :
    i < n ∧ (∀ j, j < n → j ∈ l1 ∨ j = i ∨ j ∈ l2) ∧ (∀ j, j < i → j ∈ l1) := by
  have hmem : ∀ j, j < n ↔ j ∈ l1 ∨ j = i ∨ j ∈ l2 := by
    intro j
    rw [← List.mem_range, h]
    simp [List.mem_append, List.mem_cons]
  have hsorted : List.Pairwise (· < ·) (l1 ++ i :: l2) := by
    rw [← h]
    exact List.pairwise_lt_range n
  have hi : i < n := (hmem i).mpr (Or.inr (Or.inl rfl))
  refine ⟨hi, fun j hj => (hmem j).mp hj, ?_⟩
  intro j hj
  rcases (hmem j).mp (lt_trans hj hi) with h1 | h1 | h1
  · exact h1
  · exact absurd h1 (ne_of_lt hj)
  · have h2 := (List.pairwise_append.mp hsorted).2.1
    have h3 := (List.pairwise_cons.mp h2).1 j h1
    exact absurd h3 (not_lt.mpr hj.le)

end KibLemmas

section LifeLemmas

variable {K : Type} [LinearOrderedField K]

@[simp] theorem Outcome.bind_done {α β : Type} (a : α) (f : α → Outcome β) :
    (Outcome.done a >>= f) = f a := rfl

@[simp] theorem Outcome.bind_undefined {α β : Type} (f : α → Outcome β) :
    ((Outcome.undefined : Outcome α) >>= f) = Outcome.undefined := rfl

@[simp] theorem Outcome.bind_out_of_fuel {α β : Type} (f : α → Outcome β) :
    ((Outcome.out_of_fuel : Outcome α) >>= f) = Outcome.out_of_fuel := rfl

@[simp] theorem Outcome.pure_eq_done {α : Type} (a : α) :
    (pure a : Outcome α) = Outcome.done a := rfl

theorem vector_at_nat {α : Type} (l : List α) (i : Nat) (x : α) (h : l[i]? = some x) :
    vector_at l (i : Int) = Outcome.done x := by
  simp [vector_at, h]

/-- The three reads of `rainflow_ranges` when `_jlt` is the last index of `_Peaks`. -/
theorem vector_at_last_three {α : Type} (front : List α) (a b c : α) (j : Int)
    (hj : j = (front.length : Int) + 2) :
    vector_at (front ++ [a, b, c]) j = Outcome.done c
    ∧ vector_at (front ++ [a, b, c]) (j - 1) = Outcome.done b
    ∧ vector_at (front ++ [a, b, c]) (j - 2) = Outcome.done a := by
  subst hj
  have e0 : (front.length : Int) + 2 = ((front.length + 2 : Nat) : Int) := by push_cast; ring
  have e1 : (front.length : Int) + 2 - 1 = ((front.length + 1 : Nat) : Int) := by
    push_cast; ring
  have e2 : (front.length : Int) + 2 - 2 = ((front.length : Nat) : Int) := by ring
  rw [e1, e2, e0]
  refine ⟨vector_at_nat _ _ _ ?_, vector_at_nat _ _ _ ?_, vector_at_nat _ _ _ ?_⟩
  · rw [List.getElem?_append_right (by omega)]
    simp
  · rw [List.getElem?_append_right (by omega)]
    simp
  · rw [List.getElem?_append_right (by omega)]
    simp

theorem rainflow_ranges_last_three (s : lifetime_t K) (front : List K) (a b c : K)
    (hP : s.Peaks = front ++ [a, b, c]) (hj : s.jlt = (front.length : Int) + 2) :
    lifetime_t.rainflow_ranges s
      = Outcome.done { s with Ylt := |b - a|, Xlt := |c - b| } := by
  obtain ⟨h0, h1, h2⟩ := vector_at_last_three front a b c s.jlt hj
  simp only [lifetime_t.rainflow_ranges, hP, h0, h1, h2, Outcome.bind_done,
    Outcome.pure_eq_done]

theorem S_is_endpoint_last_three (s : lifetime_t K) (front : List K) (a b c : K)
    (hP : s.Peaks = front ++ [a, b, c]) (hj : s.jlt = (front.length : Int) + 2) :
    lifetime_t.S_is_endpoint s = Outcome.done (decide (s.Slt = b ∨ s.Slt = a)) := by
  obtain ⟨_, h1, h2⟩ := vector_at_last_three front a b c s.jlt hj
  simp only [lifetime_t.S_is_endpoint, hP, h1, h2, Outcome.bind_done, Outcome.pure_eq_done]
  by_cases hb : s.Slt = b
  · simp [hb]
  · simp [hb]

/-- The table is not empty: `bilinear` completes. -/
theorem bilinear_done (u : util_t K) (s : lifetime_t K) (DOD : K) (n : Int)
    (h : s.DOD_vect ≠ []) : ∃ C, lifetime_t.bilinear u s DOD n = Outcome.done C := by
  unfold lifetime_t.bilinear
  cases hd : s.DOD_vect with
  | nil => exact absurd hd h
  | cons d0 tl => exact ⟨_, rfl⟩

/-- What the counting block changes. -/
theorem count_range_done (u : util_t K) (s : lifetime_t K) (h : s.DOD_vect ≠ []) :
    ∃ s1, lifetime_t.count_range u s = Outcome.done s1
      ∧ s1.nCycles = s.nCycles + 1
      ∧ s1.Range = s.Ylt
      ∧ s1.average_range
          = (s.average_range * (s.nCycles : K) + s.Ylt) / ((s.nCycles + 1 : Int) : K)
      ∧ s1.fortyPercent = s.fortyPercent + (if s.Ylt > 40 then 1 else 0)
      ∧ s1.hundredPercent = s.hundredPercent
      ∧ s1.Peaks = s.Peaks ∧ s1.jlt = s.jlt ∧ s1.klt = s.klt ∧ s1.Slt = s.Slt
      ∧ s1.Xlt = s.Xlt ∧ s1.Ylt = s.Ylt
      ∧ s1.DOD_vect = s.DOD_vect := by
  obtain ⟨C, hC⟩ := bilinear_done u
    { s with Range := s.Ylt,
             average_range := (s.average_range * (s.nCycles : K) + s.Ylt)
               / ((s.nCycles + 1 : Int) : K),
             nCycles := s.nCycles + 1 }
    ((s.average_range * (s.nCycles : K) + s.Ylt) / ((s.nCycles + 1 : Int) : K))
    (s.nCycles + 1) h
  simp only [lifetime_t.count_range, hC, Outcome.bind_done, Outcome.pure_eq_done]
  by_cases h40 : s.Ylt > 40
  · simp only [h40, if_true]
    exact ⟨_, rfl, rfl, rfl, rfl, rfl, rfl, rfl, rfl, rfl, rfl, rfl, rfl, rfl⟩
  · have h98 : ¬ s.Ylt > 98 := fun h => h40 (lt_trans (by norm_num) h)
    simp only [h40, if_false, h98]
    refine ⟨_, rfl, rfl, rfl, rfl, ?_, rfl, rfl, rfl, rfl, rfl, rfl, rfl, rfl⟩
    simp

theorem vector_pop_back_concat {α : Type} (l : List α) (x : α) :
    vector_pop_back (l ++ [x]) = Outcome.done l := by
  have h : ∃ y ys, l ++ [x] = y :: ys := by cases l <;> simp
  obtain ⟨y, ys, h⟩ := h
  have h1 : vector_pop_back (y :: ys) = Outcome.done (y :: ys).dropLast := rfl
  rw [h, h1, ← h, List.dropLast_concat]

/-- Step 3 of the rainflow algorithm when `X ≥ Y` and `S` is not an end point of `Y`. -/
theorem compareRanges_decide_count (s : lifetime_t K) (front : List K) (a b c : K)
    (hP : s.Peaks = front ++ [a, b, c]) (hj : s.jlt = (front.length : Int) + 2)
    (hXY : s.Xlt ≥ s.Ylt) (hSb : s.Slt ≠ b) (hSa : s.Slt ≠ a) :
    lifetime_t.compareRanges_decide s = Outcome.done (LT_code.LT_SUCCESS, false, s) := by
  have hE := S_is_endpoint_last_three s front a b c hP hj
  have hdec : decide (s.Slt = b ∨ s.Slt = a) = false := by simp [hSb, hSa]
  rw [hdec] at hE
  have hlt : ¬ s.Xlt < s.Ylt := not_lt.mpr hXY
  by_cases heq : s.Xlt = s.Ylt
  · simp [lifetime_t.compareRanges_decide, hlt, heq, hE]
  · have hgt : s.Xlt > s.Ylt := lt_of_le_of_ne hXY (Ne.symm heq)
    simp [lifetime_t.compareRanges_decide, hlt, heq, hE, hXY, hgt]

/-- Step 3 of the rainflow algorithm when `X ≥ Y` and `S` is an end point of `Y`. -/
theorem compareRanges_decide_open (s : lifetime_t K) (front : List K) (a b c : K)
    (hP : s.Peaks = front ++ [a, b, c]) (hj : s.jlt = (front.length : Int) + 2)
    (hXY : s.Xlt ≥ s.Ylt) (hS : s.Slt = b ∨ s.Slt = a) :
    (s.Xlt = s.Ylt →
      lifetime_t.compareRanges_decide s = Outcome.done (LT_code.LT_GET_DATA, true, s))
    ∧ (s.Xlt > s.Ylt → ∀ p : K, vector_at s.Peaks (s.klt + 1) = Outcome.done p →
      lifetime_t.compareRanges_decide s
        = Outcome.done (LT_code.LT_GET_DATA, true, { s with klt := s.klt + 1, Slt := p })) := by
  have hE := S_is_endpoint_last_three s front a b c hP hj
  have hdec : decide (s.Slt = b ∨ s.Slt = a) = true := by simp [hS]
  rw [hdec] at hE
  have hlt : ¬ s.Xlt < s.Ylt := not_lt.mpr hXY
  constructor
  · intro heq
    simp [lifetime_t.compareRanges_decide, hlt, heq, hE]
  · intro hgt p hp
    have hne : ¬ s.Xlt = s.Ylt := ne_of_gt hgt
    simp [lifetime_t.compareRanges_decide, hlt, hne, hE, hXY, hgt, hp]

/-- Step 3 of the rainflow algorithm when `X < Y`. -/
theorem compareRanges_decide_lt (s : lifetime_t K) (h : s.Xlt < s.Ylt) :
    lifetime_t.compareRanges_decide s = Outcome.done (LT_code.LT_GET_DATA, true, s) := by
  simp [lifetime_t.compareRanges_decide, h]

theorem ranges_decreasing_tail (f : K) (l : List K) (h : ranges_decreasing (f :: l)) :
    ranges_decreasing l := by
  cases l with
  | nil => trivial
  | cons g l1 =>
    cases l1 with
    | nil => trivial
    | cons i l2 => exact h.2

theorem ranges_decreasing_append (front l : List K) (h : ranges_decreasing (front ++ l)) :
    ranges_decreasing l := by
  induction front with
  | nil => exact h
  | cons f front ih => exact ih (ranges_decreasing_tail f _ h)

theorem rainflow_loop_short (u : util_t K) (n : Nat) (s : lifetime_t K) (h : s.jlt < 2) :
    lifetime_t.rainflow_loop u (n + 1) s = Outcome.done (LT_code.LT_GET_DATA, s) := by
  have h2 : ¬ s.jlt ≥ 2 := not_le.mpr h
  simp only [lifetime_t.rainflow_loop, h2, if_false, Outcome.pure_eq_done]

theorem rainflow_loop_lt (u : util_t K) (n : Nat) (s : lifetime_t K) (front : List K)
    (a b c : K) (hP : s.Peaks = front ++ [a, b, c]) (hj : s.jlt = (front.length : Int) + 2)
    (hlt : |c - b| < |b - a|) :
    lifetime_t.rainflow_loop u (n + 1) s
      = Outcome.done (LT_code.LT_GET_DATA, { s with Ylt := |b - a|, Xlt := |c - b| }) := by
  have h2 : s.jlt ≥ 2 := by rw [hj]; omega
  have hd := compareRanges_decide_lt
    ({ s with Ylt := |b - a|, Xlt := |c - b| } : lifetime_t K) hlt
  simp only [lifetime_t.rainflow_loop, h2, if_true,
    rainflow_ranges_last_three s front a b c hP hj, Outcome.bind_done,
    lifetime_t.rainflow_compareRanges, hd, not_true_eq_false, if_false, Outcome.pure_eq_done]

/-- The first call of `rainflow`: the sample becomes the reference `S`. -/
theorem rainflow_first (u : util_t K) (s : lifetime_t K) (x : K) (hj : s.jlt = 0) :
    lifetime_t.rainflow u s x
      = Outcome.done { s with Peaks := s.Peaks ++ [x], Slt := x, klt := s.jlt,
                              jlt := s.jlt + 1 } := by
  have hlt : s.jlt < 2 := by rw [hj]; decide
  simp only [lifetime_t.rainflow, hj, if_true, Outcome.pure_eq_done]
  rw [rainflow_loop_short u _ _ (by simp)]
  simp only [Outcome.bind_done, if_true]

/-- The second call of `rainflow`: two peaks form no pair of ranges yet. -/
theorem rainflow_second (u : util_t K) (s : lifetime_t K) (x : K) (hj : s.jlt = 1) :
    lifetime_t.rainflow u s x
      = Outcome.done { s with Peaks := s.Peaks ++ [x], jlt := s.jlt + 1 } := by
  have hne : ¬ s.jlt = 0 := by rw [hj]; decide
  simp only [lifetime_t.rainflow, hne, if_false, Outcome.pure_eq_done]
  rw [rainflow_loop_short u _ _ (by show s.jlt < 2; rw [hj]; decide)]
  simp only [Outcome.bind_done, if_true]

/-- A call of `rainflow` whose new range `X` is smaller than the previous range `Y`. -/
theorem rainflow_lt (u : util_t K) (s : lifetime_t K) (x : K) (front : List K) (a b : K)
    (hP : s.Peaks = front ++ [a, b]) (hj : s.jlt = (front.length : Int) + 2)
    (hlt : |x - b| < |b - a|) :
    lifetime_t.rainflow u s x
      = Outcome.done { s with Peaks := s.Peaks ++ [x], Ylt := |b - a|, Xlt := |x - b|,
                              jlt := s.jlt + 1 } := by
  have hne : ¬ s.jlt = 0 := by rw [hj]; omega
  have hP2 : s.Peaks ++ [x] = front ++ [a, b, x] := by simp [hP]
  simp only [lifetime_t.rainflow, hne, if_false, Outcome.pure_eq_done]
  rw [rainflow_loop_lt u _ ({ s with Peaks := s.Peaks ++ [x] } : lifetime_t K) front a b x
    hP2 hj hlt]
  simp only [Outcome.bind_done, if_true]

/-- One call of `rainflow` that finds the new range smaller than the previous one (or fewer
than three peaks): the sample is buffered and nothing is counted. -/
theorem rainflow_wait (u : util_t K) (s : lifetime_t K) (x : K) (l : List K)
    (hP : s.Peaks = l) (hj : s.jlt = (l.length : Int))
    (hdec : ∀ front a b, l = front ++ [a, b] → |x - b| < |b - a|) :
    ∃ s1, lifetime_t.rainflow u s x = Outcome.done s1
      ∧ s1.Peaks = l ++ [x] ∧ s1.jlt = ((l ++ [x]).length : Int)
      ∧ s1.nCycles = s.nCycles := by
  rcases l.eq_nil_or_concat with rfl | ⟨l1, b, rfl⟩
  · have hj0 : s.jlt = 0 := by simpa using hj
    refine ⟨_, rainflow_first u s x hj0, ?_, ?_, rfl⟩
    · simp [hP]
    · simp [hj0]
  · rcases l1.eq_nil_or_concat with rfl | ⟨front, a, rfl⟩
    · have hj1 : s.jlt = 1 := by simpa using hj
      refine ⟨_, rainflow_second u s x hj1, ?_, ?_, rfl⟩
      · simp [hP]
      · simp [hj1]
    · have hj2 : s.jlt = (front.length : Int) + 2 := by
        rw [hj]; simp
      have hlt := hdec front a b (by simp)
      have hP1 : s.Peaks = front ++ [a, b] := by simp [hP]
      refine ⟨_, rainflow_lt u s x front a b hP1 hj2 hlt, ?_, ?_, rfl⟩
      · simp [hP]
      · simp [hj2]; ring

/-- A fresh lifetime model has an empty peak buffer and has counted nothing. -/
theorem lifetime_new_fresh (u : util_t K) (m : matrix_t K) (s : lifetime_t K)
    (h : lifetime_t.new u m = Outcome.done s) :
    s.Peaks = [] ∧ s.jlt = 0 ∧ s.nCycles = 0 := by
  simp only [lifetime_t.new] at h
  cases hc : lifetime_t.read_columns m (List.range m.nrows) ([], [], []) with
  | undefined => rw [hc] at h; simp at h
  | out_of_fuel => rw [hc] at h; simp at h
  | done cols =>
    rw [hc] at h
    simp only [Outcome.bind_done] at h
    cases hb : lifetime_t.bilinear u
        { batt_lifetime_matrix := m, DOD_vect := cols.1, cycles_vect := cols.2.1,
          capacities_vect := cols.2.2, nCycles := 0, Dlt := 0, Clt := 0, jlt := 0, klt := 0,
          Xlt := 0, Ylt := 0, Slt := 0, Range := 0, average_range := 0, fortyPercent := 0,
          hundredPercent := 0, Peaks := [] } 0 0 with
    | undefined => rw [hb] at h; simp at h
    | out_of_fuel => rw [hb] at h; simp at h
    | done C =>
      rw [hb] at h
      simp only [Outcome.bind_done, Outcome.pure_eq_done, Outcome.done.injEq] at h
      subst h
      exact ⟨rfl, rfl, rfl⟩

/-- A run of `rainflow` over samples whose ranges keep decreasing buffers every sample and
counts nothing. -/
theorem rainflow_all_wait (u : util_t K) (todo : List K) :
    ∀ (seen later : List K) (s : lifetime_t K), s.Peaks = seen → s.jlt = (seen.length : Int) →
      ranges_decreasing (seen ++ todo ++ later) →
      ∃ s1, lifetime_t.rainflow_all u s todo = Outcome.done s1
        ∧ s1.Peaks = seen ++ todo ∧ s1.nCycles = s.nCycles := by
  induction todo with
  | nil =>
    intro seen later s hP _ _
    exact ⟨s, rfl, by simp [hP], rfl⟩
  | cons x rest ih =>
    intro seen later s hP hj hrd
    have hdec : ∀ front a b, seen = front ++ [a, b] → |x - b| < |b - a| := by
      intro front a b hseen
      subst hseen
      have h1 : front ++ [a, b] ++ x :: rest ++ later
          = front ++ (a :: b :: x :: (rest ++ later)) := by simp
      rw [h1] at hrd
      exact (ranges_decreasing_append front _ hrd).1
    obtain ⟨s1, h1, hP1, hj1, hn1⟩ := rainflow_wait u s x seen hP hj hdec
    have hrd1 : ranges_decreasing (seen ++ [x] ++ rest ++ later) := by
      have : seen ++ [x] ++ rest ++ later = seen ++ x :: rest ++ later := by simp
      rw [this]; exact hrd
    obtain ⟨s2, h2, hP2, hn2⟩ := ih (seen ++ [x]) later s1 hP1 hj1 hrd1
    refine ⟨s2, ?_, ?_, ?_⟩
    · simp only [lifetime_t.rainflow_all, h1, Outcome.bind_done]
      exact h2
    · rw [hP2]; simp
    · rw [hn2, hn1]

end LifeLemmas

section DispatchLemmas

theorem month_start_succ (m : Int) (h : 1 ≤ m) :
    month_start (m + 1) = month_start m + util.hours_in_month m := by
  obtain ⟨n, rfl⟩ : ∃ n : Nat, m = (n : Int) + 1 := ⟨(m - 1).toNat, by omega⟩
  have h1 : ((n : Int) + 1 + 1 - 1).toNat = n + 1 := by omega
  have h2 : ((n : Int) + 1 - 1).toNat = n := by omega
  simp only [month_start, h1, h2, List.range_succ, List.map_append, List.sum_append,
    List.map_cons, List.map_nil, List.sum_cons, List.sum_nil, add_zero]

theorem getMonthHour_floor (h : Int) : ⌊(h : ℚ) / 24⌋ = h / 24 := by
  have := Rat.floor_intCast_div_natCast h 24
  simpa using this

theorem getMonthHour_loop_spec (h : Int) (h1 : h < 8760) :
    ∀ (n : Nat) (month tmpSum : Int), 1 ≤ month → month + n = 13 →
      tmpSum = month_start month → tmpSum ≤ h →
      1 ≤ (getMonthHour_loop h n month tmpSum).1
      ∧ (getMonthHour_loop h n month tmpSum).1 ≤ 12
      ∧ month_start (getMonthHour_loop h n month tmpSum).1 ≤ h
      ∧ h < month_start (getMonthHour_loop h n month tmpSum).1
          + util.hours_in_month (getMonthHour_loop h n month tmpSum).1
      ∧ (getMonthHour_loop h n month tmpSum).2 = (h + 1) - (h / 24) * 24 := by
  intro n
  induction n with
  | zero =>
    intro month tmpSum _ hm hs hle
    have h13 : month = 13 := by omega
    have : month_start 13 = 8760 := by decide
    rw [h13, this] at hs
    omega
  | succ n ih =>
    intro month tmpSum hm1 hm hs hle
    simp only [getMonthHour_loop, getMonthHour_floor]
    split_ifs with hc
    · refine ⟨hm1, ?_, ?_, ?_, rfl⟩
      · show month ≤ 12
        omega
      · show month_start month ≤ h
        omega
      · show h < month_start month + util.hours_in_month month
        omega
    · exact ih (month + 1) (tmpSum + util.hours_in_month month) (by omega) (by omega)
        (by rw [month_start_succ month hm1, hs]) (by omega)

theorem getMonthHour_zero : getMonthHour 0 = (1, 1) := by decide!

theorem Outcome.bind_eq_done {α β : Type} (o : Outcome α) (f : α → Outcome β) (b : β)
    (h : (o >>= f) = Outcome.done b) : ∃ a, o = Outcome.done a ∧ f a = Outcome.done b := by
  cases o with
  | done a => exact ⟨a, rfl, by simpa using h⟩
  | undefined => simp at h
  | out_of_fuel => simp at h

theorem Outcome.done_of_isSome {α : Type} (o : Outcome α) (h : o.result?.isSome = true) :
    ∃ a, o = Outcome.done a := by
  cases o with
  | done a => exact ⟨a, rfl⟩
  | undefined => simp [Outcome.result?] at h
  | out_of_fuel => simp [Outcome.result?] at h

theorem read_profile_done {K : Type} (d d1 : dispatch_manual_t K) (hour : Nat)
    (h : d.read_profile hour = Outcome.done d1) :
    d1.BatteryBank = d.BatteryBank ∧ d1.dt = d.dt := by
  simp only [dispatch_manual_t.read_profile] at h
  obtain ⟨e, _, h⟩ := Outcome.bind_eq_done _ _ _ h
  obtain ⟨c1, _, h⟩ := Outcome.bind_eq_done _ _ _ h
  obtain ⟨c2, _, h⟩ := Outcome.bind_eq_done _ _ _ h
  obtain ⟨c3, _, h⟩ := Outcome.bind_eq_done _ _ _ h
  simp only [Outcome.pure_eq_done, Outcome.done.injEq] at h
  subst h
  exact ⟨rfl, rfl⟩

theorem read_profile_example {K : Type} [LinearOrderedField K] (c d g : Bool) :
    (dispatch_manual_t.example_state c d g : dispatch_manual_t K).read_profile 0
      = Outcome.done { (dispatch_manual_t.example_state c d g : dispatch_manual_t K) with
          can_charge := c, can_discharge := d, can_grid_charge := g } := by
  have hf : float_to_int ((1 : ℚ) - 1) = 0 := by decide!
  have hs : sched_at (fun _ _ => (1 : ℚ)) (1 - 1) (1 - 1) = Outcome.done 1 := by
    simp [sched_at]
  simp only [dispatch_manual_t.read_profile, Nat.cast_zero, getMonthHour_zero,
    dispatch_manual_t.example_state, dispatch_manual_t.new, hs, Outcome.bind_done,
    hf, array_at]
  rfl

variable {K : Type} [LinearOrderedField K]

theorem voltage_model_mono (d : voltage_dynamic_t K) (Q I q0a q0b : K) (hK : 0 ≤ d.K_)
    (hQ : 0 < Q) (h : q0a ≤ q0b) : d.voltage_model Q I q0a ≤ d.voltage_model Q I q0b := by
  simp only [voltage_dynamic_t.voltage_model]
  have h1 : q0a / Q ≤ q0b / Q := div_le_div_of_nonneg_right h hQ.le
  nlinarith [mul_le_mul_of_nonneg_left h1 hK]

theorem updateVoltage_dynamic (v : voltage_t K) (d : voltage_dynamic_t K) (Q I q0 dt : K)
    (hd : v.dynamic = some d) (hn : (v.num_cells : K) ≠ 0) :
    (v.updateVoltage Q I q0 dt).cell_voltage
      = d.E0 - d.R * (I / (v.num_cells : K)) - d.K_ * (1 - q0 / Q) := by
  simp only [voltage_t.updateVoltage, hd, voltage_dynamic_t.voltage_model]
  rw [div_div_div_cancel_right₀ hn]

theorem update_SOC_I (s : capacity_t K) : (capacity_t.update_SOC s).I = s.I := rfl

theorem capacity_model_thermal_I (c : capacity_model K) (p : K) :
    (c.updateCapacityForThermal p).I = c.I := by
  cases c <;> rfl

theorem capacity_model_lifetime_I (c : capacity_model K) (p : K) :
    (c.updateCapacityForLifetime p).I = c.I := by
  cases c <;> rfl

theorem run_losses_I (u : util_t K) (l : losses_t) (lifetime : lifetime_t K)
    (thermal : thermal_t K) (c : capacity_model K) :
    (losses_t.run_losses u l lifetime thermal c).2.I = c.I := by
  simp only [losses_t.run_losses, losses_t.lifetime_losses]
  split_ifs <;> simp only [capacity_model_thermal_I, capacity_model_lifetime_I]

theorem run_lifetime_done (u : util_t K) (b b1 : battery_t K)
    (h : b.run_lifetime u = Outcome.done b1) :
    b1.capacity = b.capacity ∧ b1.voltage = b.voltage ∧ b1.dt = b.dt := by
  simp only [battery_t.run_lifetime] at h
  split_ifs at h
  · obtain ⟨L, _, hL⟩ := Outcome.bind_eq_done _ _ _ h
    simp only [Outcome.pure_eq_done, Outcome.done.injEq] at hL
    subst hL
    exact ⟨rfl, rfl, rfl⟩
  · simp only [Outcome.pure_eq_done, Outcome.done.injEq] at h
    subst h
    exact ⟨rfl, rfl, rfl⟩

theorem run_models_lithium_I (exp : K → K) (u : util_t K) (hts : K) (b : battery_t K)
    (c : capacity_t K) (P : K) (hc : b.capacity = capacity_model.lithium_ion c) :
    (b.run_models exp u hts P).capacity.I
      = (capacity_lithium_ion_t.updateCapacity_core c P b.voltage.battery_voltage b.dt).I := by
  simp only [battery_t.run_models, run_losses_I, hc, capacity_model.updateCapacity,
    capacity_lithium_ion_t.updateCapacity]
  rfl

theorem battery_run_lithium_I (exp : K → K) (u : util_t K) (hts : K) (b b' : battery_t K)
    (c : capacity_t K) (P : K) (hc : b.capacity = capacity_model.lithium_ion c)
    (h : b.run exp u hts P = Outcome.done b') :
    b'.capacity.I
      = (capacity_lithium_ion_t.updateCapacity_core c P b.voltage.battery_voltage b.dt).I := by
  obtain ⟨b1, h1, h2⟩ := Outcome.bind_eq_done _ _ _ h
  obtain ⟨e1, e2, e3⟩ := run_lifetime_done u b b1 h1
  simp only [Outcome.pure_eq_done, Outcome.done.injEq] at h2
  rw [← h2, run_models_lithium_I exp u hts b1 c P (by rw [e1, hc]), e2, e3]

theorem lithium_core_I_between (s : capacity_t K) (P V dt : K) (hdt : 0 < dt)
    (h0 : 0 ≤ s.q0) (h1 : s.q0 ≤ s.qmax) :
    (0 ≤ (capacity_lithium_ion_t.updateCapacity_core s P V dt).I
      ∧ (capacity_lithium_ion_t.updateCapacity_core s P V dt).I ≤ P / V)
    ∨ (P / V ≤ (capacity_lithium_ion_t.updateCapacity_core s P V dt).I
      ∧ (capacity_lithium_ion_t.updateCapacity_core s P V dt).I ≤ 0) := by
  simp only [capacity_lithium_ion_t.updateCapacity_core, check_charge_change_I, decide_eq_true_eq]
  by_cases hover : s.q0 - P / V * dt > s.qmax
  · have hneg : P / V * dt < 0 := by linarith
    have hI : P / V < 0 := by
      by_contra hh
      have := mul_nonneg (not_lt.mp hh) hdt.le
      linarith
    have hun : ¬ s.qmax < 0 := by linarith
    simp only [if_pos hover, if_neg hun]
    right
    constructor
    · rw [le_div_iff₀ hdt]; linarith
    · exact div_nonpos_of_nonpos_of_nonneg (by linarith) hdt.le
  · simp only [if_neg hover]
    by_cases hunder : s.q0 - P / V * dt < 0
    · simp only [if_pos hunder]
      left
      constructor
      · exact div_nonneg h0 hdt.le
      · rw [div_le_iff₀ hdt]; linarith
    · simp only [if_neg hunder]
      rcases le_total 0 (P / V) with h | h
      · left; exact ⟨h, le_refl _⟩
      · right; exact ⟨le_refl _, h⟩

theorem dispatch_done (exp : K → K) (u : util_t K) (hts w2k k2w : K)
    (d d' : dispatch_manual_t K) (hour : Nat) (e_pv e_load : K)
    (h : dispatch_manual_t.dispatch exp u hts w2k k2w d hour e_pv e_load = Outcome.done d') :
    ∃ d1 bank, d.read_profile hour = Outcome.done d1
      ∧ d1.BatteryBank.run exp u hts (d1.commanded_power w2k k2w e_pv e_load)
          = Outcome.done bank
      ∧ d' = d1.allocate bank d1.BatteryBank.bank_voltage e_pv e_load := by
  simp only [dispatch_manual_t.dispatch] at h
  obtain ⟨d1, h1, h⟩ := Outcome.bind_eq_done _ _ _ h
  obtain ⟨bank, h2, h⟩ := Outcome.bind_eq_done _ _ _ h
  simp only [Outcome.pure_eq_done, Outcome.done.injEq] at h
  exact ⟨d1, bank, h1, h2, h.symm⟩

theorem bank_run_done (exp : K → K) (u : util_t K) (hts : K) (bank bank' : battery_bank_t K)
    (P : K) (h : bank.run exp u hts P = Outcome.done bank') :
    bank.battery.run exp u hts (P / (bank.num_batteries_series : K))
      = Outcome.done bank'.battery := by
  simp only [battery_bank_t.run] at h
  obtain ⟨b, h1, h⟩ := Outcome.bind_eq_done _ _ _ h
  simp only [Outcome.pure_eq_done, Outcome.done.injEq] at h
  rw [h1, ← h]

end DispatchLemmas

section DispatchRealLemmas

theorem parameter_compute_K_nonneg (pts : voltage_dynamic_t ℝ)
    (hV1 : pts.Vnom ≤ pts.Vexp) (hV2 : pts.Vexp ≤ pts.Vfull)
    (hQ1 : 0 < pts.Qnom) (hQ2 : pts.Qnom ≤ pts.Qfull) :
    0 ≤ (voltage_dynamic_t.parameter_compute Real.exp pts).K_ := by
  simp only [voltage_dynamic_t.parameter_compute]
  have he : 0 < Real.exp (-(3 / pts.Qexp) * pts.Qnom) := Real.exp_pos _
  have hA : 0 ≤ pts.Vfull - pts.Vexp := by linarith
  have h1 : 0 ≤ pts.Vfull - pts.Vnom
      + (pts.Vfull - pts.Vexp) * (Real.exp (-(3 / pts.Qexp) * pts.Qnom) - 1) := by
    nlinarith [mul_nonneg hA he.le]
  exact div_nonneg (mul_nonneg h1 (by linarith)) hQ1.le

end DispatchRealLemmas

section BufferLemmas

theorem list_last_three {α : Type} (l : List α) (h : 3 ≤ l.length) :
    ∃ front a b c, l = front ++ [a, b, c] := by
  have hd : (l.drop (l.length - 3)).length = 3 := by
    rw [List.length_drop]; omega
  obtain ⟨a, b, c, habc⟩ := List.length_eq_three.mp hd
  exact ⟨l.take (l.length - 3), a, b, c, by rw [← habc, List.take_append_drop]⟩

theorem vector_at_done {α : Type} (l : List α) (i : Int) (h0 : 0 ≤ i)
    (h1 : i < (l.length : Int)) : ∃ x, vector_at l i = Outcome.done x := by
  obtain ⟨n, rfl⟩ := Int.eq_ofNat_of_zero_le h0
  have hn : n < l.length := by omega
  exact ⟨l[n], vector_at_nat l n _ (List.getElem?_eq_getElem hn)⟩

theorem vector_at_append_left {α : Type} (l l2 : List α) (i : Int) (h0 : 0 ≤ i)
    (h1 : i < (l.length : Int)) : vector_at (l ++ l2) i = vector_at l i := by
  obtain ⟨n, rfl⟩ := Int.eq_ofNat_of_zero_le h0
  have hn : n < l.length := by omega
  rw [vector_at_nat l n l[n] (List.getElem?_eq_getElem hn),
    vector_at_nat (l ++ l2) n l[n] (by
      rw [List.getElem?_append_left hn]
      exact List.getElem?_eq_getElem hn)]

theorem same_accumulators_refl {K : Type} (s : lifetime_t K) : lifetime_t.same_accumulators s s :=
  ⟨rfl, rfl, rfl, rfl, rfl, rfl, rfl⟩

theorem same_accumulators_trans {K : Type} (s s1 s2 : lifetime_t K)
    (h1 : lifetime_t.same_accumulators s s1) (h2 : lifetime_t.same_accumulators s1 s2) :
    lifetime_t.same_accumulators s s2 := by
  obtain ⟨a1, a2, a3, a4, a5, a6, a7⟩ := h1
  obtain ⟨b1, b2, b3, b4, b5, b6, b7⟩ := h2
  exact ⟨b1.trans a1, b2.trans a2, b3.trans a3, b4.trans a4, b5.trans a5, b6.trans a6,
    b7.trans a7⟩

theorem vector_at_get {α : Type} (l : List α) (i : Nat) (x : α) (h : l[i]? = some x) :
    vector_at l (i : Int) = Outcome.done x := vector_at_nat l i x h

theorem vector_back_last {α : Type} (l : List α) (x : α)
    (h : l[l.length - 1]? = some x) : vector_back l = Outcome.done x := by
  have hne : l ≠ [] := by
    intro h0
    subst h0
    simp at h
  have hl : l.getLast? = some x := by
    rw [List.getLast?_eq_getElem?]
    exact h
  simp only [vector_back, hl]

theorem array_get_done {K : Type} (a : List K) (i : Nat) (h : i < a.length) :
    array_get a i = Outcome.done a[i] := by
  simp only [array_get, List.get?_eq_getElem?, List.getElem?_eq_getElem h]

theorem array_get_eq {K : Type} (a : List K) (i : Nat) (x : K) (h : array_get a i = Outcome.done x) :
    a[i]? = some x := by
  simp only [array_get, List.get?_eq_getElem?] at h
  cases ha : a[i]? with
  | none => rw [ha] at h; simp at h
  | some y =>
    rw [ha] at h
    simp only [Outcome.done.injEq] at h
    rw [h]

theorem finish_measure_decreases {K : Type} (s s1 : lifetime_t K) (ii ii1 rc rc0 rc1 : Int)
    (hact : rc ≤ 1 ∧ 0 ≤ ii ∧ ii < (s.Peaks.length : Int)) (hrc0 : rc ≤ rc0)
    (hrc : rc0 ≤ rc1) (hii1 : 0 ≤ ii1)
    (hcase : (s1.Peaks.length = s.Peaks.length ∧ ii1 = ii + 1)
      ∨ s1.Peaks.length < s.Peaks.length
      ∨ (s.Peaks.length = 2 ∧ s1.Peaks.length = 3 ∧ ii1 = 3)
      ∨ (s1.Peaks.length = s.Peaks.length ∧ ii1 = ii ∧ rc1 = rc0 + 1)) :
    lifetime_t.finish_measure s1 ii1 rc1 < lifetime_t.finish_measure s ii rc := by
  simp only [lifetime_t.finish_measure, if_pos hact]
  split_ifs with h1
  · rcases hcase with ⟨e1, e2⟩ | e | ⟨e1, e2, e3⟩ | ⟨e1, e2, e3⟩
    · rw [e1]; omega
    · have hsq : s1.Peaks.length * s1.Peaks.length + 2 * s1.Peaks.length + 1
          ≤ s.Peaks.length * s.Peaks.length := by
        have h : s1.Peaks.length + 1 ≤ s.Peaks.length := e
        have := Nat.mul_le_mul h h
        nlinarith
      omega
    · omega
    · rw [e1]; omega
  · omega

variable {K : Type} [LinearOrderedField K]

theorem kibam_tanks_sum (exp : K → K) (s : capacity_kibam_t K) (q10 q20 q0 dt I : K)
    (hk : s.k ≠ 0) (h : q0 = q10 + q20) :
    capacity_kibam_t.q1_compute exp s q10 q0 dt I
      + capacity_kibam_t.q2_compute exp s q20 q0 dt I = q0 - I * dt := by
  simp only [capacity_kibam_t.q1_compute, capacity_kibam_t.q2_compute]
  rw [h]
  field_simp
  ring

theorem interpolate_loop_skip (t : s_efftable K) (x : K) (fuel j : Nat) (p : s_effmember K)
    (hp : t.table[j]? = some p) (hx : p.x ≤ x) (hj : j + 1 < t.table.length) :
    s_efftable.interpolate_loop t x (fuel + 1) (j : Int)
      = s_efftable.interpolate_loop t x fuel ((j + 1 : Nat) : Int) := by
  have hne : ¬ ((j : Int) = (t.table.length : Int) - 1) := by omega
  rw [s_efftable.interpolate_loop]
  simp only [if_neg hne, vector_at_get _ _ _ hp, Outcome.bind_done, if_neg (not_lt.mpr hx)]
  rfl

theorem interpolate_loop_advance (t : s_efftable K) (x : K) :
    ∀ (d fuel j : Nat), j + d < t.table.length →
      (∀ i, j ≤ i → i < j + d → ∃ p, t.table[i]? = some p ∧ p.x ≤ x) →
      s_efftable.interpolate_loop t x (fuel + d) (j : Int)
        = s_efftable.interpolate_loop t x fuel ((j + d : Nat) : Int) := by
  intro d
  induction d with
  | zero => intro fuel j _ _; rfl
  | succ d ih =>
    intro fuel j hlen hall
    obtain ⟨p, hp, hx⟩ := hall j (le_refl _) (by omega)
    have h1 : fuel + (d + 1) = (fuel + d) + 1 := by omega
    rw [h1, interpolate_loop_skip t x (fuel + d) j p hp hx (by omega)]
    have h2 : j + (d + 1) = (j + 1) + d := by omega
    rw [h2]
    exact ih fuel (j + 1) (by omega) (fun i hi1 hi2 => hall i (by omega) (by omega))

theorem table_increasing (t : s_efftable K)
    (hinc : List.Pairwise (fun a b : s_effmember K => a.x < b.x) t.table)
    (i j : Nat) (p q : s_effmember K) (hij : i ≤ j) (hp : t.table[i]? = some p)
    (hq : t.table[j]? = some q) : p.x ≤ q.x := by
  rcases Nat.eq_or_lt_of_le hij with h | h
  · subst h
    rw [hp] at hq
    obtain rfl := Option.some.inj hq
    exact le_refl _
  · have hj : j < t.table.length := by
      by_contra hc
      rw [List.getElem?_eq_none (by omega)] at hq
      exact absurd hq (by simp)
    have hi : i < t.table.length := by omega
    have := List.pairwise_iff_getElem.mp hinc i j hi hj h
    rw [List.getElem?_eq_getElem hi] at hp
    rw [List.getElem?_eq_getElem hj] at hq
    obtain rfl := Option.some.inj hp
    obtain rfl := Option.some.inj hq
    exact this.le

theorem max_of_min_of_unit (d : K) : 0 ≤ max_of (min_of d 1) 0 ∧ max_of (min_of d 1) 0 ≤ 1 := by
  simp only [max_of, min_of]
  split_ifs <;> constructor <;> linarith

theorem velDeltaPQ_unit (log sqrt exp : K → K) (rc ax th ti : K) :
    0 ≤ (simpleWakeModel.velDeltaPQ log sqrt exp rc ax th ti).1
    ∧ (simpleWakeModel.velDeltaPQ log sqrt exp rc ax th ti).1 ≤ 1 := by
  simp only [simpleWakeModel.velDeltaPQ]
  split_ifs
  · exact ⟨le_refl _, zero_le_one⟩
  · exact max_of_min_of_unit _

theorem wake_deficit_unit (log sqrt exp : K → K) (dd dc th : List K) (i : Nat) :
    ∀ (js : List Nat) (acc r : K × K),
      simpleWakeModel.wake_deficit log sqrt exp dd dc th i js acc = Outcome.done r →
      0 ≤ acc.1 → acc.1 ≤ 1 → 0 ≤ r.1 ∧ r.1 ≤ 1 := by
  intro js
  induction js with
  | nil =>
    intro acc r h h0 h1
    simp only [simpleWakeModel.wake_deficit, Outcome.pure_eq_done, Outcome.done.injEq] at h
    subst h
    exact ⟨h0, h1⟩
  | cons j rest ih =>
    intro acc r h h0 h1
    simp only [simpleWakeModel.wake_deficit] at h
    obtain ⟨dj, _, h⟩ := Outcome.bind_eq_done _ _ _ h
    obtain ⟨di, _, h⟩ := Outcome.bind_eq_done _ _ _ h
    obtain ⟨cj, _, h⟩ := Outcome.bind_eq_done _ _ _ h
    obtain ⟨ci, _, h⟩ := Outcome.bind_eq_done _ _ _ h
    obtain ⟨tj, _, h⟩ := Outcome.bind_eq_done _ _ _ h
    have hv := velDeltaPQ_unit log sqrt exp |cj - ci| |dj - di| tj acc.2
    refine ih _ r h ?_ ?_
    · exact mul_nonneg h0 (by linarith [hv.2])
    · have : acc.1 * (1 - (simpleWakeModel.velDeltaPQ log sqrt exp |cj - ci| |dj - di| tj
          acc.2).1) ≤ 1 * 1 :=
        mul_le_mul h1 (by linarith [hv.1]) (by linarith [hv.2]) zero_le_one
      simpa using this

theorem wake_deficit_total (log sqrt exp : K → K) (dd dc th : List K) (i : Nat)
    (hd : i < dd.length) (hc : i < dc.length) :
    ∀ (js : List Nat) (acc : K × K),
      (∀ j ∈ js, j < dd.length ∧ j < dc.length ∧ j < th.length) →
      ∃ r, simpleWakeModel.wake_deficit log sqrt exp dd dc th i js acc = Outcome.done r := by
  intro js
  induction js with
  | nil => intro acc _; exact ⟨acc, rfl⟩
  | cons j rest ih =>
    intro acc hall
    obtain ⟨h1, h2, h3⟩ := hall j (List.mem_cons_self _ _)
    simp only [simpleWakeModel.wake_deficit, array_get_done _ _ h1, array_get_done _ _ hd,
      array_get_done _ _ h2, array_get_done _ _ hc, array_get_done _ _ h3, Outcome.bind_done]
    exact ih _ (fun j' hj' => hall j' (List.mem_cons_of_mem _ hj'))

theorem wake_turbines_spec (log sqrt exp : K → K) (dd dc th : List K) :
    ∀ (is : List Nat) (st r : List K × List K),
      simpleWakeModel.wake_turbines log sqrt exp dd dc th is st = Outcome.done r →
      is.Nodup →
      (∀ k, k ∉ is → r.1[k]? = st.1[k]?)
      ∧ (∀ k ∈ is, ∀ w, st.1[k]? = some w → 0 ≤ w →
          ∃ w', r.1[k]? = some w' ∧ 0 ≤ w' ∧ w' ≤ w) := by
  intro is
  induction is with
  | nil =>
    intro st r h _
    simp only [simpleWakeModel.wake_turbines, Outcome.pure_eq_done, Outcome.done.injEq] at h
    subst h
    exact ⟨fun _ _ => rfl, fun k hk => absurd hk (List.not_mem_nil k)⟩
  | cons i rest ih =>
    intro st r h hnd
    simp only [simpleWakeModel.wake_turbines] at h
    obtain ⟨ti, _, h⟩ := Outcome.bind_eq_done _ _ _ h
    obtain ⟨d, hd, h⟩ := Outcome.bind_eq_done _ _ _ h
    obtain ⟨w0, hw0, h⟩ := Outcome.bind_eq_done _ _ _ h
    have hunit := wake_deficit_unit log sqrt exp dd dc th i _ _ d hd (by norm_num)
      (by norm_num)
    obtain ⟨hi, hrest⟩ := List.nodup_cons.mp hnd
    obtain ⟨ih1, ih2⟩ := ih _ r h hrest
    have hw0' := array_get_eq _ _ _ hw0
    have hilt : i < st.1.length := by
      by_contra hc
      rw [List.getElem?_eq_none (by omega)] at hw0'
      exact absurd hw0' (by simp)
    constructor
    · intro k hk
      have hki : k ≠ i := fun e => hk (e ▸ List.mem_cons_self _ _)
      have hkr : k ∉ rest := fun e => hk (List.mem_cons_of_mem _ e)
      rw [ih1 k hkr]
      simp only [List.getElem?_set_ne (Ne.symm hki)]
    · intro k hk w hw hw0nn
      rcases List.mem_cons.mp hk with rfl | hk'
      · rw [ih1 k hi]
        rw [hw0'] at hw
        obtain rfl := Option.some.inj hw
        refine ⟨w0 * d.1, ?_, mul_nonneg hw0nn hunit.1, ?_⟩
        · simp only [List.getElem?_set_self hilt]
        · have := mul_le_mul_of_nonneg_left hunit.2 hw0nn
          simpa using this
      · have hki : k ≠ i := fun e => hi (e ▸ hk')
        exact ih2 k hk' w (by simp only [List.getElem?_set_ne (Ne.symm hki)]; exact hw) hw0nn

theorem wake_turbines_total (log sqrt exp : K → K) (dd dc th : List K) :
    ∀ (is : List Nat) (st : List K × List K),
      (∀ i ∈ is, i < dd.length ∧ i < dc.length ∧ i < th.length ∧ i < st.1.length
        ∧ i < st.2.length) →
      ∃ r, simpleWakeModel.wake_turbines log sqrt exp dd dc th is st = Outcome.done r := by
  intro is
  induction is with
  | nil => intro st _; exact ⟨st, rfl⟩
  | cons i rest ih =>
    intro st hall
    obtain ⟨h1, h2, h3, h4, h5⟩ := hall i (List.mem_cons_self _ _)
    obtain ⟨d, hd⟩ := wake_deficit_total log sqrt exp dd dc th i h1 h2 (List.range i)
      (1, st.2[i]) (fun j hj => by
        have := List.mem_range.mp hj
        exact ⟨by omega, by omega, by omega⟩)
    simp only [simpleWakeModel.wake_turbines, array_get_done _ _ h5, Outcome.bind_done, hd,
      array_get_done _ _ h4]
    apply ih
    intro i' hi'
    obtain ⟨g1, g2, g3, g4, g5⟩ := hall i' (List.mem_cons_of_mem _ hi')
    exact ⟨g1, g2, g3, by simpa using g4, by simpa using g5⟩

theorem bilinear_congr (u : util_t K) (s s1 : lifetime_t K) (D : K) (n : Int)
    (h1 : s1.DOD_vect = s.DOD_vect) (h2 : s1.cycles_vect = s.cycles_vect)
    (h3 : s1.capacities_vect = s.capacities_vect)
    (h4 : s1.batt_lifetime_matrix = s.batt_lifetime_matrix) :
    lifetime_t.bilinear u s1 D n = lifetime_t.bilinear u s D n := by
  simp only [lifetime_t.bilinear, lifetime_t.bilinear_value, lifetime_t.rows, h1, h2, h3, h4]

theorem count_range_spec (u : util_t K) (s s1 : lifetime_t K)
    (h : lifetime_t.count_range u s = Outcome.done s1) :
    s1.nCycles = s.nCycles + 1
    ∧ s1.average_range
        = (s.average_range * (s.nCycles : K) + s.Ylt) / ((s.nCycles + 1 : Int) : K)
    ∧ lifetime_t.bilinear u s1 s1.average_range s1.nCycles = Outcome.done s1.Clt
    ∧ s1.DOD_vect = s.DOD_vect ∧ s1.cycles_vect = s.cycles_vect
    ∧ s1.capacities_vect = s.capacities_vect
    ∧ s1.batt_lifetime_matrix = s.batt_lifetime_matrix := by
  simp only [lifetime_t.count_range] at h
  cases hb : lifetime_t.bilinear u
      { s with Range := s.Ylt,
               average_range := (s.average_range * (s.nCycles : K) + s.Ylt)
                 / ((s.nCycles + 1 : Int) : K),
               nCycles := s.nCycles + 1 }
      ((s.average_range * (s.nCycles : K) + s.Ylt) / ((s.nCycles + 1 : Int) : K))
      (s.nCycles + 1) with
  | undefined => rw [hb] at h; simp at h
  | out_of_fuel => rw [hb] at h; simp at h
  | done C =>
    rw [hb] at h
    simp only [Outcome.bind_done, Outcome.pure_eq_done] at h
    have hb' : ∀ t : lifetime_t K, t.DOD_vect = s.DOD_vect → t.cycles_vect = s.cycles_vect →
        t.capacities_vect = s.capacities_vect →
        t.batt_lifetime_matrix = s.batt_lifetime_matrix →
        lifetime_t.bilinear u t
          ((s.average_range * (s.nCycles : K) + s.Ylt) / ((s.nCycles + 1 : Int) : K))
          (s.nCycles + 1) = Outcome.done C := by
      intro t e1 e2 e3 e4
      rw [← hb]
      exact bilinear_congr u _ t _ _ e1 e2 e3 e4
    split_ifs at h <;>
    · simp only [Outcome.done.injEq] at h
      subst h
      exact ⟨rfl, rfl, hb' _ rfl rfl rfl rfl, rfl, rfl, rfl, rfl⟩

theorem counted_refl (u : util_t K) (s : lifetime_t K) : lifetime_t.counted u s [] s :=
  lifetime_t.counted.same s s (same_accumulators_refl s)

theorem counted_same_right (u : util_t K) (s s1 s2 : lifetime_t K) (rs : List K)
    (h : lifetime_t.counted u s rs s1) (h2 : lifetime_t.same_accumulators s1 s2) :
    lifetime_t.counted u s rs s2 := by
  cases h with
  | same _ h1 => exact lifetime_t.counted.same _ _ (same_accumulators_trans _ _ _ h1 h2)
  | count a b _ rs' h1 hc hs =>
    exact lifetime_t.counted.count _ a b _ rs' h1 hc (same_accumulators_trans _ _ _ hs h2)

theorem counted_trans (u : util_t K) (s s1 s2 : lifetime_t K) (rs rs2 : List K)
    (h1 : lifetime_t.counted u s rs s1) (h2 : lifetime_t.counted u s1 rs2 s2) :
    lifetime_t.counted u s (rs ++ rs2) s2 := by
  induction h2 with
  | same t h =>
    rw [List.append_nil]
    exact counted_same_right u s _ t rs h1 h
  | count a b t rs' _ hc hs ih =>
    rw [← List.append_assoc]
    exact lifetime_t.counted.count s a b t (rs ++ rs') ih hc hs

theorem counted_one (u : util_t K) (s s1 s2 s3 : lifetime_t K)
    (h0 : lifetime_t.same_accumulators s s1)
    (hc : lifetime_t.count_range u s1 = Outcome.done s2)
    (hs : lifetime_t.same_accumulators s2 s3) :
    lifetime_t.counted u s [s1.Ylt] s3 := by
  have := lifetime_t.counted.count s s1 s2 s3 [] (lifetime_t.counted.same s s1 h0) hc hs
  simpa using this

theorem counted_sum (u : util_t K) (s s1 : lifetime_t K) (rs : List K)
    (h : lifetime_t.counted u s rs s1) (hn : 0 ≤ s.nCycles) :
    s1.nCycles = s.nCycles + (rs.length : Int)
    ∧ s1.average_range * (s1.nCycles : K) = s.average_range * (s.nCycles : K) + rs.sum
    ∧ s1.DOD_vect = s.DOD_vect
    ∧ (rs ≠ [] →
        lifetime_t.bilinear u s1 s1.average_range s1.nCycles = Outcome.done s1.Clt) := by
  induction h with
  | same t h =>
    obtain ⟨a1, a2, a3, a4, a5, a6, a7⟩ := h
    refine ⟨by simp [a1], by simp [a1, a2], a4, fun h => absurd rfl h⟩
  | count a b t rs' _ hc hs ih =>
    obtain ⟨i1, i2, i3, _⟩ := ih
    obtain ⟨c1, c2, c3, c4, c5, c6, c7⟩ := count_range_spec u a b hc
    obtain ⟨a1, a2, a3, a4, a5, a6, a7⟩ := hs
    have hpos : (0 : K) < ((a.nCycles + 1 : Int) : K) := by
      have : (0 : Int) < a.nCycles + 1 := by
        rw [i1]
        have := Int.natCast_nonneg rs'.length
        omega
      exact_mod_cast this
    refine ⟨?_, ?_, ?_, ?_⟩
    · rw [a1, c1, i1]
      simp
      ring
    · rw [a1, a2, c1, c2, div_mul_cancel₀ _ hpos.ne', i2]
      simp
      ring
    · rw [a4, c4, i3]
    · intro _
      rw [a1, a2, a3, ← c3]
      exact bilinear_congr u b t _ _ a4 a5 a6 a7

theorem rainflow_loop_step (u : util_t K) (fuel : Nat) (s s1 : lifetime_t K) (code : LT_code)
    (h2 : s.jlt ≥ 2)
    (h : (lifetime_t.rainflow_ranges s >>= lifetime_t.rainflow_compareRanges u)
      = Outcome.done (code, s1)) :
    lifetime_t.rainflow_loop u (fuel + 1) s
      = if code = LT_code.LT_GET_DATA then Outcome.done (code, s1)
        else lifetime_t.rainflow_loop u fuel s1 := by
  rw [lifetime_t.rainflow_loop]
  simp only [h2, if_true]
  cases hr : lifetime_t.rainflow_ranges s with
  | undefined => rw [hr] at h; simp at h
  | out_of_fuel => rw [hr] at h; simp at h
  | done t =>
    rw [hr] at h
    simp only [Outcome.bind_done] at h
    simp only [Outcome.bind_done, h, Outcome.pure_eq_done]

theorem rainflow_step_count (u : util_t K) (s : lifetime_t K) (front : List K) (a b c : K)
    (hT : s.DOD_vect ≠ []) (hP : s.Peaks = front ++ [a, b, c])
    (hj : s.jlt = (front.length : Int) + 2) (hXY : |c - b| ≥ |b - a|)
    (hSb : s.Slt ≠ b) (hSa : s.Slt ≠ a) :
    ∃ s2, lifetime_t.count_range u ({ s with Ylt := |b - a|, Xlt := |c - b| } : lifetime_t K)
        = Outcome.done s2
      ∧ (lifetime_t.rainflow_ranges s >>= lifetime_t.rainflow_compareRanges u)
        = Outcome.done (LT_code.LT_RERANGE,
            { s2 with Peaks := front ++ [c], jlt := s2.jlt - 2 })
      ∧ s2.jlt = s.jlt ∧ s2.klt = s.klt ∧ s2.Slt = s.Slt
      ∧ s2.nCycles = s.nCycles + 1 ∧ s2.DOD_vect = s.DOD_vect := by
  rw [rainflow_ranges_last_three s front a b c hP hj, Outcome.bind_done]
  have hdec := compareRanges_decide_count
    ({ s with Ylt := |b - a|, Xlt := |c - b| } : lifetime_t K) front a b c hP hj hXY hSb hSa
  obtain ⟨s2, h2, hn, hR, _, _, _, hPk, hjl, hk, hS, _, _, hD⟩ :=
    count_range_done u ({ s with Ylt := |b - a|, Xlt := |c - b| } : lifetime_t K) hT
  have hsave : vector_at s2.Peaks s2.jlt = Outcome.done c := by
    rw [hPk, hjl]
    show vector_at s.Peaks s.jlt = Outcome.done c
    rw [hP]
    exact (vector_at_last_three front a b c s.jlt hj).1
  have hpop : s2.Peaks = ((front ++ [a]) ++ [b]) ++ [c] := by
    rw [hPk]
    simp [hP]
  refine ⟨s2, h2, ?_, hjl, hk, hS, hn, hD⟩
  simp only [lifetime_t.rainflow_compareRanges, hdec, Outcome.bind_done, h2, hsave,
    Bool.false_eq_true, not_false_eq_true, if_true, Outcome.pure_eq_done]
  rw [hpop]
  simp only [vector_pop_back_concat, Outcome.bind_done]

theorem rainflow_step_open (u : util_t K) (s : lifetime_t K) (front : List K) (a b c : K)
    (hP : s.Peaks = front ++ [a, b, c]) (hj : s.jlt = (front.length : Int) + 2)
    (hXY : |c - b| ≥ |b - a|) (hS : s.Slt = b ∨ s.Slt = a) :
    (|c - b| = |b - a| →
      (lifetime_t.rainflow_ranges s >>= lifetime_t.rainflow_compareRanges u)
        = Outcome.done (LT_code.LT_GET_DATA, { s with Ylt := |b - a|, Xlt := |c - b| }))
    ∧ (|c - b| > |b - a| → ∀ p : K, vector_at s.Peaks (s.klt + 1) = Outcome.done p →
      (lifetime_t.rainflow_ranges s >>= lifetime_t.rainflow_compareRanges u)
        = Outcome.done (LT_code.LT_GET_DATA,
            { s with Ylt := |b - a|, Xlt := |c - b|, klt := s.klt + 1, Slt := p })) := by
  rw [rainflow_ranges_last_three s front a b c hP hj, Outcome.bind_done]
  obtain ⟨h1, h2⟩ := compareRanges_decide_open
    ({ s with Ylt := |b - a|, Xlt := |c - b| } : lifetime_t K) front a b c hP hj hXY hS
  constructor
  · intro heq
    simp only [lifetime_t.rainflow_compareRanges, h1 heq, Outcome.bind_done,
      not_true_eq_false, if_false, Outcome.pure_eq_done]
  · intro hgt p hp
    simp only [lifetime_t.rainflow_compareRanges, h2 hgt p hp, Outcome.bind_done,
      not_true_eq_false, if_false, Outcome.pure_eq_done]

theorem rainflow_loop_inv (u : util_t K) :
    ∀ (fuel : Nat) (s : lifetime_t K), lifetime_t.loop_invariant s →
      s.jlt + 2 ≤ (fuel : Int) →
      ∃ s1 rs, lifetime_t.rainflow_loop u fuel s = Outcome.done (LT_code.LT_GET_DATA, s1)
        ∧ s1.DOD_vect ≠ [] ∧ s1.jlt + 1 = (s1.Peaks.length : Int) ∧ 0 ≤ s1.nCycles
        ∧ 0 ≤ s1.klt ∧ s1.klt ≤ s1.jlt
        ∧ vector_at s1.Peaks s1.klt = Outcome.done s1.Slt
        ∧ (s1.Peaks.length : Int) + 2 * s1.nCycles = (s.Peaks.length : Int) + 2 * s.nCycles
        ∧ lifetime_t.counted u s rs s1 := by
  intro fuel
  induction fuel with
  | zero =>
    intro s hinv hf
    obtain ⟨_, _, _, hk0, hk1, _⟩ := hinv
    simp only [Nat.cast_zero] at hf
    omega
  | succ fuel ih =>
    intro s hinv hf
    obtain ⟨hT, hlen, hn, hk0, hk1, hS⟩ := hinv
    by_cases h2 : s.jlt ≥ 2
    · obtain ⟨front, a, b, c, hP⟩ := list_last_three s.Peaks (by omega)
      have hj : s.jlt = (front.length : Int) + 2 := by
        rw [hP] at hlen
        simp only [List.length_append, List.length_cons, List.length_nil] at hlen
        push_cast at hlen
        omega
      obtain ⟨hc, hb, ha⟩ := vector_at_last_three front a b c s.jlt hj
      rw [← hP] at hc hb ha
      by_cases hlt : |c - b| < |b - a|
      · rw [rainflow_loop_lt u fuel s front a b c hP hj hlt]
        exact ⟨_, [], rfl, hT, hlen, hn, hk0, by show s.klt ≤ s.jlt; omega, hS, rfl,
          lifetime_t.counted.same _ _ ⟨rfl, rfl, rfl, rfl, rfl, rfl, rfl⟩⟩
      · have hXY : |c - b| ≥ |b - a| := not_lt.mp hlt
        by_cases hend : s.Slt = b ∨ s.Slt = a
        · obtain ⟨ho1, ho2⟩ := rainflow_step_open u s front a b c hP hj hXY hend
          rcases eq_or_lt_of_le hXY with heq | hgt
          · rw [rainflow_loop_step u fuel s _ _ h2 (ho1 heq.symm)]
            simp only [if_true]
            exact ⟨_, [], rfl, hT, hlen, hn, hk0, by show s.klt ≤ s.jlt; omega, hS, rfl,
              lifetime_t.counted.same _ _ ⟨rfl, rfl, rfl, rfl, rfl, rfl, rfl⟩⟩
          · obtain ⟨p, hp⟩ := vector_at_done s.Peaks (s.klt + 1) (by omega) (by omega)
            rw [rainflow_loop_step u fuel s _ _ h2 (ho2 hgt p hp)]
            simp only [if_true]
            exact ⟨_, [], rfl, hT, hlen, hn, by show 0 ≤ s.klt + 1; omega,
              by show s.klt + 1 ≤ s.jlt; omega, hp, rfl,
              lifetime_t.counted.same _ _ ⟨rfl, rfl, rfl, rfl, rfl, rfl, rfl⟩⟩
        · have hSb : s.Slt ≠ b := fun e => hend (Or.inl e)
          have hSa : s.Slt ≠ a := fun e => hend (Or.inr e)
          obtain ⟨s2, hcount, hstep, e1, e2, e3, e4, e5⟩ :=
            rainflow_step_count u s front a b c hT hP hj hXY hSb hSa
          rw [rainflow_loop_step u fuel s _ _ h2 hstep]
          have hne : ¬ (LT_code.LT_RERANGE = LT_code.LT_GET_DATA) := by decide
          simp only [if_neg hne]
          have hk1' : s.klt ≠ s.jlt - 1 := by
            intro e
            rw [e, hb] at hS
            exact hSb (Outcome.done.inj hS).symm
          have hk2' : s.klt ≠ s.jlt - 2 := by
            intro e
            rw [e, ha] at hS
            exact hSa (Outcome.done.inj hS).symm
          have hkf : s.klt < (front.length : Int) := by omega
          have hSf : vector_at front s.klt = Outcome.done s.Slt := by
            rw [← hS, hP]
            exact (vector_at_append_left front [a, b, c] s.klt hk0 hkf).symm
          have hinv' : lifetime_t.loop_invariant
              ({ s2 with Peaks := front ++ [c], jlt := s2.jlt - 2 } : lifetime_t K) := by
            refine ⟨by show s2.DOD_vect ≠ []; rw [e5]; exact hT, ?_, ?_, ?_, ?_, ?_⟩
            · show s2.jlt - 2 + 1 = ((front ++ [c]).length : Int)
              simp only [List.length_append, List.length_cons, List.length_nil]
              push_cast
              omega
            · show 0 ≤ s2.nCycles
              omega
            · show 0 ≤ s2.klt
              omega
            · show s2.klt + 1 ≤ s2.jlt - 2
              omega
            · show vector_at (front ++ [c]) s2.klt = Outcome.done s2.Slt
              rw [e2, e3, vector_at_append_left front [c] s.klt hk0 hkf]
              exact hSf
          obtain ⟨s3, rs, hloop, i1, i2, i3, i4, i5, i6, i7, i8⟩ := ih _ hinv' (by
            show s2.jlt - 2 + 2 ≤ (fuel : Int)
            push_cast at hf
            omega)
          refine ⟨s3, [|b - a|] ++ rs, hloop, i1, i2, i3, i4, i5, i6, ?_, ?_⟩
          · rw [i7]
            show ((front ++ [c]).length : Int) + 2 * s2.nCycles = _
            rw [hP]
            simp only [List.length_append, List.length_cons, List.length_nil]
            push_cast
            omega
          · refine counted_trans u s _ s3 _ rs ?_ i8
            exact counted_one u s ({ s with Ylt := |b - a|, Xlt := |c - b| } : lifetime_t K)
              s2 _ ⟨rfl, rfl, rfl, rfl, rfl, rfl, rfl⟩ hcount
              ⟨rfl, rfl, rfl, rfl, rfl, rfl, rfl⟩
    · rw [rainflow_loop_short u fuel s (not_le.mp h2)]
      exact ⟨s, [], rfl, hT, hlen, hn, hk0, by omega, hS, rfl, counted_refl u s⟩

theorem lifetime_new_invariant (u : util_t K) (m : matrix_t K) (s : lifetime_t K)
    (h : lifetime_t.new u m = Outcome.done s) :
    lifetime_t.buffer_invariant s 0 ∧ s.Peaks = [] ∧ s.nCycles = 0 ∧ s.average_range = 0 := by
  simp only [lifetime_t.new] at h
  cases hc : lifetime_t.read_columns m (List.range m.nrows) ([], [], []) with
  | undefined => rw [hc] at h; simp at h
  | out_of_fuel => rw [hc] at h; simp at h
  | done cols =>
    rw [hc] at h
    simp only [Outcome.bind_done] at h
    cases hb : lifetime_t.bilinear u
        { batt_lifetime_matrix := m, DOD_vect := cols.1, cycles_vect := cols.2.1,
          capacities_vect := cols.2.2, nCycles := 0, Dlt := 0, Clt := 0, jlt := 0, klt := 0,
          Xlt := 0, Ylt := 0, Slt := 0, Range := 0, average_range := 0, fortyPercent := 0,
          hundredPercent := 0, Peaks := [] } 0 0 with
    | undefined => rw [hb] at h; simp at h
    | out_of_fuel => rw [hb] at h; simp at h
    | done C =>
      have hne : cols.1 ≠ [] := by
        intro e
        simp only [lifetime_t.bilinear, e] at hb
        exact absurd hb (by simp)
      rw [hb] at h
      simp only [Outcome.bind_done, Outcome.pure_eq_done, Outcome.done.injEq] at h
      subst h
      exact ⟨⟨hne, rfl, le_refl _, rfl, fun h => absurd rfl h⟩, rfl, rfl, rfl⟩

theorem rainflow_inv (u : util_t K) (s : lifetime_t K) (x : K) (m : Nat)
    (h : lifetime_t.buffer_invariant s m) :
    ∃ s1 rs, lifetime_t.rainflow u s x = Outcome.done s1
      ∧ lifetime_t.buffer_invariant s1 (m + 1) ∧ lifetime_t.counted u s rs s1 := by
  obtain ⟨hT, hj, hn, hacc, hk⟩ := h
  by_cases hm : m = 0
  · subst hm
    have hlen : s.Peaks.length = 0 := by
      simp only [Nat.cast_zero] at hacc
      omega
    have hn0 : s.nCycles = 0 := by
      simp only [Nat.cast_zero] at hacc
      omega
    have hj0 : s.jlt = 0 := by rw [hj, hlen]; rfl
    have hP : s.Peaks = [] := List.length_eq_zero.mp hlen
    rw [rainflow_first u s x hj0]
    refine ⟨_, [], rfl, ⟨hT, ?_, hn, ?_, fun _ => ⟨?_, ?_, ?_⟩⟩,
      lifetime_t.counted.same _ _ ⟨rfl, rfl, rfl, rfl, rfl, rfl, rfl⟩⟩
    · show s.jlt + 1 = ((s.Peaks ++ [x]).length : Int)
      rw [hP, hj0]; rfl
    · show ((s.Peaks ++ [x]).length : Int) + 2 * s.nCycles = ((0 + 1 : Nat) : Int)
      rw [hP, hn0]; rfl
    · show 0 ≤ s.jlt
      omega
    · show s.jlt < ((s.Peaks ++ [x]).length : Int)
      rw [hP, hj0]
      simp
    · show vector_at (s.Peaks ++ [x]) s.jlt = Outcome.done x
      rw [hP, hj0]; rfl
  · obtain ⟨hk0, hk1, hS⟩ := hk hm
    have hne : ¬ s.jlt = 0 := by omega
    have hinv : lifetime_t.loop_invariant ({ s with Peaks := s.Peaks ++ [x] } : lifetime_t K) := by
      refine ⟨hT, ?_, hn, hk0, ?_, ?_⟩
      · show s.jlt + 1 = ((s.Peaks ++ [x]).length : Int)
        simp only [List.length_append, List.length_cons, List.length_nil]
        push_cast
        omega
      · show s.klt + 1 ≤ s.jlt
        omega
      · show vector_at (s.Peaks ++ [x]) s.klt = Outcome.done s.Slt
        rw [vector_at_append_left s.Peaks [x] s.klt hk0 hk1]
        exact hS
    obtain ⟨s1, rs, hloop, i1, i2, i3, i4, i5, i6, i7, i8⟩ :=
      rainflow_loop_inv u ((s.Peaks ++ [x]).length + 1) _ hinv (by
        show s.jlt + 2 ≤ (((s.Peaks ++ [x]).length + 1 : Nat) : Int)
        simp only [List.length_append, List.length_cons, List.length_nil]
        push_cast
        omega)
    refine ⟨{ s1 with jlt := s1.jlt + 1 }, rs, ?_, ⟨i1, i2, i3, ?_, fun _ => ⟨i4, ?_, i6⟩⟩,
      counted_same_right u s s1 _ rs
        (counted_trans u s ({ s with Peaks := s.Peaks ++ [x] } : lifetime_t K) s1 [] rs
          (lifetime_t.counted.same _ _ ⟨rfl, rfl, rfl, rfl, rfl, rfl, rfl⟩) i8)
        ⟨rfl, rfl, rfl, rfl, rfl, rfl, rfl⟩⟩
    · simp only [lifetime_t.rainflow, hne, if_false]
      rw [hloop]
      simp only [Outcome.bind_done, if_true, Outcome.pure_eq_done]
    · show (s1.Peaks.length : Int) + 2 * s1.nCycles = ((m + 1 : Nat) : Int)
      rw [i7]
      show ((s.Peaks ++ [x]).length : Int) + 2 * s.nCycles = _
      simp only [List.length_append, List.length_cons, List.length_nil]
      push_cast
      omega
    · show s1.klt < (s1.Peaks.length : Int)
      omega

theorem rainflow_all_inv (u : util_t K) :
    ∀ (xs : List K) (s : lifetime_t K) (m : Nat), lifetime_t.buffer_invariant s m →
      ∃ s1 rs, lifetime_t.rainflow_all u s xs = Outcome.done s1
        ∧ lifetime_t.buffer_invariant s1 (m + xs.length) ∧ lifetime_t.counted u s rs s1 := by
  intro xs
  induction xs with
  | nil =>
    intro s m h
    exact ⟨s, [], rfl, h, counted_refl u s⟩
  | cons x rest ih =>
    intro s m h
    obtain ⟨s1, rs1, h1, hinv1, hc1⟩ := rainflow_inv u s x m h
    obtain ⟨s2, rs2, h2, hinv2, hc2⟩ := ih s1 (m + 1) hinv1
    refine ⟨s2, rs1 ++ rs2, ?_, ?_, counted_trans u s s1 s2 rs1 rs2 hc1 hc2⟩
    · simp only [lifetime_t.rainflow_all, h1, Outcome.bind_done]
      exact h2
    · have : m + (x :: rest).length = m + 1 + rest.length := by
        simp only [List.length_cons]; omega
      rw [this]
      exact hinv2

theorem ranges_circular_done (s : lifetime_t K) (ii : Int)
    (hlen : s.jlt + 1 = (s.Peaks.length : Int)) (h2 : s.jlt ≥ 2) :
    ∃ X Y, lifetime_t.rainflow_ranges_circular s ii
      = Outcome.done ({ s with Xlt := X, Ylt := Y } : lifetime_t K) := by
  obtain ⟨front, a, b, c, hP⟩ := list_last_three s.Peaks (by omega)
  have hj : s.jlt = (front.length : Int) + 2 := by
    rw [hP] at hlen
    simp only [List.length_append, List.length_cons, List.length_nil] at hlen
    push_cast at hlen
    omega
  obtain ⟨hc, hb, _⟩ := vector_at_last_three front a b c s.jlt hj
  rw [← hP] at hc hb
  have hend : (s.Peaks.length : Int) - 1 = s.jlt := by omega
  obtain ⟨p0, hp0⟩ := vector_at_done s.Peaks 0 (le_refl _) (by omega)
  obtain ⟨p1, hp1⟩ := vector_at_done s.Peaks 1 (by decide) (by omega)
  by_cases h0 : ii = 0
  · refine ⟨|p0 - c|, |c - b|, ?_⟩
    simp only [lifetime_t.rainflow_ranges_circular, h0, if_true, hend, hp0, hc, hb,
      Outcome.bind_done, Outcome.pure_eq_done]
  · by_cases h1 : ii = 1
    · refine ⟨|p1 - p0|, |p0 - c|, ?_⟩
      have h10 : ¬ ((1 : Int) = 0) := by decide
      simp only [lifetime_t.rainflow_ranges_circular, h1, h10, if_false, if_true, hend, hp0,
        hp1, hc, Outcome.bind_done, Outcome.pure_eq_done]
    · obtain ⟨_, _, ha⟩ := vector_at_last_three front a b c s.jlt hj
      refine ⟨|c - b|, |b - a|, ?_⟩
      simp only [lifetime_t.rainflow_ranges_circular, h0, h1, if_false]
      exact rainflow_ranges_last_three s front a b c hP hj

theorem finish_count_spec (u : util_t K) (s : lifetime_t K) (hT : s.DOD_vect ≠ [])
    (hlen : s.jlt + 1 = (s.Peaks.length : Int)) (h2 : s.jlt ≥ 2) :
    ∃ s1, lifetime_t.finish_count u s = Outcome.done (s1, 1)
      ∧ s1.DOD_vect ≠ [] ∧ s1.jlt + 1 = (s1.Peaks.length : Int)
      ∧ s1.Peaks.length + 2 = s.Peaks.length
      ∧ s1.nCycles = s.nCycles + 1
      ∧ lifetime_t.counted u s [s.Ylt] s1 := by
  obtain ⟨s2, hc, hn, _, _, _, _, hPk, hjl, _, _, _, _, hD⟩ := count_range_done u s hT
  cases hPeaks : s.Peaks with
  | nil => rw [hPeaks] at hlen; simp at hlen; omega
  | cons p0 rest =>
    cases hrest : rest with
    | nil =>
      rw [hPeaks, hrest] at hlen
      simp at hlen
      omega
    | cons p1 rest2 =>
      have hP2 : s2.Peaks = p0 :: p1 :: rest2 := by rw [hPk, hPeaks, hrest]
      refine ⟨{ s2 with Peaks := (p1 :: rest2).dropLast, jlt := s2.jlt - 2 }, ?_, ?_, ?_, ?_, hn,
        ?_⟩
      · simp only [lifetime_t.finish_count, hc, Outcome.bind_done, hP2, vector_erase_begin,
          vector_pop_back, Outcome.pure_eq_done]
      · show s2.DOD_vect ≠ []
        rw [hD]; exact hT
      · show s2.jlt - 2 + 1 = (((p1 :: rest2).dropLast).length : Int)
        rw [hPeaks, hrest] at hlen
        simp only [List.length_dropLast, List.length_cons] at hlen ⊢
        push_cast at hlen ⊢
        omega
      · show ((p1 :: rest2).dropLast).length + 2 = (p0 :: p1 :: rest2).length
        simp only [List.length_dropLast, List.length_cons]
        omega
      · exact counted_one u s s s2 _ (same_accumulators_refl s) hc
          ⟨rfl, rfl, rfl, rfl, rfl, rfl, rfl⟩

theorem finish_inner_inv (u : util_t K) :
    ∀ (fuel : Nat) (s : lifetime_t K) (ii : Int) (P : K) (rc : Int),
      s.DOD_vect ≠ [] → s.jlt + 1 = (s.Peaks.length : Int) → s.jlt + 1 ≤ (fuel : Int) →
      1 ≤ fuel → 0 ≤ s.nCycles → 0 ≤ ii →
      ∃ s1 ii1 rc1 rs, lifetime_t.finish_inner u fuel s ii P rc = Outcome.done (s1, ii1, rc1)
        ∧ s1.DOD_vect ≠ [] ∧ s1.jlt + 1 = (s1.Peaks.length : Int) ∧ 0 ≤ s1.nCycles
        ∧ lifetime_t.counted u s rs s1 ∧ rc ≤ rc1 ∧ 0 ≤ ii1
        ∧ ((s1.Peaks.length = s.Peaks.length ∧ ii1 = ii + 1)
          ∨ s1.Peaks.length < s.Peaks.length
          ∨ (s.Peaks.length = 2 ∧ s1.Peaks.length = 3 ∧ ii1 = 3)
          ∨ (s1.Peaks.length = s.Peaks.length ∧ ii1 = ii ∧ rc1 = rc + 1)) := by
  intro fuel
  induction fuel with
  | zero => intro s ii P rc _ _ _ h1; omega
  | succ fuel ih =>
    intro s ii P rc hT hlen hf _ hn hii
    by_cases h2 : s.jlt ≥ 2
    · obtain ⟨X, Y, hr⟩ := ranges_circular_done s ii hlen h2
      by_cases hlt : X < Y
      · refine ⟨({ s with Xlt := X, Ylt := Y } : lifetime_t K), ii + 1, rc, [], ?_, hT, hlen,
          hn, lifetime_t.counted.same _ _ ⟨rfl, rfl, rfl, rfl, rfl, rfl, rfl⟩, le_refl _,
          by omega, Or.inl ⟨rfl, rfl⟩⟩
        rw [lifetime_t.finish_inner]
        simp only [h2, if_true, hr, Outcome.bind_done, hlt, Outcome.pure_eq_done]
      · obtain ⟨s2, hfc, d1, d2, d3, d4, d5⟩ := finish_count_spec u
          ({ s with Xlt := X, Ylt := Y } : lifetime_t K) hT hlen h2
        have d3' : s2.Peaks.length + 2 = s.Peaks.length := d3
        have d4' : s2.nCycles = s.nCycles + 1 := d4
        obtain ⟨s3, ii3, rc3, rs, hin, i1, i2, i3, i4, i5, i6, i7⟩ :=
          ih s2 1 P rc d1 d2 (by push_cast at hf; omega) (by push_cast at hf; omega)
            (by omega) (by decide)
        refine ⟨s3, ii3, rc3, [Y] ++ rs, ?_, i1, i2, i3, ?_, i5, i6, Or.inr (Or.inl ?_)⟩
        · rw [lifetime_t.finish_inner]
          simp only [h2, if_true, hr, Outcome.bind_done, hlt, if_false, hfc]
          exact hin
        · refine counted_trans u s s2 s3 [Y] rs ?_ i4
          exact counted_trans u s ({ s with Xlt := X, Ylt := Y } : lifetime_t K) s2 [] [Y]
            (lifetime_t.counted.same _ _ ⟨rfl, rfl, rfl, rfl, rfl, rfl, rfl⟩) d5
        · rcases i7 with ⟨e, _⟩ | e | ⟨e1, e2, _⟩ | ⟨e, _, _⟩ <;> omega
    · by_cases h1 : s.jlt = 1
      · have hlen1 : ({ s with Peaks := s.Peaks ++ [P], jlt := s.jlt + 1 } : lifetime_t K).jlt
            + 1 = ((({ s with Peaks := s.Peaks ++ [P], jlt := s.jlt + 1 } : lifetime_t K).Peaks
              ).length : Int) := by
          show s.jlt + 1 + 1 = ((s.Peaks ++ [P]).length : Int)
          simp only [List.length_append, List.length_cons, List.length_nil]
          push_cast
          omega
        have hge : ({ s with Peaks := s.Peaks ++ [P], jlt := s.jlt + 1 } : lifetime_t K).jlt
            ≥ 2 := by
          show s.jlt + 1 ≥ 2
          omega
        have hlen3 : (s.Peaks ++ [P]).length = 3 := by
          simp only [List.length_append, List.length_cons, List.length_nil]
          omega
        have hlen2 : s.Peaks.length = 2 := by omega
        obtain ⟨X, Y, hr⟩ := ranges_circular_done
          ({ s with Peaks := s.Peaks ++ [P], jlt := s.jlt + 1 } : lifetime_t K) (s.jlt + 1)
          hlen1 hge
        by_cases hlt : X < Y
        · refine ⟨({ s with Peaks := s.Peaks ++ [P], jlt := s.jlt + 1, Xlt := X, Ylt := Y }
              : lifetime_t K), s.jlt + 1 + 1, rc, [], ?_, hT, hlen1, hn,
            lifetime_t.counted.same _ _ ⟨rfl, rfl, rfl, rfl, rfl, rfl, rfl⟩, le_refl _,
            by omega, Or.inr (Or.inr (Or.inl ⟨hlen2, hlen3, by omega⟩))⟩
          rw [lifetime_t.finish_inner, if_neg h2, if_pos h1]
          simp only [hr, Outcome.bind_done, hlt, if_true, Outcome.pure_eq_done]
        · obtain ⟨s2, hfc, d1, d2, d3, d4, d5⟩ := finish_count_spec u
            ({ s with Peaks := s.Peaks ++ [P], jlt := s.jlt + 1, Xlt := X, Ylt := Y }
              : lifetime_t K) hT hlen1 hge
          have d3' : s2.Peaks.length + 2 = (s.Peaks ++ [P]).length := d3
          have d4' : s2.nCycles = s.nCycles + 1 := d4
          refine ⟨s2, 1, rc, [Y], ?_, d1, d2, by omega, ?_, le_refl _, by decide,
            Or.inr (Or.inl (by omega))⟩
          · rw [lifetime_t.finish_inner, if_neg h2, if_pos h1]
            simp only [hr, Outcome.bind_done, hlt, if_false, hfc, Outcome.pure_eq_done]
          · exact counted_trans u s
              ({ s with Peaks := s.Peaks ++ [P], jlt := s.jlt + 1, Xlt := X, Ylt := Y }
                : lifetime_t K) s2 [] [Y]
              (lifetime_t.counted.same _ _ ⟨rfl, rfl, rfl, rfl, rfl, rfl, rfl⟩) d5
      · refine ⟨s, ii, rc + 1, [], ?_, hT, hlen, hn, counted_refl u s, by omega, hii,
          Or.inr (Or.inr (Or.inr ⟨rfl, rfl, rfl⟩))⟩
        rw [lifetime_t.finish_inner]
        simp only [h2, if_false, h1, Outcome.pure_eq_done]

theorem finish_outer_stop (u : util_t K) (fuel : Nat) (s : lifetime_t K) (ii : Int) (P : K)
    (rc : Int) (h : ¬ (rc ≤ 1 ∧ 0 ≤ ii ∧ ii < (s.Peaks.length : Int))) :
    lifetime_t.finish_outer u (fuel + 1) s ii P rc = Outcome.done s := by
  rw [lifetime_t.finish_outer]
  by_cases h1 : rc ≤ 1
  · have h2 : ¬ (0 ≤ ii ∧ ii < (s.Peaks.length : Int)) := fun e => h ⟨h1, e⟩
    simp only [if_pos h1, if_neg h2, Outcome.pure_eq_done]
  · simp only [if_neg h1, Outcome.pure_eq_done]

theorem finish_outer_inv (u : util_t K) :
    ∀ (n : Nat) (s : lifetime_t K) (ii rc : Int), lifetime_t.finish_measure s ii rc ≤ n →
      s.DOD_vect ≠ [] → s.jlt + 1 = (s.Peaks.length : Int) → 0 ≤ s.nCycles →
      ∃ s1 rs, (∀ (fuel : Nat) (P : K), lifetime_t.finish_measure s ii rc < fuel →
          lifetime_t.finish_outer u fuel s ii P rc = Outcome.done s1)
        ∧ lifetime_t.counted u s rs s1 := by
  intro n
  induction n with
  | zero =>
    intro s ii rc hμ hT hlen hn
    have hina : ¬ (rc ≤ 1 ∧ 0 ≤ ii ∧ ii < (s.Peaks.length : Int)) := by
      intro hact
      simp only [lifetime_t.finish_measure, if_pos hact] at hμ
      omega
    refine ⟨s, [], ?_, counted_refl u s⟩
    intro fuel P hf
    obtain ⟨f, rfl⟩ : ∃ f, fuel = f + 1 := ⟨fuel - 1, by omega⟩
    exact finish_outer_stop u f s ii P rc hina
  | succ n ih =>
    intro s ii rc hμ hT hlen hn
    by_cases hact : rc ≤ 1 ∧ 0 ≤ ii ∧ ii < (s.Peaks.length : Int)
    · obtain ⟨hrc, hii0, hii1⟩ := hact
      obtain ⟨P0, hP0⟩ := vector_at_done s.Peaks ii hii0 hii1
      obtain ⟨s1, ii1, rc1, rs1, hin, i1, i2, i3, i4, i5, i6, i7⟩ :=
        finish_inner_inv u (s.jlt.toNat + 1) s ii P0
          (if P0 = s.Slt then rc + 1 else rc) hT hlen (by omega) (by omega) hn hii0
      have hrc0 : rc ≤ (if P0 = s.Slt then rc + 1 else rc) := by
        split_ifs <;> omega
      have hdec := finish_measure_decreases s s1 ii ii1 rc
        (if P0 = s.Slt then rc + 1 else rc) rc1 ⟨hrc, hii0, hii1⟩ hrc0 i5 i6 i7
      obtain ⟨s2, rs2, hout, hc2⟩ := ih s1 ii1 rc1 (by omega) i1 i2 i3
      refine ⟨s2, rs1 ++ rs2, ?_, counted_trans u s s1 s2 rs1 rs2 i4 hc2⟩
      intro fuel P hf
      obtain ⟨f, rfl⟩ : ∃ f, fuel = f + 1 := ⟨fuel - 1, by omega⟩
      rw [lifetime_t.finish_outer]
      simp only [if_pos hrc, if_pos (And.intro hii0 hii1), hP0, Outcome.bind_done, hin]
      exact hout f P0 (by omega)
    · refine ⟨s, [], ?_, counted_refl u s⟩
      intro fuel P hf
      obtain ⟨f, rfl⟩ : ∃ f, fuel = f + 1 := ⟨fuel - 1, by omega⟩
      exact finish_outer_stop u f s ii P rc hact

theorem rainflow_finish_inv (u : util_t K) (s : lifetime_t K) (m : Nat)
    (h : lifetime_t.buffer_invariant s m) :
    ∃ s1 rs, (∀ fuel : Nat, (s.Peaks.length + 2) ^ 2 ≤ fuel →
        lifetime_t.rainflow_finish u fuel s = Outcome.done s1)
      ∧ lifetime_t.counted u s rs s1 := by
  obtain ⟨hT, hj, hn, _, _⟩ := h
  obtain ⟨s1, rs, hout, hc⟩ := finish_outer_inv u
    (lifetime_t.finish_measure ({ s with jlt := s.jlt - 1 } : lifetime_t K) 0 0)
    ({ s with jlt := s.jlt - 1 } : lifetime_t K) 0 0 (le_refl _) hT
    (by show s.jlt - 1 + 1 = (s.Peaks.length : Int); omega) hn
  refine ⟨s1, rs, ?_, counted_trans u s ({ s with jlt := s.jlt - 1 } : lifetime_t K) s1 [] rs
    (lifetime_t.counted.same _ _ ⟨rfl, rfl, rfl, rfl, rfl, rfl, rfl⟩) hc⟩
  intro fuel hf
  apply hout fuel 0
  have hb : lifetime_t.finish_measure ({ s with jlt := s.jlt - 1 } : lifetime_t K) 0 0
      ≤ 1 + s.Peaks.length * s.Peaks.length + s.Peaks.length + 2 := by
    simp only [lifetime_t.finish_measure]
    split_ifs <;> omega
  have hsq : (s.Peaks.length + 2) ^ 2
      = s.Peaks.length * s.Peaks.length + 4 * s.Peaks.length + 4 := by ring
  omega

end BufferLemmas

section LogLemmas

variable {K : Type} [LinearOrderedField K]

theorem Outcome.map_eq_done {α β : Type} (f : α → β) (o : Outcome α) (b : β)
    (h : Outcome.map f o = Outcome.done b) : ∃ a, o = Outcome.done a ∧ f a = b := by
  cases o with
  | done a => exact ⟨a, rfl, by simpa [Outcome.map] using h⟩
  | undefined => simp [Outcome.map] at h
  | out_of_fuel => simp [Outcome.map] at h

/-- Erasing the log commutes with sequencing. -/
theorem Outcome.map_bind {α α1 β β1 : Type} (p : α1 → α) (q : β1 → β) (ol : Outcome α1)
    (o : Outcome α) (fl : α1 → Outcome β1) (f : α → Outcome β)
    (h1 : Outcome.map p ol = o) (h2 : ∀ a, Outcome.map q (fl a) = f (p a)) :
    Outcome.map q (ol >>= fl) = (o >>= f) := by
  subst h1
  cases ol with
  | done a => simpa [Outcome.map] using h2 a
  | undefined => rfl
  | out_of_fuel => rfl

/-- Erasing the log after a step that does not use it. -/
theorem Outcome.map_bind_same {α β β1 : Type} (q : β1 → β) (o : Outcome α)
    (fl : α → Outcome β1) (f : α → Outcome β) (h2 : ∀ a, Outcome.map q (fl a) = f a) :
    Outcome.map q (o >>= fl) = (o >>= f) := by
  cases o with
  | done a => simpa using h2 a
  | undefined => rfl
  | out_of_fuel => rfl

theorem counted_same_left (u : util_t K) (s s1 s2 : lifetime_t K) (rs : List K)
    (h : lifetime_t.same_accumulators s s1) (h2 : lifetime_t.counted u s1 rs s2) :
    lifetime_t.counted u s rs s2 := by
  have := counted_trans u s s1 s2 [] rs (lifetime_t.counted.same s s1 h) h2
  simpa using this

theorem rainflow_ranges_same (s s1 : lifetime_t K)
    (h : lifetime_t.rainflow_ranges s = Outcome.done s1) :
    lifetime_t.same_accumulators s s1 := by
  simp only [lifetime_t.rainflow_ranges] at h
  obtain ⟨a, _, h⟩ := Outcome.bind_eq_done _ _ _ h
  obtain ⟨b, _, h⟩ := Outcome.bind_eq_done _ _ _ h
  obtain ⟨c, _, h⟩ := Outcome.bind_eq_done _ _ _ h
  obtain ⟨d, _, h⟩ := Outcome.bind_eq_done _ _ _ h
  simp only [Outcome.pure_eq_done, Outcome.done.injEq] at h
  subst h
  exact ⟨rfl, rfl, rfl, rfl, rfl, rfl, rfl⟩

theorem rainflow_ranges_circular_same (s s1 : lifetime_t K) (index : Int)
    (h : lifetime_t.rainflow_ranges_circular s index = Outcome.done s1) :
    lifetime_t.same_accumulators s s1 := by
  simp only [lifetime_t.rainflow_ranges_circular] at h
  split_ifs at h
  · obtain ⟨a, _, h⟩ := Outcome.bind_eq_done _ _ _ h
    obtain ⟨b, _, h⟩ := Outcome.bind_eq_done _ _ _ h
    obtain ⟨c, _, h⟩ := Outcome.bind_eq_done _ _ _ h
    obtain ⟨d, _, h⟩ := Outcome.bind_eq_done _ _ _ h
    simp only [Outcome.pure_eq_done, Outcome.done.injEq] at h
    subst h
    exact ⟨rfl, rfl, rfl, rfl, rfl, rfl, rfl⟩
  · obtain ⟨a, _, h⟩ := Outcome.bind_eq_done _ _ _ h
    obtain ⟨b, _, h⟩ := Outcome.bind_eq_done _ _ _ h
    obtain ⟨c, _, h⟩ := Outcome.bind_eq_done _ _ _ h
    obtain ⟨d, _, h⟩ := Outcome.bind_eq_done _ _ _ h
    simp only [Outcome.pure_eq_done, Outcome.done.injEq] at h
    subst h
    exact ⟨rfl, rfl, rfl, rfl, rfl, rfl, rfl⟩
  · exact rainflow_ranges_same s s1 h

theorem compareRanges_decide_same (s : lifetime_t K) (r : LT_code × Bool × lifetime_t K)
    (h : lifetime_t.compareRanges_decide s = Outcome.done r) :
    lifetime_t.same_accumulators s r.2.2 ∧ r.2.2.Ylt = s.Ylt := by
  have hs : lifetime_t.same_accumulators s s ∧ s.Ylt = s.Ylt :=
    ⟨same_accumulators_refl s, rfl⟩
  simp only [lifetime_t.compareRanges_decide] at h
  split_ifs at h
  · simp only [Outcome.pure_eq_done, Outcome.done.injEq] at h
    subst h
    exact hs
  · obtain ⟨e, _, h⟩ := Outcome.bind_eq_done _ _ _ h
    split_ifs at h <;>
    · simp only [Outcome.pure_eq_done, Outcome.done.injEq] at h
      subst h
      exact hs
  · obtain ⟨e, _, h⟩ := Outcome.bind_eq_done _ _ _ h
    split_ifs at h
    · obtain ⟨p, _, h⟩ := Outcome.bind_eq_done _ _ _ h
      simp only [Outcome.pure_eq_done, Outcome.done.injEq] at h
      subst h
      exact ⟨⟨rfl, rfl, rfl, rfl, rfl, rfl, rfl⟩, rfl⟩
    · simp only [Outcome.pure_eq_done, Outcome.done.injEq] at h
      subst h
      exact hs
  · simp only [Outcome.pure_eq_done, Outcome.done.injEq] at h
    subst h
    exact hs
  · simp only [Outcome.pure_eq_done, Outcome.done.injEq] at h
    subst h
    exact hs

theorem count_range_logged_spec (u : util_t K) (s : lifetime_t K) (log : List K)
    (r : lifetime_t K × List K)
    (h : lifetime_t.count_range_logged u (s, log) = Outcome.done r) :
    lifetime_t.count_range u s = Outcome.done r.1 ∧ r.2 = log ++ [s.Ylt] := by
  simp only [lifetime_t.count_range_logged] at h
  obtain ⟨s1, h1, h⟩ := Outcome.bind_eq_done _ _ _ h
  simp only [Outcome.pure_eq_done, Outcome.done.injEq] at h
  subst h
  exact ⟨h1, rfl⟩

theorem count_range_logged_erase (u : util_t K) (s : lifetime_t K) (log : List K) :
    Outcome.map Prod.fst (lifetime_t.count_range_logged u (s, log))
      = lifetime_t.count_range u s := by
  simp only [lifetime_t.count_range_logged]
  cases lifetime_t.count_range u s <;> rfl

theorem compareRanges_logged_erase (u : util_t K) (s : lifetime_t K) (log : List K) :
    Outcome.map (fun r => (r.1, r.2.1)) (lifetime_t.rainflow_compareRanges_logged u (s, log))
      = lifetime_t.rainflow_compareRanges u s := by
  simp only [lifetime_t.rainflow_compareRanges_logged, lifetime_t.rainflow_compareRanges]
  apply Outcome.map_bind_same
  intro r
  split_ifs
  · rfl
  · apply Outcome.map_bind Prod.fst _ _ _ _ _ (count_range_logged_erase u _ _)
    intro c
    apply Outcome.map_bind_same
    intro save
    apply Outcome.map_bind_same
    intro p
    apply Outcome.map_bind_same
    intro p
    apply Outcome.map_bind_same
    intro p
    rfl

theorem compareRanges_logged_counted (u : util_t K) (s : lifetime_t K) (log : List K)
    (r : LT_code × lifetime_t K × List K)
    (h : lifetime_t.rainflow_compareRanges_logged u (s, log) = Outcome.done r) :
    ∃ rs, r.2.2 = log ++ rs ∧ lifetime_t.counted u s rs r.2.1 := by
  simp only [lifetime_t.rainflow_compareRanges_logged] at h
  obtain ⟨d, hd, h⟩ := Outcome.bind_eq_done _ _ _ h
  obtain ⟨hsame, _⟩ := compareRanges_decide_same s d hd
  split_ifs at h
  · simp only [Outcome.pure_eq_done, Outcome.done.injEq] at h
    subst h
    exact ⟨[], by simp, lifetime_t.counted.same s d.2.2 hsame⟩
  · obtain ⟨c, hc, h⟩ := Outcome.bind_eq_done _ _ _ h
    obtain ⟨hc1, hc2⟩ := count_range_logged_spec u _ _ c hc
    obtain ⟨save, _, h⟩ := Outcome.bind_eq_done _ _ _ h
    obtain ⟨p1, _, h⟩ := Outcome.bind_eq_done _ _ _ h
    obtain ⟨p2, _, h⟩ := Outcome.bind_eq_done _ _ _ h
    obtain ⟨p3, _, h⟩ := Outcome.bind_eq_done _ _ _ h
    simp only [Outcome.pure_eq_done, Outcome.done.injEq] at h
    subst h
    exact ⟨[d.2.2.Ylt], hc2,
      counted_one u s d.2.2 c.1 _ hsame hc1 ⟨rfl, rfl, rfl, rfl, rfl, rfl, rfl⟩⟩

theorem rainflow_loop_logged_erase (u : util_t K) :
    ∀ (fuel : Nat) (s : lifetime_t K) (log : List K),
      Outcome.map (fun r => (r.1, r.2.1)) (lifetime_t.rainflow_loop_logged u fuel (s, log))
        = lifetime_t.rainflow_loop u fuel s := by
  intro fuel
  induction fuel with
  | zero => intro s log; rfl
  | succ n ih =>
    intro s log
    simp only [lifetime_t.rainflow_loop_logged, lifetime_t.rainflow_loop]
    split_ifs
    · apply Outcome.map_bind_same
      intro s1
      apply Outcome.map_bind (fun r => (r.1, r.2.1)) _ _ _ _ _
        (compareRanges_logged_erase u _ _)
      intro r
      obtain ⟨code, s2, log2⟩ := r
      simp only
      split_ifs
      · rfl
      · exact ih s2 log2
    · rfl

theorem rainflow_loop_logged_counted (u : util_t K) :
    ∀ (fuel : Nat) (s : lifetime_t K) (log : List K) (r : LT_code × lifetime_t K × List K),
      lifetime_t.rainflow_loop_logged u fuel (s, log) = Outcome.done r →
      ∃ rs, r.2.2 = log ++ rs ∧ lifetime_t.counted u s rs r.2.1 := by
  intro fuel
  induction fuel with
  | zero =>
    intro s log r h
    simp [lifetime_t.rainflow_loop_logged] at h
  | succ n ih =>
    intro s log r h
    simp only [lifetime_t.rainflow_loop_logged] at h
    split_ifs at h
    · obtain ⟨s1, h1, h⟩ := Outcome.bind_eq_done _ _ _ h
      obtain ⟨r1, hr1, h⟩ := Outcome.bind_eq_done _ _ _ h
      obtain ⟨rs1, e1, c1⟩ := compareRanges_logged_counted u s1 log r1 hr1
      have c1' := counted_same_left u s s1 _ rs1 (rainflow_ranges_same s s1 h1) c1
      obtain ⟨code, s2, log2⟩ := r1
      simp only at h e1 c1'
      split_ifs at h
      · simp only [Outcome.pure_eq_done, Outcome.done.injEq] at h
        subst h
        exact ⟨rs1, e1, c1'⟩
      · obtain ⟨rs2, e2, c2⟩ := ih s2 log2 r h
        refine ⟨rs1 ++ rs2, ?_, counted_trans u s s2 _ rs1 rs2 c1' c2⟩
        rw [e2, e1, List.append_assoc]
    · simp only [Outcome.pure_eq_done, Outcome.done.injEq] at h
      subst h
      exact ⟨[], by simp, counted_refl u s⟩

theorem rainflow_logged_erase (u : util_t K) (s : lifetime_t K) (log : List K) (x : K) :
    Outcome.map Prod.fst (lifetime_t.rainflow_logged u (s, log) x)
      = lifetime_t.rainflow u s x := by
  simp only [lifetime_t.rainflow_logged, lifetime_t.rainflow]
  apply Outcome.map_bind (fun r => (r.1, r.2.1)) _ _ _ _ _
    (rainflow_loop_logged_erase u _ _ _)
  intro r
  obtain ⟨code, s2, log2⟩ := r
  simp only
  split_ifs <;> rfl

theorem rainflow_logged_counted (u : util_t K) (s : lifetime_t K) (log : List K) (x : K)
    (r : lifetime_t K × List K)
    (h : lifetime_t.rainflow_logged u (s, log) x = Outcome.done r) :
    ∃ rs, r.2 = log ++ rs ∧ lifetime_t.counted u s rs r.1 := by
  simp only [lifetime_t.rainflow_logged] at h
  obtain ⟨r1, hr1, h⟩ := Outcome.bind_eq_done _ _ _ h
  obtain ⟨rs, e, c⟩ := rainflow_loop_logged_counted u _ _ _ r1 hr1
  have hs : lifetime_t.same_accumulators s
      (if ({ s with Peaks := s.Peaks ++ [x] } : lifetime_t K).jlt = 0 then
        ({ s with Peaks := s.Peaks ++ [x], Slt := x,
                  klt := ({ s with Peaks := s.Peaks ++ [x] } : lifetime_t K).jlt }
          : lifetime_t K)
       else ({ s with Peaks := s.Peaks ++ [x] } : lifetime_t K)) := by
    split_ifs <;> exact ⟨rfl, rfl, rfl, rfl, rfl, rfl, rfl⟩
  have c' := counted_same_left u s _ _ rs hs c
  obtain ⟨code, s2, log2⟩ := r1
  simp only at h e c'
  split_ifs at h
  · simp only [Outcome.pure_eq_done, Outcome.done.injEq] at h
    subst h
    exact ⟨rs, e, counted_same_right u s s2 _ rs c' ⟨rfl, rfl, rfl, rfl, rfl, rfl, rfl⟩⟩
  · simp only [Outcome.pure_eq_done, Outcome.done.injEq] at h
    subst h
    exact ⟨rs, e, c'⟩

theorem rainflow_all_logged_erase (u : util_t K) :
    ∀ (xs : List K) (s : lifetime_t K) (log : List K),
      Outcome.map Prod.fst (lifetime_t.rainflow_all_logged u (s, log) xs)
        = lifetime_t.rainflow_all u s xs := by
  intro xs
  induction xs with
  | nil => intro s log; rfl
  | cons x rest ih =>
    intro s log
    simp only [lifetime_t.rainflow_all_logged, lifetime_t.rainflow_all]
    apply Outcome.map_bind Prod.fst _ _ _ _ _ (rainflow_logged_erase u s log x)
    intro r
    exact ih r.1 r.2

theorem rainflow_all_logged_counted (u : util_t K) :
    ∀ (xs : List K) (s : lifetime_t K) (log : List K) (r : lifetime_t K × List K),
      lifetime_t.rainflow_all_logged u (s, log) xs = Outcome.done r →
      ∃ rs, r.2 = log ++ rs ∧ lifetime_t.counted u s rs r.1 := by
  intro xs
  induction xs with
  | nil =>
    intro s log r h
    simp only [lifetime_t.rainflow_all_logged, Outcome.pure_eq_done, Outcome.done.injEq] at h
    subst h
    exact ⟨[], by simp, counted_refl u s⟩
  | cons x rest ih =>
    intro s log r h
    simp only [lifetime_t.rainflow_all_logged] at h
    obtain ⟨r1, hr1, h⟩ := Outcome.bind_eq_done _ _ _ h
    obtain ⟨rs1, e1, c1⟩ := rainflow_logged_counted u s log x r1 hr1
    obtain ⟨s1, log1⟩ := r1
    obtain ⟨rs2, e2, c2⟩ := ih s1 log1 r h
    simp only at e1 c1
    refine ⟨rs1 ++ rs2, ?_, counted_trans u s s1 _ rs1 rs2 c1 c2⟩
    rw [e2, e1, List.append_assoc]

theorem finish_count_logged_erase (u : util_t K) (s : lifetime_t K) (log : List K) :
    Outcome.map (fun r => (r.1.1, r.2)) (lifetime_t.finish_count_logged u (s, log))
      = lifetime_t.finish_count u s := by
  simp only [lifetime_t.finish_count_logged, lifetime_t.finish_count]
  apply Outcome.map_bind Prod.fst _ _ _ _ _ (count_range_logged_erase u _ _)
  intro c
  apply Outcome.map_bind_same
  intro p
  apply Outcome.map_bind_same
  intro p
  rfl

theorem finish_count_logged_counted (u : util_t K) (s : lifetime_t K) (log : List K)
    (r : (lifetime_t K × List K) × Int)
    (h : lifetime_t.finish_count_logged u (s, log) = Outcome.done r) :
    ∃ rs, r.1.2 = log ++ rs ∧ lifetime_t.counted u s rs r.1.1 := by
  simp only [lifetime_t.finish_count_logged] at h
  obtain ⟨c, hc, h⟩ := Outcome.bind_eq_done _ _ _ h
  obtain ⟨hc1, hc2⟩ := count_range_logged_spec u _ _ c hc
  obtain ⟨p1, _, h⟩ := Outcome.bind_eq_done _ _ _ h
  obtain ⟨p2, _, h⟩ := Outcome.bind_eq_done _ _ _ h
  simp only [Outcome.pure_eq_done, Outcome.done.injEq] at h
  subst h
  exact ⟨[s.Ylt], hc2,
    counted_one u s s c.1 _ (same_accumulators_refl s) hc1 ⟨rfl, rfl, rfl, rfl, rfl, rfl, rfl⟩⟩

theorem finish_inner_logged_erase (u : util_t K) :
    ∀ (fuel : Nat) (s : lifetime_t K) (log : List K) (ii : Int) (P : K) (rc : Int),
      Outcome.map (fun r => (r.1.1, r.2.1, r.2.2))
          (lifetime_t.finish_inner_logged u fuel (s, log) ii P rc)
        = lifetime_t.finish_inner u fuel s ii P rc := by
  intro fuel
  induction fuel with
  | zero => intro s log ii P rc; rfl
  | succ n ih =>
    intro s log ii P rc
    simp only [lifetime_t.finish_inner_logged, lifetime_t.finish_inner]
    split_ifs
    · apply Outcome.map_bind_same
      intro s1
      split_ifs
      · rfl
      · apply Outcome.map_bind (fun r => (r.1.1, r.2)) _ _ _ _ _
          (finish_count_logged_erase u _ _)
        intro r
        exact ih r.1.1 r.1.2 r.2 P rc
    · apply Outcome.map_bind_same
      intro s1
      split_ifs
      · rfl
      · apply Outcome.map_bind (fun r => (r.1.1, r.2)) _ _ _ _ _
          (finish_count_logged_erase u _ _)
        intro r
        rfl
    · rfl

theorem finish_inner_logged_counted (u : util_t K) :
    ∀ (fuel : Nat) (s : lifetime_t K) (log : List K) (ii : Int) (P : K) (rc : Int)
      (r : (lifetime_t K × List K) × Int × Int),
      lifetime_t.finish_inner_logged u fuel (s, log) ii P rc = Outcome.done r →
      ∃ rs, r.1.2 = log ++ rs ∧ lifetime_t.counted u s rs r.1.1 := by
  intro fuel
  induction fuel with
  | zero =>
    intro s log ii P rc r h
    simp [lifetime_t.finish_inner_logged] at h
  | succ n ih =>
    intro s log ii P rc r h
    simp only [lifetime_t.finish_inner_logged] at h
    split_ifs at h
    · obtain ⟨s1, h1, h⟩ := Outcome.bind_eq_done _ _ _ h
      have hs1 := rainflow_ranges_circular_same s s1 ii h1
      split_ifs at h
      · simp only [Outcome.pure_eq_done, Outcome.done.injEq] at h
        subst h
        exact ⟨[], by simp, lifetime_t.counted.same s s1 hs1⟩
      · obtain ⟨r1, hr1, h⟩ := Outcome.bind_eq_done _ _ _ h
        obtain ⟨rs1, e1, c1⟩ := finish_count_logged_counted u s1 log r1 hr1
        obtain ⟨⟨s2, log2⟩, ii2⟩ := r1
        simp only at h e1 c1
        obtain ⟨rs2, e2, c2⟩ := ih s2 log2 ii2 P rc r h
        refine ⟨rs1 ++ rs2, ?_, counted_trans u s s2 _ rs1 rs2
          (counted_same_left u s s1 s2 rs1 hs1 c1) c2⟩
        rw [e2, e1, List.append_assoc]
    · obtain ⟨s1, h1, h⟩ := Outcome.bind_eq_done _ _ _ h
      have hs1 := same_accumulators_trans s
        ({ s with Peaks := s.Peaks ++ [P], jlt := s.jlt + 1 } : lifetime_t K) s1
        ⟨rfl, rfl, rfl, rfl, rfl, rfl, rfl⟩ (rainflow_ranges_circular_same _ s1 _ h1)
      split_ifs at h
      · simp only [Outcome.pure_eq_done, Outcome.done.injEq] at h
        subst h
        exact ⟨[], by simp, lifetime_t.counted.same s s1 hs1⟩
      · obtain ⟨r1, hr1, h⟩ := Outcome.bind_eq_done _ _ _ h
        obtain ⟨rs1, e1, c1⟩ := finish_count_logged_counted u s1 log r1 hr1
        simp only [Outcome.pure_eq_done, Outcome.done.injEq] at h
        subst h
        exact ⟨rs1, e1, counted_same_left u s s1 _ rs1 hs1 c1⟩
    · simp only [Outcome.pure_eq_done, Outcome.done.injEq] at h
      subst h
      exact ⟨[], by simp, counted_refl u s⟩

theorem finish_outer_logged_erase (u : util_t K) :
    ∀ (fuel : Nat) (s : lifetime_t K) (log : List K) (ii : Int) (P : K) (rc : Int),
      Outcome.map Prod.fst (lifetime_t.finish_outer_logged u fuel (s, log) ii P rc)
        = lifetime_t.finish_outer u fuel s ii P rc := by
  intro fuel
  induction fuel with
  | zero => intro s log ii P rc; rfl
  | succ n ih =>
    intro s log ii P rc
    simp only [lifetime_t.finish_outer_logged, lifetime_t.finish_outer]
    split_ifs
    · apply Outcome.map_bind_same
      intro P1
      apply Outcome.map_bind (fun r => (r.1.1, r.2.1, r.2.2)) _ _ _ _ _
        (finish_inner_logged_erase u _ _ _ _ _ _)
      intro r
      exact ih r.1.1 r.1.2 r.2.1 P1 r.2.2
    · rfl
    · rfl

theorem finish_outer_logged_counted (u : util_t K) :
    ∀ (fuel : Nat) (s : lifetime_t K) (log : List K) (ii : Int) (P : K) (rc : Int)
      (r : lifetime_t K × List K),
      lifetime_t.finish_outer_logged u fuel (s, log) ii P rc = Outcome.done r →
      ∃ rs, r.2 = log ++ rs ∧ lifetime_t.counted u s rs r.1 := by
  intro fuel
  induction fuel with
  | zero =>
    intro s log ii P rc r h
    simp [lifetime_t.finish_outer_logged] at h
  | succ n ih =>
    intro s log ii P rc r h
    simp only [lifetime_t.finish_outer_logged] at h
    split_ifs at h
    · obtain ⟨P1, _, h⟩ := Outcome.bind_eq_done _ _ _ h
      obtain ⟨r1, hr1, h⟩ := Outcome.bind_eq_done _ _ _ h
      obtain ⟨rs1, e1, c1⟩ := finish_inner_logged_counted u _ s log ii P1 _ r1 hr1
      obtain ⟨⟨s2, log2⟩, ii2, rc2⟩ := r1
      simp only at h e1 c1
      obtain ⟨rs2, e2, c2⟩ := ih s2 log2 ii2 P1 rc2 r h
      refine ⟨rs1 ++ rs2, ?_, counted_trans u s s2 _ rs1 rs2 c1 c2⟩
      rw [e2, e1, List.append_assoc]
    · simp only [Outcome.pure_eq_done, Outcome.done.injEq] at h
      subst h
      exact ⟨[], by simp, counted_refl u s⟩
    · simp only [Outcome.pure_eq_done, Outcome.done.injEq] at h
      subst h
      exact ⟨[], by simp, counted_refl u s⟩

/-- A completed run of the outer loop of `rainflow_finish` is the same for every larger
bound on its iterations. -/
theorem finish_outer_logged_mono (u : util_t K) :
    ∀ (fuel : Nat) (sl : lifetime_t K × List K) (ii : Int) (P : K) (rc : Int)
      (r : lifetime_t K × List K),
      lifetime_t.finish_outer_logged u fuel sl ii P rc = Outcome.done r →
      ∀ fuel1 : Nat, fuel ≤ fuel1 →
        lifetime_t.finish_outer_logged u fuel1 sl ii P rc = Outcome.done r := by
  intro fuel
  induction fuel with
  | zero =>
    intro sl ii P rc r h
    simp [lifetime_t.finish_outer_logged] at h
  | succ n ih =>
    intro sl ii P rc r h fuel1 hle
    obtain ⟨m, rfl⟩ : ∃ m, fuel1 = m + 1 := ⟨fuel1 - 1, by omega⟩
    simp only [lifetime_t.finish_outer_logged] at h ⊢
    split_ifs at h ⊢
    · obtain ⟨P1, hP1, h⟩ := Outcome.bind_eq_done _ _ _ h
      obtain ⟨r1, hr1, h⟩ := Outcome.bind_eq_done _ _ _ h
      rw [hP1]
      simp only [Outcome.bind_done]
      rw [hr1]
      simp only [Outcome.bind_done]
      exact ih _ _ _ _ r h m (by omega)
    · exact h
    · exact h

theorem rainflow_finish_logged_erase (u : util_t K) (fuel : Nat) (s : lifetime_t K)
    (log : List K) :
    Outcome.map Prod.fst (lifetime_t.rainflow_finish_logged u fuel (s, log))
      = lifetime_t.rainflow_finish u fuel s :=
  finish_outer_logged_erase u fuel _ log 0 0 0

theorem rainflow_finish_logged_counted (u : util_t K) (fuel : Nat) (s : lifetime_t K)
    (log : List K) (r : lifetime_t K × List K)
    (h : lifetime_t.rainflow_finish_logged u fuel (s, log) = Outcome.done r) :
    ∃ rs, r.2 = log ++ rs ∧ lifetime_t.counted u s rs r.1 := by
  obtain ⟨rs, e, c⟩ := finish_outer_logged_counted u fuel _ log 0 0 0 r h
  exact ⟨rs, e, counted_same_left u s ({ s with jlt := s.jlt - 1 } : lifetime_t K) _ rs
    ⟨rfl, rfl, rfl, rfl, rfl, rfl, rfl⟩ c⟩

end LogLemmas

section BufferRealLemmas

theorem kibam_q1_affine (s : capacity_kibam_t ℝ) (q10 q0 dt I : ℝ) (hk : s.k ≠ 0) :
    capacity_kibam_t.q1_compute Real.exp s q10 q0 dt I
      = (s.k * q10 * Real.exp (-s.k * dt) + q0 * s.k * s.c * (1 - Real.exp (-s.k * dt))
          - I * (1 - Real.exp (-s.k * dt)
                  + s.c * (s.k * dt - 1 + Real.exp (-s.k * dt)))) / s.k := by
  simp only [capacity_kibam_t.q1_compute]
  field_simp
  ring

end BufferRealLemmas

/-! ## Theorems -/

section Theorems

variable {K : Type} [LinearOrderedField K]

/-- C1 (evaluation of the code): `SOC() + DOD() = 100` holds after construction and after
every call of `updateCapacity`, `updateCapacityForThermal` and `updateCapacityForLifetime`
of both capacity models in which no quotient on the way to `_SOC` has a zero divisor: the
battery voltage, `_k` and the common denominator of `Idmax`/`Icmax` for the KiBam
`updateCapacity`, and the `_qmax` that divides the charge (for `updateCapacityForLifetime`
the `_qmax` it has just written, `_qmax0 * capacity_percent * 0.01`).  The last two parts
are the input at which the code leaves this domain: after
`updateCapacityForLifetime(0)` from any state, `_q0 = 0` and `_qmax = 0`, so that
`update_SOC()` evaluates `100.*(0/0)`; in IEEE arithmetic `_SOC` and `_DOD = 100. - _SOC`
are then NaN and their sum is not `100`. -/
theorem C1_SOC_add_DOD (exp : K → K) :
    (∀ q : K, (capacity_lithium_ion_t.new q).SOC + (capacity_lithium_ion_t.new q).DOD = 100)
    ∧ (∀ (s : capacity_t K) (P : K) (vm : voltage_t K) (dt : K) (cycles : Int),
        vm.battery_voltage ≠ 0 → s.qmax ≠ 0 →
        (capacity_lithium_ion_t.updateCapacity s P vm dt cycles).1.SOC
          + (capacity_lithium_ion_t.updateCapacity s P vm dt cycles).1.DOD = 100)
    ∧ (∀ (s : capacity_t K) (pct : K), s.qmax ≠ 0 →
        (capacity_lithium_ion_t.updateCapacityForThermal s pct).SOC
          + (capacity_lithium_ion_t.updateCapacityForThermal s pct).DOD = 100)
    ∧ (∀ (s : capacity_t K) (pct : K), s.qmax0 * pct * 0.01 ≠ 0 →
        (capacity_lithium_ion_t.updateCapacityForLifetime s pct).SOC
          + (capacity_lithium_ion_t.updateCapacityForLifetime s pct).DOD = 100)
    ∧ (∀ q20 t1 q1 q10 k_init c_init : K,
        (capacity_kibam_t.new exp q20 t1 q1 q10 k_init c_init).SOC
          + (capacity_kibam_t.new exp q20 t1 q1 q10 k_init c_init).DOD = 100)
    ∧ (∀ (s : capacity_kibam_t K) (P : K) (vm : voltage_t K) (dt : K) (cycles : Int),
        vm.battery_voltage ≠ 0 → s.k ≠ 0 →
        1 - exp (-s.k * dt) + s.c * (s.k * dt - 1 + exp (-s.k * dt)) ≠ 0 → s.qmax ≠ 0 →
        (capacity_kibam_t.updateCapacity exp s P vm dt cycles).1.SOC
          + (capacity_kibam_t.updateCapacity exp s P vm dt cycles).1.DOD = 100)
    ∧ (∀ (s : capacity_kibam_t K) (pct : K), s.qmax ≠ 0 →
        (capacity_kibam_t.updateCapacityForThermal s pct).SOC
          + (capacity_kibam_t.updateCapacityForThermal s pct).DOD = 100)
    ∧ (∀ (s : capacity_kibam_t K) (pct : K), s.qmax0 * pct * 0.01 ≠ 0 →
        (capacity_kibam_t.updateCapacityForLifetime s pct).SOC
          + (capacity_kibam_t.updateCapacityForLifetime s pct).DOD = 100)
    ∧ (∀ s : capacity_t K,
        (capacity_lithium_ion_t.updateCapacityForLifetime s 0).q0 = 0
        ∧ (capacity_lithium_ion_t.updateCapacityForLifetime s 0).qmax = 0)
    ∧ (∀ s : capacity_kibam_t K,
        (capacity_kibam_t.updateCapacityForLifetime s 0).q0 = 0
        ∧ (capacity_kibam_t.updateCapacityForLifetime s 0).qmax = 0) := by
  refine ⟨?_, ?_, ?_, ?_, ?_, ?_, ?_, ?_, ?_, ?_⟩
  · intro q
    simp [capacity_lithium_ion_t.new, capacity_t.new]
  · intro s P vm dt cycles _ _
    simp only [capacity_lithium_ion_t.updateCapacity,
      capacity_lithium_ion_t.updateCapacity_core, check_charge_change_SOC,
      check_charge_change_DOD]
    ring
  · intro s pct _
    simp only [capacity_lithium_ion_t.updateCapacityForThermal, capacity_t.update_SOC]
    ring
  · intro s pct _
    simp only [capacity_lithium_ion_t.updateCapacityForLifetime, capacity_t.update_SOC]
    ring
  · intro q20 t1 q1 q10 k_init c_init
    simp [capacity_kibam_t.new, capacity_kibam_t.parameter_compute, capacity_t.new]
  · intro s P vm dt cycles _ _ _ _
    simp only [capacity_kibam_t.updateCapacity, capacity_kibam_t.updateCapacity_core,
      check_charge_change_SOC, check_charge_change_DOD]
    ring
  · intro s pct _
    simp only [capacity_kibam_t.updateCapacityForThermal, capacity_t.update_SOC]
    ring
  · intro s pct _
    simp only [capacity_kibam_t.updateCapacityForLifetime, capacity_t.update_SOC]
    ring
  · intro s
    simp [capacity_lithium_ion_t.updateCapacityForLifetime, capacity_t.update_SOC]
  · intro s
    simp [capacity_kibam_t.updateCapacityForLifetime, capacity_t.update_SOC]

/-- C4: charge-direction state machine.  The direction of a current is `CHARGE` when
`I < 0`, `DISCHARGE` when `I > 0` and `NO_CHARGE` when `I = 0`.  After every
`updateCapacity` of either capacity model, `chargeChanged()` is true exactly when the
direction of the reported current is not `NO_CHARGE`, the direction recorded before the call
is not `NO_CHARGE`, and the two differ; when it is true the recorded direction is the new
direction, and when it is false the recorded direction is unchanged. -/
theorem C4_charge_direction (exp : K → K) :
    (∀ I : K, (I < 0 → charging_of I = ChargeState.CHARGE)
        ∧ (I > 0 → charging_of I = ChargeState.DISCHARGE)
        ∧ (I = 0 → charging_of I = ChargeState.NO_CHARGE))
    ∧ (∀ (s : capacity_t K) (P : K) (vm : voltage_t K) (dt : K) (cycles : Int),
        ((capacity_lithium_ion_t.updateCapacity s P vm dt cycles).1.chargeChanged = true ↔
          (charging_of (capacity_lithium_ion_t.updateCapacity s P vm dt cycles).1.I
              ≠ ChargeState.NO_CHARGE
            ∧ s.prev_charge ≠ ChargeState.NO_CHARGE
            ∧ charging_of (capacity_lithium_ion_t.updateCapacity s P vm dt cycles).1.I
              ≠ s.prev_charge))
        ∧ ((capacity_lithium_ion_t.updateCapacity s P vm dt cycles).1.chargeChanged = true →
          (capacity_lithium_ion_t.updateCapacity s P vm dt cycles).1.prev_charge
            = charging_of (capacity_lithium_ion_t.updateCapacity s P vm dt cycles).1.I)
        ∧ ((capacity_lithium_ion_t.updateCapacity s P vm dt cycles).1.chargeChanged = false →
          (capacity_lithium_ion_t.updateCapacity s P vm dt cycles).1.prev_charge
            = s.prev_charge))
    ∧ (∀ (s : capacity_kibam_t K) (P : K) (vm : voltage_t K) (dt : K) (cycles : Int),
        ((capacity_kibam_t.updateCapacity exp s P vm dt cycles).1.chargeChanged = true ↔
          (charging_of (capacity_kibam_t.updateCapacity exp s P vm dt cycles).1.I
              ≠ ChargeState.NO_CHARGE
            ∧ s.prev_charge ≠ ChargeState.NO_CHARGE
            ∧ charging_of (capacity_kibam_t.updateCapacity exp s P vm dt cycles).1.I
              ≠ s.prev_charge))
        ∧ ((capacity_kibam_t.updateCapacity exp s P vm dt cycles).1.chargeChanged = true →
          (capacity_kibam_t.updateCapacity exp s P vm dt cycles).1.prev_charge
            = charging_of (capacity_kibam_t.updateCapacity exp s P vm dt cycles).1.I)
        ∧ ((capacity_kibam_t.updateCapacity exp s P vm dt cycles).1.chargeChanged = false →
          (capacity_kibam_t.updateCapacity exp s P vm dt cycles).1.prev_charge
            = s.prev_charge)) := by
  refine ⟨?_, ?_, ?_⟩
  · intro I
    refine ⟨?_, ?_, ?_⟩
    · intro h
      simp [charging_of, h]
    · intro h
      simp [charging_of, h, not_lt.mpr h.le]
    · intro h
      simp [charging_of, h]
  · intro s P vm dt cycles
    obtain ⟨s1, h1, h2⟩ := lithium_core_is_check s P vm.battery_voltage dt
    exact check_charge_change_result s1 _ _ h1 h2
  · intro s P vm dt cycles
    obtain ⟨s1, h1, h2⟩ := kibam_core_is_check exp s P vm.battery_voltage dt
    exact check_charge_change_result s1 _ _ h1 h2

/-- C2 (evaluation of the code): a fresh coulomb-counting model of `10` Ah that receives
`updateCapacityForThermal(104)` reports `SOC() = 104` and `DOD() = -4`: `update_SOC()` does
not clamp, so the state of charge leaves `[0, 100]`. -/
theorem C2_thermal_derate_SOC_above_100 :
    (capacity_lithium_ion_t.updateCapacityForThermal
        (capacity_lithium_ion_t.new (10 : ℚ)) 104).SOC = 104
    ∧ (capacity_lithium_ion_t.updateCapacityForThermal
        (capacity_lithium_ion_t.new (10 : ℚ)) 104).DOD = -4
    ∧ ¬ ((capacity_lithium_ion_t.updateCapacityForThermal
        (capacity_lithium_ion_t.new (10 : ℚ)) 104).SOC ≤ 100) := by
  norm_num [capacity_lithium_ion_t.updateCapacityForThermal, capacity_lithium_ion_t.new,
    capacity_t.new, capacity_t.update_SOC]

/-- C5: coulomb-counting model.  For every sequence of `updateCapacity` steps in which
each step sees a nonzero battery voltage and triggers neither the overcharge nor the
undercharge clamp, the charge removed is the exact integral,
`q0_before - q0_after = Σ I_t * dt_t`, and the current `I_t` reported by step `t` is the
requested `P_t / V_t`. -/
theorem C5_coulomb_integral (st : capacity_t K × voltage_t K) (steps : List (K × K × Int))
    (h : capacity_lithium_ion_t.steps_unclamped st steps) :
    st.1.q0 - (capacity_lithium_ion_t.steps st steps).1.q0
        = capacity_lithium_ion_t.charge_removed st steps
    ∧ capacity_lithium_ion_t.reported_currents st steps
        = capacity_lithium_ion_t.requested_currents st steps :=
  lithium_steps_integral steps st h

/-- C6: coulomb-counting round trip with the constant-voltage model and `dt > 0`.  A step
`updateCapacity(P, dt)` followed by `updateCapacity(-P, dt)`, neither of which triggers a
clamp, restores `q0`.  In particular, from a full battery (`q0 = qmax`, `qmax ≥ 0`) a
discharge that removes exactly `qmax` leaves `q0 = 0`, and the opposite step brings `q0`
back to `qmax`.  The same holds over several steps: `n` steps at `P` followed by `n` steps
at `-P`, none of which triggers a clamp, restore `q0`. -/
theorem C6_round_trip (s : capacity_t K) (vm : voltage_t K) (P dt : K) (cycles cycles2 : Int)
    (hvm : vm.dynamic = none) (hdt : 0 < dt) :
    (capacity_lithium_ion_t.no_clamp s P vm.battery_voltage dt →
      capacity_lithium_ion_t.no_clamp (capacity_lithium_ion_t.updateCapacity s P vm dt cycles).1
        (-P) (capacity_lithium_ion_t.updateCapacity s P vm dt cycles).2.battery_voltage dt →
      (capacity_lithium_ion_t.updateCapacity
        (capacity_lithium_ion_t.updateCapacity s P vm dt cycles).1 (-P)
        (capacity_lithium_ion_t.updateCapacity s P vm dt cycles).2 dt cycles2).1.q0 = s.q0)
    ∧ (s.q0 = s.qmax → 0 ≤ s.qmax → P / vm.battery_voltage * dt = s.qmax →
      (capacity_lithium_ion_t.updateCapacity s P vm dt cycles).1.q0 = 0
      ∧ (capacity_lithium_ion_t.updateCapacity
        (capacity_lithium_ion_t.updateCapacity s P vm dt cycles).1 (-P)
        (capacity_lithium_ion_t.updateCapacity s P vm dt cycles).2 dt cycles2).1.q0
          = s.qmax)
    ∧ (∀ n : Nat,
      capacity_lithium_ion_t.steps_unclamped (s, vm)
          (List.replicate n (P, dt, cycles) ++ List.replicate n (-P, dt, cycles2)) →
      (capacity_lithium_ion_t.steps (s, vm)
          (List.replicate n (P, dt, cycles) ++ List.replicate n (-P, dt, cycles2))).1.q0
        = s.q0) := by
  have _hdt := hdt
  have hmulti : ∀ n : Nat,
      capacity_lithium_ion_t.steps_unclamped (s, vm)
          (List.replicate n (P, dt, cycles) ++ List.replicate n (-P, dt, cycles2)) →
      (capacity_lithium_ion_t.steps (s, vm)
          (List.replicate n (P, dt, cycles) ++ List.replicate n (-P, dt, cycles2))).1.q0
        = s.q0 := by
    intro n hn
    rw [lithium_steps_basic vm hvm _ s hn]
    simp only [List.map_append, List.map_replicate, List.sum_append, List.sum_replicate,
      smul_eq_mul, nsmul_eq_mul]
    ring
  have hv2 : (capacity_lithium_ion_t.updateCapacity s P vm dt cycles).2 = vm :=
    updateVoltage_basic vm _ _ _ dt hvm
  have hqm : (capacity_lithium_ion_t.updateCapacity s P vm dt cycles).1.qmax = s.qmax := by
    simp only [capacity_lithium_ion_t.updateCapacity,
      capacity_lithium_ion_t.updateCapacity_core, check_charge_change_qmax]
  have key : capacity_lithium_ion_t.no_clamp s P vm.battery_voltage dt →
      capacity_lithium_ion_t.no_clamp (capacity_lithium_ion_t.updateCapacity s P vm dt cycles).1
        (-P) vm.battery_voltage dt →
      (capacity_lithium_ion_t.updateCapacity s P vm dt cycles).1.q0
          = s.q0 - P / vm.battery_voltage * dt
      ∧ (capacity_lithium_ion_t.updateCapacity
          (capacity_lithium_ion_t.updateCapacity s P vm dt cycles).1 (-P) vm dt cycles2).1.q0
          = s.q0 := by
    intro h1 h2
    have e1 := (lithium_core_no_clamp s P vm.battery_voltage dt h1).1
    have e2 := (lithium_core_no_clamp _ (-P) vm.battery_voltage dt h2).1
    refine ⟨e1, ?_⟩
    have e1' : (capacity_lithium_ion_t.updateCapacity s P vm dt cycles).1.q0
        = s.q0 - P / vm.battery_voltage * dt := e1
    have e2' : (capacity_lithium_ion_t.updateCapacity
          (capacity_lithium_ion_t.updateCapacity s P vm dt cycles).1 (-P) vm dt cycles2).1.q0
        = (capacity_lithium_ion_t.updateCapacity s P vm dt cycles).1.q0
          - -P / vm.battery_voltage * dt := e2
    rw [e2', e1']
    ring
  rw [hv2]
  refine ⟨fun h1 h2 => (key h1 h2).2, ?_, hmulti⟩
  intro hfull hq hP
  have h1 : capacity_lithium_ion_t.no_clamp s P vm.battery_voltage dt := by
    constructor
    · rw [hP, hfull]
      simpa using hq
    · rw [hP, hfull]
      simp
  have e1 : (capacity_lithium_ion_t.updateCapacity s P vm dt cycles).1.q0 = 0 := by
    have := (lithium_core_no_clamp s P vm.battery_voltage dt h1).1
    rw [hP, hfull, sub_self] at this
    exact this
  have h2 : capacity_lithium_ion_t.no_clamp
      (capacity_lithium_ion_t.updateCapacity s P vm dt cycles).1 (-P) vm.battery_voltage dt := by
    have hneg : -P / vm.battery_voltage * dt = -s.qmax := by
      rw [neg_div, neg_mul, hP]
    constructor
    · rw [e1, hqm, hneg]
      simp
    · rw [e1, hneg]
      simpa using hq
  exact ⟨e1, by rw [(key h1 h2).2, hfull]⟩

/-- C7: coulomb-counting clamp.  For `dt > 0`, battery voltage `V ≠ 0` and a prior state
with `0 ≤ q0 ≤ qmax`, after `updateCapacity(P, dt)` the new charge lies in `[0, qmax]`
(`qmax` is unchanged), the reported current is the realised one, `q0 - q0' = I' * dt`,
its magnitude is at most that of the requested current `P / V`, and the reported power is
`P' = I' * V`.  The step is the clamped integration of the request: when `q0 - (P/V)*dt`
exceeds `qmax` the charge ends on the boundary `qmax` with the back-solved current
`I' = -(qmax - q0) / dt`; when it is below `0` the charge ends on the boundary `0` with
`I' = q0 / dt`; otherwise `q0' = q0 - (P/V)*dt`, `I' = P / V` and `P' = P`. -/
theorem C7_coulomb_clamp (s : capacity_t K) (vm : voltage_t K) (P dt : K) (cycles : Int)
    (hdt : 0 < dt) (hV : vm.battery_voltage ≠ 0) (h0 : 0 ≤ s.q0) (h1 : s.q0 ≤ s.qmax) :
    0 ≤ (capacity_lithium_ion_t.updateCapacity s P vm dt cycles).1.q0
    ∧ (capacity_lithium_ion_t.updateCapacity s P vm dt cycles).1.q0
        ≤ (capacity_lithium_ion_t.updateCapacity s P vm dt cycles).1.qmax
    ∧ (capacity_lithium_ion_t.updateCapacity s P vm dt cycles).1.qmax = s.qmax
    ∧ s.q0 - (capacity_lithium_ion_t.updateCapacity s P vm dt cycles).1.q0
        = (capacity_lithium_ion_t.updateCapacity s P vm dt cycles).1.I * dt
    ∧ |(capacity_lithium_ion_t.updateCapacity s P vm dt cycles).1.I|
        ≤ |P / vm.battery_voltage|
    ∧ (capacity_lithium_ion_t.updateCapacity s P vm dt cycles).1.P
        = (capacity_lithium_ion_t.updateCapacity s P vm dt cycles).1.I * vm.battery_voltage
    ∧ (s.q0 - P / vm.battery_voltage * dt > s.qmax →
        (capacity_lithium_ion_t.updateCapacity s P vm dt cycles).1.q0 = s.qmax
        ∧ (capacity_lithium_ion_t.updateCapacity s P vm dt cycles).1.I
            = -(s.qmax - s.q0) / dt)
    ∧ (s.q0 - P / vm.battery_voltage * dt < 0 →
        (capacity_lithium_ion_t.updateCapacity s P vm dt cycles).1.q0 = 0
        ∧ (capacity_lithium_ion_t.updateCapacity s P vm dt cycles).1.I = s.q0 / dt)
    ∧ (capacity_lithium_ion_t.no_clamp s P vm.battery_voltage dt →
        (capacity_lithium_ion_t.updateCapacity s P vm dt cycles).1.q0
            = s.q0 - P / vm.battery_voltage * dt
        ∧ (capacity_lithium_ion_t.updateCapacity s P vm dt cycles).1.I
            = P / vm.battery_voltage
        ∧ (capacity_lithium_ion_t.updateCapacity s P vm dt cycles).1.P = P) := by
  obtain ⟨a1, a2, a3, a4, a5, a6⟩ := lithium_core_clamp s P vm.battery_voltage dt hdt hV h0 h1
  obtain ⟨b1, b2, b3⟩ := lithium_core_clamp_cases s P vm.battery_voltage dt h0 h1
  exact ⟨a1, a2, a3, a4, a5, a6, fun h => ⟨(b1 h).1, (b1 h).2.1⟩,
    fun h => ⟨(b2 h).1, (b2 h).2.1⟩, b3⟩

/-- C9 (evaluation of the code): whenever the discharge limit is active, that is
`0 < P/V` and `Idmax < P/V`, with `V ≠ 0`, KiBam `updateCapacity(P)` reports the reduced
current `I() = Idmax` but still the requested power `P() = P`, so `P() ≠ I() * V`. -/
theorem C9_kibam_power_not_realized (exp : K → K) (s : capacity_kibam_t K) (vm : voltage_t K)
    (P dt : K) (cycles : Int) (hV : vm.battery_voltage ≠ 0)
    (hpos : 0 < P / vm.battery_voltage)
    (hclamp : capacity_kibam_t.Idmax_compute exp s s.q1_0 s.q0 dt < P / vm.battery_voltage) :
    (capacity_kibam_t.updateCapacity exp s P vm dt cycles).1.I
        = capacity_kibam_t.Idmax_compute exp s s.q1_0 s.q0 dt
    ∧ (capacity_kibam_t.updateCapacity exp s P vm dt cycles).1.P = P
    ∧ (capacity_kibam_t.updateCapacity exp s P vm dt cycles).1.P
        ≠ (capacity_kibam_t.updateCapacity exp s P vm dt cycles).1.I * vm.battery_voltage := by
  have hI : (capacity_kibam_t.updateCapacity exp s P vm dt cycles).1.I
      = capacity_kibam_t.Idmax_compute exp s s.q1_0 s.q0 dt := by
    have h := kibam_core_I exp s P vm.battery_voltage dt
    simp only [capacity_kibam_t.clamped_current, gt_iff_lt, hpos, if_true] at h
    rw [min_eq_right hclamp.le] at h
    exact h
  have hP : (capacity_kibam_t.updateCapacity exp s P vm dt cycles).1.P = P :=
    kibam_core_P exp s P vm.battery_voltage dt
  refine ⟨hI, hP, ?_⟩
  rw [hP, hI]
  intro h
  have h2 : P / vm.battery_voltage
      = capacity_kibam_t.Idmax_compute exp s s.q1_0 s.q0 dt := by
    rw [h, mul_div_assoc, div_self hV, mul_one]
  exact absurd h2 (ne_of_gt hclamp)

end Theorems

section RealTheorems

/-- C8: KiBam current clamp, over the reals with the real exponential.  In a state with
`q1 ≥ 0`, `q0 ≥ 0`, `k > 0`, `0 < c ≤ 1`, and for `dt > 0`, `V ≠ 0`, `updateCapacity(P)`
reports `I = min(P/V, Idmax)` when the requested current `P/V` is positive and
`I = -min(|P/V|, |Icmax|)` when it is negative, the limits being computed from the pre-step
tank levels.  The reported current never exceeds the requested one in magnitude, never has
the opposite sign, and never exceeds the maximum rate of its direction. -/
theorem C8_kibam_current_clamp (s : capacity_kibam_t ℝ) (vm : voltage_t ℝ) (P dt : ℝ)
    (cycles : Int) (hq1 : 0 ≤ s.q1_0) (hq0 : 0 ≤ s.q0) (hk : 0 < s.k) (hc : 0 < s.c)
    (hc1 : s.c ≤ 1) (hdt : 0 < dt) (hV : vm.battery_voltage ≠ 0) :
    (0 < P / vm.battery_voltage →
      (capacity_kibam_t.updateCapacity Real.exp s P vm dt cycles).1.I
        = min (P / vm.battery_voltage)
            (capacity_kibam_t.Idmax_compute Real.exp s s.q1_0 s.q0 dt))
    ∧ (P / vm.battery_voltage < 0 →
      (capacity_kibam_t.updateCapacity Real.exp s P vm dt cycles).1.I
        = -(min |P / vm.battery_voltage|
            |capacity_kibam_t.Icmax_compute Real.exp s s.q1_0 s.q0 dt|))
    ∧ |(capacity_kibam_t.updateCapacity Real.exp s P vm dt cycles).1.I|
        ≤ |P / vm.battery_voltage|
    ∧ (0 < P / vm.battery_voltage →
      0 ≤ (capacity_kibam_t.updateCapacity Real.exp s P vm dt cycles).1.I)
    ∧ (P / vm.battery_voltage < 0 →
      (capacity_kibam_t.updateCapacity Real.exp s P vm dt cycles).1.I ≤ 0)
    ∧ (0 < P / vm.battery_voltage →
      (capacity_kibam_t.updateCapacity Real.exp s P vm dt cycles).1.I
        ≤ capacity_kibam_t.Idmax_compute Real.exp s s.q1_0 s.q0 dt)
    ∧ (P / vm.battery_voltage < 0 →
      |(capacity_kibam_t.updateCapacity Real.exp s P vm dt cycles).1.I|
        ≤ |capacity_kibam_t.Icmax_compute Real.exp s s.q1_0 s.q0 dt|) := by
  have _hc1 := hc1
  have _hV := hV
  have hId := kibam_Idmax_nonneg s s.q1_0 s.q0 dt hq1 hq0 hk hc hdt
  have hI : (capacity_kibam_t.updateCapacity Real.exp s P vm dt cycles).1.I
      = capacity_kibam_t.clamped_current Real.exp s P vm.battery_voltage dt :=
    kibam_core_I Real.exp s P vm.battery_voltage dt
  have hvpos : 0 < P / vm.battery_voltage →
      capacity_kibam_t.clamped_current Real.exp s P vm.battery_voltage dt
        = min (P / vm.battery_voltage)
            (capacity_kibam_t.Idmax_compute Real.exp s s.q1_0 s.q0 dt) := by
    intro h
    simp only [capacity_kibam_t.clamped_current, gt_iff_lt, h, if_true]
  have hvneg : P / vm.battery_voltage < 0 →
      capacity_kibam_t.clamped_current Real.exp s P vm.battery_voltage dt
        = -(min |P / vm.battery_voltage|
            |capacity_kibam_t.Icmax_compute Real.exp s s.q1_0 s.q0 dt|) := by
    intro h
    have h' : ¬ (0 < P / vm.battery_voltage) := not_lt.mpr h.le
    simp only [capacity_kibam_t.clamped_current, gt_iff_lt, h', if_false, h, if_true]
  have hvzero : ¬ (0 < P / vm.battery_voltage) → ¬ (P / vm.battery_voltage < 0) →
      capacity_kibam_t.clamped_current Real.exp s P vm.battery_voltage dt
        = P / vm.battery_voltage := by
    intro h h'
    simp only [capacity_kibam_t.clamped_current, gt_iff_lt, h, if_false, h']
  have hmin : 0 ≤ min |P / vm.battery_voltage|
      |capacity_kibam_t.Icmax_compute Real.exp s s.q1_0 s.q0 dt| :=
    le_min (abs_nonneg _) (abs_nonneg _)
  rw [hI]
  refine ⟨hvpos, hvneg, ?_, ?_, ?_, ?_, ?_⟩
  · by_cases hpos : 0 < P / vm.battery_voltage
    · rw [hvpos hpos, abs_of_nonneg (le_min hpos.le hId), abs_of_pos hpos]
      exact min_le_left _ _
    · by_cases hneg : P / vm.battery_voltage < 0
      · rw [hvneg hneg, abs_neg, abs_of_nonneg hmin]
        exact min_le_left _ _
      · rw [hvzero hpos hneg]
  · intro hpos
    rw [hvpos hpos]
    exact le_min hpos.le hId
  · intro hneg
    rw [hvneg hneg]
    linarith
  · intro hpos
    rw [hvpos hpos]
    exact min_le_right _ _
  · intro hneg
    rw [hvneg hneg, abs_neg, abs_of_nonneg hmin]
    exact min_le_right _ _

end RealTheorems

section KibTheorems

variable {K : Type} [LinearOrderedField K]

/-- The scan of `parameter_compute`.  Call candidate `i` valid when both denominators of
`c_compute` at `k = i * 0.001` are nonzero.  `parameter_compute` sets
`qmax = qmax_compute()` from the `(k, c)` it ends with, and either no valid candidate
`j < 5000` has a residual `|c1 - c2|` below `10000` and `k`, `c` keep their previous
content, or `k = i * 0.001` and `c = 0.5 * (c1 + c2)` for a valid candidate `i < 5000`
whose residual is below `10000`, is at most the residual of every valid candidate
`j < 5000`, and is below the residual of every valid candidate `j < i`. -/
theorem parameter_compute_fit (exp : K → K) (s : capacity_kibam_t K) :
    (capacity_kibam_t.parameter_compute exp s).qmax
        = capacity_kibam_t.qmax_compute exp (capacity_kibam_t.parameter_compute exp s)
    ∧ (((∀ j : Nat, j < 5000 → capacity_kibam_t.candidate_valid exp s j →
            10000 ≤ capacity_kibam_t.candidate_residual exp s j)
          ∧ (capacity_kibam_t.parameter_compute exp s).k = s.k
          ∧ (capacity_kibam_t.parameter_compute exp s).c = s.c)
        ∨ (∃ i : Nat, i < 5000
          ∧ capacity_kibam_t.candidate_valid exp s i
          ∧ capacity_kibam_t.candidate_residual exp s i < 10000
          ∧ (capacity_kibam_t.parameter_compute exp s).k = (i : K) * 0.001
          ∧ (capacity_kibam_t.parameter_compute exp s).c = capacity_kibam_t.candidate_c exp s i
          ∧ (∀ j : Nat, j < 5000 → capacity_kibam_t.candidate_valid exp s j →
              capacity_kibam_t.candidate_residual exp s i
                ≤ capacity_kibam_t.candidate_residual exp s j)
          ∧ (∀ j : Nat, j < i → capacity_kibam_t.candidate_valid exp s j →
              capacity_kibam_t.candidate_residual exp s i
                < capacity_kibam_t.candidate_residual exp s j))) := by
  refine ⟨?_, ?_⟩
  · simp only [capacity_kibam_t.parameter_compute, capacity_kibam_t.qmax_compute]
  rcases parameter_scan_spec exp s (List.range 5000) (10000, s.k, s.c) with
    ⟨h1, h2⟩ | ⟨l1, i, l2, hl, hv, hr, hf, hb, ha⟩
  · left
    refine ⟨fun j hj hvj => h2 j (List.mem_range.mpr hj) hvj, ?_, ?_⟩
    · simp only [capacity_kibam_t.parameter_compute, h1]
    · simp only [capacity_kibam_t.parameter_compute, h1]
  · right
    obtain ⟨hi, hall, hfirst⟩ := range_split 5000 i l1 l2 hl
    refine ⟨i, hi, hv, hr, ?_, ?_, ?_, ?_⟩
    · simp only [capacity_kibam_t.parameter_compute, hf]
    · simp only [capacity_kibam_t.parameter_compute, hf]
    · intro j hj hvj
      rcases hall j hj with h1 | h1 | h1
      · exact (hb j h1 hvj).le
      · rw [h1]
      · exact ha j h1 hvj
    · intro j hj hvj
      exact hb j (hfirst j hj) hvj

end KibTheorems

section KibReal

theorem parameter_scan_rejects (exp : ℝ → ℝ) (s : capacity_kibam_t ℝ) (acc : ℝ × ℝ × ℝ)
    (l : List Nat) (h : ∀ i ∈ l, ¬ capacity_kibam_t.candidate_valid exp s i) :
    l.foldl (capacity_kibam_t.parameter_compute_step exp s) acc = acc := by
  induction l with
  | nil => rfl
  | cons a l ih =>
    rw [List.foldl_cons,
      parameter_compute_step_reject exp s acc a (fun hc => h a (List.mem_cons_self a l) hc.1)]
    exact ih (fun i hi => h i (List.mem_cons_of_mem a hi))

/-- C11 (evaluation of the code): with `t1 = 0` both estimates of `c` are `0/0` at every
candidate, the test `fabs(c1 - c2) < minRes` is never true and no candidate is accepted.
The constructed model then has for `k` and `c` the content that the members `_k` and `_c`
had before the scan, which the constructor does not initialise: the fit is whatever this
content was, for every `q20`, `q1` and `q10`.  For `(q20, t1, q1, q10) = (100, 0, 60, 80)`
and the content `-1`, `k` is `-1`, which is no `i * 0.001`. -/
theorem C11_no_candidate_selected :
    (∀ q20 q1 q10 k_init c_init : ℝ,
      (capacity_kibam_t.new Real.exp q20 0 q1 q10 k_init c_init).k = k_init
      ∧ (capacity_kibam_t.new Real.exp q20 0 q1 q10 k_init c_init).c = c_init)
    ∧ (capacity_kibam_t.new Real.exp 100 0 60 80 (-1) (-1)).k = -1
    ∧ ¬ ∃ i : Nat, i < 5000
        ∧ (capacity_kibam_t.new Real.exp 100 0 60 80 (-1) (-1)).k = (i : ℝ) * 0.001 := by
  have hkc : ∀ q20 q1 q10 k_init c_init : ℝ,
      (capacity_kibam_t.new Real.exp q20 0 q1 q10 k_init c_init).k = k_init
      ∧ (capacity_kibam_t.new Real.exp q20 0 q1 q10 k_init c_init).c = c_init := by
    intro q20 q1 q10 k_init c_init
    simp only [capacity_kibam_t.new, capacity_kibam_t.parameter_compute]
    rw [parameter_scan_rejects]
    · exact ⟨rfl, rfl⟩
    · intro i _ hv
      apply hv.1
      simp [capacity_kibam_t.c_compute_denom]
  have hk := (hkc 100 60 80 (-1) (-1)).1
  refine ⟨hkc, hk, ?_⟩
  rintro ⟨i, _, hi⟩
  rw [hk] at hi
  have h0 : (0 : ℝ) ≤ (i : ℝ) * 0.001 := mul_nonneg (Nat.cast_nonneg i) (by norm_num)
  linarith

end KibReal

section LifeTheorems

variable {K : Type} [LinearOrderedField K]

/-- C12 (amended): closed-cycle rule of `rainflow`.  With at least three peaks buffered
(`_Peaks` ends with `a, b, c` and `_jlt` is its last index), `X = |c - b|`, `Y = |b - a|`,
`X ≥ Y` and the reference `S` equal to neither `b` nor `a`, one pass of steps 2 and 3
(`rainflow_ranges` then `rainflow_compareRanges`) counts `Y`: it returns `LT_RERANGE`, the
cycle count increases by one, the counted range is `Y`, the points `a` and `b` are removed
while `c` is kept, `_jlt` decreases by 2, and the reference is unchanged. -/
theorem C12_closed_cycle_rule (u : util_t K) (s : lifetime_t K) (front : List K) (a b c : K)
    (hT : s.DOD_vect ≠ []) (hP : s.Peaks = front ++ [a, b, c])
    (hj : s.jlt = (front.length : Int) + 2) (hXY : |c - b| ≥ |b - a|)
    (hSb : s.Slt ≠ b) (hSa : s.Slt ≠ a) :
    ∃ s1, (lifetime_t.rainflow_ranges s >>= lifetime_t.rainflow_compareRanges u)
        = Outcome.done (LT_code.LT_RERANGE, s1)
      ∧ s1.cycles_elapsed = s.cycles_elapsed + 1
      ∧ s1.Range = |b - a|
      ∧ s1.Peaks = front ++ [c]
      ∧ s1.jlt = s.jlt - 2
      ∧ s1.klt = s.klt ∧ s1.Slt = s.Slt := by
  rw [rainflow_ranges_last_three s front a b c hP hj, Outcome.bind_done]
  have hdec := compareRanges_decide_count
    ({ s with Ylt := |b - a|, Xlt := |c - b| } : lifetime_t K) front a b c hP hj hXY hSb hSa
  obtain ⟨s2, h2, hn, hR, _, _, _, hPk, hjl, hk, hS, _, _, _⟩ :=
    count_range_done u ({ s with Ylt := |b - a|, Xlt := |c - b| } : lifetime_t K) hT
  have hsave : vector_at s2.Peaks s2.jlt = Outcome.done c := by
    rw [hPk, hjl]
    show vector_at s.Peaks s.jlt = Outcome.done c
    rw [hP]
    exact (vector_at_last_three front a b c s.jlt hj).1
  have hpop : s2.Peaks = ((front ++ [a]) ++ [b]) ++ [c] := by
    rw [hPk]
    simp [hP]
  refine ⟨{ s2 with Peaks := front ++ [c], jlt := s2.jlt - 2 }, ?_, ?_, hR, rfl, ?_, hk, hS⟩
  · simp only [lifetime_t.rainflow_compareRanges, hdec, Outcome.bind_done, h2, hsave,
      Bool.false_eq_true, not_false_eq_true, if_true, Outcome.pure_eq_done]
    rw [hpop]
    simp only [vector_pop_back_concat, Outcome.bind_done]
  · simp only [lifetime_t.cycles_elapsed]
    exact hn
  · show s2.jlt - 2 = s.jlt - 2
    rw [hjl]

/-- C13 (amended): open-range rule of `rainflow`.  With at least three peaks buffered
(`_Peaks` ends with `a, b, c` and `_jlt` is its last index), `X = |c - b|`, `Y = |b - a|`,
`X ≥ Y` and the reference `S` equal to `b` or to `a`, one pass of steps 2 and 3 counts no
cycle and discards no point and asks for more data: if `X = Y` only `X` and `Y` are
written; if `X > Y` the reference cursor advances, `k` becomes `k + 1` and `S` becomes
`peak[k + 1]`. -/
theorem C13_open_range_rule (u : util_t K) (s : lifetime_t K) (front : List K) (a b c : K)
    (hP : s.Peaks = front ++ [a, b, c]) (hj : s.jlt = (front.length : Int) + 2)
    (hXY : |c - b| ≥ |b - a|) (hS : s.Slt = b ∨ s.Slt = a) :
    (|c - b| = |b - a| →
      (lifetime_t.rainflow_ranges s >>= lifetime_t.rainflow_compareRanges u)
        = Outcome.done (LT_code.LT_GET_DATA, { s with Ylt := |b - a|, Xlt := |c - b| }))
    ∧ (|c - b| > |b - a| → ∀ p : K, vector_at s.Peaks (s.klt + 1) = Outcome.done p →
      (lifetime_t.rainflow_ranges s >>= lifetime_t.rainflow_compareRanges u)
        = Outcome.done (LT_code.LT_GET_DATA,
            { s with Ylt := |b - a|, Xlt := |c - b|, klt := s.klt + 1, Slt := p })) := by
  rw [rainflow_ranges_last_three s front a b c hP hj, Outcome.bind_done]
  obtain ⟨h1, h2⟩ := compareRanges_decide_open
    ({ s with Ylt := |b - a|, Xlt := |c - b| } : lifetime_t K) front a b c hP hj hXY hS
  constructor
  · intro heq
    simp only [lifetime_t.rainflow_compareRanges, h1 heq, Outcome.bind_done,
      not_true_eq_false, if_false, Outcome.pure_eq_done]
  · intro hgt p hp
    simp only [lifetime_t.rainflow_compareRanges, h2 hgt p hp, Outcome.bind_done,
      not_true_eq_false, if_false, Outcome.pure_eq_done]

/-- C15 (amended): `rainflow` counts nothing while every new range is smaller than the
range before it.  For a fresh lifetime model and every DOD sequence in which
`|c - b| < |b - a|` for all consecutive samples `a, b, c`, feeding the sequence sample by
sample leaves `cycles_elapsed() = 0` after every sample (after every prefix `seen` of the
sequence), and every sample is kept in the buffer. -/
theorem C15_decreasing_ranges_count_nothing (u : util_t K) (m : matrix_t K)
    (s : lifetime_t K) (seen later : List K)
    (hnew : lifetime_t.new u m = Outcome.done s)
    (hrd : ranges_decreasing (seen ++ later)) :
    ∃ s1, lifetime_t.rainflow_all u s seen = Outcome.done s1
      ∧ s1.cycles_elapsed = 0 ∧ s1.Peaks = seen := by
  obtain ⟨hP, hj, hn⟩ := lifetime_new_fresh u m s hnew
  have hrd1 : ranges_decreasing ([] ++ seen ++ later) := by simpa using hrd
  obtain ⟨s1, h1, hP1, hn1⟩ :=
    rainflow_all_wait u seen [] later s hP (by simp [hj]) hrd1
  exact ⟨s1, h1, by simp only [lifetime_t.cycles_elapsed]; rw [hn1, hn], by simpa using hP1⟩

theorem thermal_steps_regular_update (hts : K) (t : thermal_t K) (I dt : K) (l : List K)
    (h : thermal_t.steps_regular hts t l) :
    thermal_t.steps_regular hts (t.updateTemperature hts I dt) l := by
  induction l with
  | nil => trivial
  | cons d rest ih => exact ⟨h.1, h.2.1, ih h.2.2⟩

/-- One zero-current step at ambient temperature. -/
theorem thermal_rest_step (hts : K) (t : thermal_t K) (dt : K)
    (hT : t.T_battery = t.T_room) (hm : t.mass * t.Cp ≠ 0)
    (hd : 1 + (dt * hts) * t.h * t.A / (2 * t.mass * t.Cp) ≠ 0) :
    (t.updateTemperature hts 0 dt).T_battery = t.T_room := by
  have hd2 : 1 + 0.5 * (dt * hts) * (1 / (t.mass * t.Cp)) * (t.h * t.A) ≠ 0 := by
    have e : 1 + 0.5 * (dt * hts) * (1 / (t.mass * t.Cp)) * (t.h * t.A)
        = 1 + (dt * hts) * t.h * t.A / (2 * t.mass * t.Cp) := by
      obtain ⟨hmass, hCp⟩ := mul_ne_zero_iff.mp hm
      rw [show (0.5 : K) = 1 / 2 by norm_num]
      field_simp
      ring
    rw [e]
    exact hd
  simp only [thermal_t.updateTemperature, thermal_t.trapezoidal, thermal_t.f, hT, sub_self,
    mul_zero, zero_mul]
  rw [div_eq_iff hd2]
  ring

/-- C20: thermal steady state.  Right after construction the battery temperature is
`T_room`.  If the battery temperature equals `T_room` and the current is `0`, then for
every `dt ≥ 0` with `mass*Cp ≠ 0` and a nonzero denominator `1 + dt*h*A/(2*mass*Cp)` for
the step that is integrated, `updateTemperature` leaves the temperature unchanged (the denominator is positive, hence
nonzero, whenever `mass*Cp > 0`, `h*A ≥ 0` and the number of seconds per hour is not
negative); hence over any number of such zero-current steps the temperature stays at
`T_room`. -/
theorem C20_thermal_steady_state (hts : K) (t : thermal_t K) (dts : List K)
    (hT : t.T_battery = t.T_room) (hm : t.mass * t.Cp ≠ 0)
    (hreg : thermal_t.steps_regular hts t dts) :
    (∀ mass length width height Cp h T_room R (c_vs_t : matrix_t K) (t0 : thermal_t K),
      thermal_t.new mass length width height Cp h T_room R c_vs_t = Outcome.done t0 →
      t0.T_battery = t0.T_room ∧ t0.T_room = T_room)
    ∧ (∀ dt : K, 0 ≤ dt → 1 + (dt * hts) * t.h * t.A / (2 * t.mass * t.Cp) ≠ 0 →
      (t.updateTemperature hts 0 dt).T_battery = t.T_battery)
    ∧ (∀ dt : K, 0 ≤ dt → 0 ≤ hts → 0 < t.mass * t.Cp → 0 ≤ t.h * t.A →
      (t.updateTemperature hts 0 dt).T_battery = t.T_battery)
    ∧ (thermal_t.rest_steps hts t dts).T_battery = t.T_room := by
  refine ⟨?_, ?_, ?_, ?_⟩
  · intro mass length width height Cp h T_room R c_vs_t t0 h0
    simp only [thermal_t.new] at h0
    cases hc : thermal_t.convert_rows c_vs_t (List.range c_vs_t.nrows) with
    | undefined => rw [hc] at h0; simp at h0
    | out_of_fuel => rw [hc] at h0; simp at h0
    | done m =>
      rw [hc] at h0
      simp only [Outcome.bind_done, Outcome.pure_eq_done, Outcome.done.injEq] at h0
      subst h0
      exact ⟨rfl, rfl⟩
  · intro dt _ hd
    rw [hT]
    exact thermal_rest_step hts t dt hT hm hd
  · intro dt hdt hhts hmc hhA
    rw [hT]
    refine thermal_rest_step hts t dt hT hm (ne_of_gt ?_)
    have h1 : 0 ≤ dt * hts * t.h * t.A := by
      have : dt * hts * t.h * t.A = (dt * hts) * (t.h * t.A) := by ring
      rw [this]
      exact mul_nonneg (mul_nonneg hdt hhts) hhA
    have h2 : 0 < 2 * t.mass * t.Cp := by
      have : 2 * t.mass * t.Cp = 2 * (t.mass * t.Cp) := by ring
      rw [this]
      exact mul_pos (by norm_num) hmc
    have h3 : 0 ≤ dt * hts * t.h * t.A / (2 * t.mass * t.Cp) := div_nonneg h1 h2.le
    linarith
  · induction dts generalizing t with
    | nil => exact hT
    | cons dt rest ih =>
      obtain ⟨_, hd, hrest⟩ := hreg
      have h1 := thermal_rest_step hts t dt hT hm hd
      exact ih (t.updateTemperature hts 0 dt) h1 hm
        (thermal_steps_regular_update hts t 0 dt rest hrest)

end LifeTheorems

section LifeClosed

/-- C12 (the claim as stated fails): on a fresh model the third sample of `0, 10, 20` gives
`X = Y = 10` with the reference `S = 0` equal to `peak[j-2]`, and the third sample of
`0, 10, 30` gives `X = 20 > Y = 10` with `S = 0 = peak[j-2]`; in both cases no cycle is
counted and no point is removed (in the second the reference moves to `peak[1] = 10`). -/
theorem C12_reference_endpoint_not_counted :
    ((lifetime_t.new util.modelled (fade_table_example : matrix_t ℚ)
        >>= fun s => lifetime_t.rainflow_all util.modelled s [0, 10, 20]).result?.map
      (fun s => (s.Xlt, s.Ylt, s.Slt)))
      = some (10, 10, 0)
    ∧ ((lifetime_t.new util.modelled (fade_table_example : matrix_t ℚ)
        >>= fun s => lifetime_t.rainflow_all util.modelled s [0, 10, 20]).result?.map
      (fun s => (s.cycles_elapsed, s.Peaks, s.jlt)))
      = some (0, [0, 10, 20], 3)
    ∧ ((lifetime_t.new util.modelled (fade_table_example : matrix_t ℚ)
        >>= fun s => lifetime_t.rainflow_all util.modelled s [0, 10, 30]).result?.map
      (fun s => (s.Xlt, s.Ylt, s.Slt, s.klt)))
      = some (20, 10, 10, 1)
    ∧ ((lifetime_t.new util.modelled (fade_table_example : matrix_t ℚ)
        >>= fun s => lifetime_t.rainflow_all util.modelled s [0, 10, 30]).result?.map
      (fun s => (s.cycles_elapsed, s.Peaks, s.jlt)))
      = some (0, [0, 10, 30], 3) := by
  refine ⟨?_, ?_, ?_, ?_⟩ <;> decide!

/-- C13 (the claim as stated fails): on a fresh model fed `0, 1, 3, 4` the buffer is
`[0, 1, 3, 4]` with reference `S = 1`; the fifth sample `5` gives `X = |5 - 4| = 1` and
`Y = |4 - 3| = 1` with `S` equal to neither `4` nor `3`, and the range `Y = 1` is counted
and its two points `3` and `4` are removed. -/
theorem C13_reference_elsewhere_counted :
    ((lifetime_t.new util.modelled (fade_table_example : matrix_t ℚ)
        >>= fun s => lifetime_t.rainflow_all util.modelled s [0, 1, 3, 4]).result?.map
      (fun s => (s.Slt, s.cycles_elapsed, s.Peaks)))
      = some (1, 0, [0, 1, 3, 4])
    ∧ ((lifetime_t.new util.modelled (fade_table_example : matrix_t ℚ)
        >>= fun s => lifetime_t.rainflow_all util.modelled s [0, 1, 3, 4, 5]).result?.map
      (fun s => (s.cycles_elapsed, s.Range, s.Peaks)))
      = some (1, 1, [0, 1, 5]) := by
  constructor <;> decide!

/-- C14 (evaluation of the code): a fresh model fed `0, 10, 5, 15, 0` has counted one cycle
of range `5` and holds the buffer `[0, 15, 0]`; `rainflow_finish` then counts one more
cycle, of range `0` (the wrap-around range between the first and the last point), and
leaves the buffer `[15]`: `cycles_elapsed() = 2`, the average range is `5/2`, and the
range `15` is never counted. -/
theorem C14_textbook_sequence :
    ((lifetime_t.new util.modelled (fade_table_example : matrix_t ℚ)
        >>= fun s => lifetime_t.rainflow_all util.modelled s [0, 10, 5, 15, 0]).result?.map
      (fun s => (s.cycles_elapsed, s.Range, s.average_range, s.Peaks)))
      = some (1, 5, 5, [0, 15, 0])
    ∧ ((lifetime_t.new util.modelled (fade_table_example : matrix_t ℚ)
        >>= fun s => lifetime_t.rainflow_all util.modelled s [0, 10, 5, 15, 0]
        >>= lifetime_t.rainflow_finish util.modelled 10).result?.map
      (fun s => (s.cycles_elapsed, s.Range, s.average_range, s.Peaks)))
      = some (2, 0, 5 / 2, [15]) := by
  constructor <;> decide!

/-- C15 (the claim as stated fails): on a fresh model the non-decreasing-then-constant
sequence `0, 5, 5, 5` counts a cycle (of range `0`) at its fourth sample, and the
increasing sequence `0, 10, 20, 30` counts a cycle (of range `10`) at its fourth sample. -/
theorem C15_monotone_input_counts :
    ((lifetime_t.new util.modelled (fade_table_example : matrix_t ℚ)
        >>= fun s => lifetime_t.rainflow_all util.modelled s [0, 5, 5, 5]).result?.map
      (fun s => (s.cycles_elapsed, s.Range)))
      = some (1, 0)
    ∧ ((lifetime_t.new util.modelled (fade_table_example : matrix_t ℚ)
        >>= fun s => lifetime_t.rainflow_all util.modelled s [0, 10, 20, 30]).result?.map
      (fun s => (s.cycles_elapsed, s.Range)))
      = some (1, 10) := by
  constructor <;> decide!

/-- C16 (evaluation of the code): a fresh model fed `50, 0, 100, 1, 100` counts one cycle
of range `99`; the 40 % counter becomes `1` and the 98 % counter stays `0`.  In general the
counting block never changes the 98 % counter. -/
theorem C16_hundred_percent_never_counted :
    ((lifetime_t.new util.modelled (fade_table_example : matrix_t ℚ)
        >>= fun s => lifetime_t.rainflow_all util.modelled s [50, 0, 100, 1, 100]).result?.map
      (fun s => (s.cycles_elapsed, s.Range, s.forty_percent_cycles,
        s.hundred_percent_cycles)))
      = some (1, 99, 1, 0)
    ∧ ∀ (u : util_t ℚ) (s : lifetime_t ℚ),
        (((lifetime_t.count_range u s).result?.map
          (fun s1 => s1.hundred_percent_cycles)).getD s.hundred_percent_cycles)
          = s.hundred_percent_cycles := by
  constructor
  · decide!
  · intro u s
    by_cases h : s.DOD_vect = []
    · simp [lifetime_t.count_range, lifetime_t.bilinear, h, Outcome.result?]
    · obtain ⟨s1, h1, _, _, _, _, h100, _⟩ := count_range_done u s h
      simp [h1, Outcome.result?, lifetime_t.hundred_percent_cycles, h100]

/-- C17 (evaluation of the code): with the example fade table (capacity non-increasing in
cycles for each DOD and in DOD at equal cycles) and the modelled interpolation,
`bilinear(20, 500) = 93.75` is below `bilinear(21, 500) = 94.666...`: at the tabulated
depth `20` the bracket is `(0, 80)`, the rows of depth `20` are not used. -/
theorem C17_bilinear_not_monotone_in_DOD :
    (lifetime_t.bilinear util.modelled
        (lifetime_t.example_state ([] : List ℚ) 0 0 0) 20 500) = Outcome.done (375 / 4)
    ∧ (lifetime_t.bilinear util.modelled
        (lifetime_t.example_state ([] : List ℚ) 0 0 0) 21 500) = Outcome.done (284 / 3)
    ∧ lifetime_t.bracket (20 : ℚ) [20, 20, 80, 80] = (0, 80)
    ∧ lifetime_t.bracket (21 : ℚ) [20, 20, 80, 80] = (20, 80) := by
  refine ⟨?_, ?_, ?_, ?_⟩ <;> decide!

/-- C18 (evaluation of the code): with the example fade table and the modelled
interpolation, at `5000` cycles the value along the `D_hi = 80` curve is `-150` and is not
raised to `0`, and `bilinear(50, 5000) = -50`; with the capacity `105` in a table row the
value along the `D_lo = 20` curve at `0` cycles is `105` and is not lowered to `100`, and
`bilinear(21, 0) = 104.9166...`. -/
theorem C18_bilinear_leaves_range :
    (lifetime_t.bilinear util.modelled
        (lifetime_t.example_state ([] : List ℚ) 0 0 0) 50 5000) = Outcome.done (-50)
    ∧ (lifetime_t.bilinear util.modelled
        ({ lifetime_t.example_state ([] : List ℚ) 0 0 0 with
            capacities_vect := [105, 90, 105, 50] }) 21 0) = Outcome.done (1259 / 12) := by
  constructor <;> decide!

/-- C19 (evaluation of the code): for a table with zero rows the constructor copies no row
and then runs `bilinear(0., 0)`, which reads `_DOD_vect[0]` of the empty vector: the
construction is undefined behaviour, whatever `lib_util` does. -/
theorem C19_zero_rows_undefined {K : Type} [LinearOrderedField K] (u : util_t K)
    (ncols : Nat) (data : List K) :
    lifetime_t.new u { nrows := 0, ncols := ncols, data := data } = Outcome.undefined := by
  simp [lifetime_t.new, lifetime_t.read_columns, lifetime_t.bilinear]

end LifeClosed

section DispatchTheorems

variable {K : Type} [LinearOrderedField K]

/-- C21: the closed form of `thermal_t::trapezoidal` solves the trapezoidal equation.
For every state, current `I` and step `dt` with `mass*Cp ≠ 0` and
`1 + dt*h*A/(2*mass*Cp) ≠ 0`, the returned value `T_new` satisfies
`T_new = T_old + (dt/2) * (f(T_old, I) + f(T_new, I))`, where `thermal_t::f` is
`f(T, I) = (h*A*(T_room - T) + I^2*R) / (mass*Cp)`. -/
theorem C21_trapezoidal_solves_implicit_equation (t : thermal_t K) (I dt : K)
    (hm : t.mass * t.Cp ≠ 0) (hden : 1 + dt * t.h * t.A / (2 * t.mass * t.Cp) ≠ 0) :
    t.trapezoidal I dt
        = t.T_battery + (dt / 2) * (t.f t.T_battery I + t.f (t.trapezoidal I dt) I)
    ∧ ∀ T : K, t.f T I = (t.h * t.A * (t.T_room - T) + I ^ 2 * t.R) / (t.mass * t.Cp) := by
  obtain ⟨hmass, hCp⟩ := mul_ne_zero_iff.mp hm
  have hf : ∀ T : K, t.f T I
      = (t.h * t.A * (t.T_room - T) + I ^ 2 * t.R) / (t.mass * t.Cp) := by
    intro T
    simp only [thermal_t.f]
    field_simp
    ring
  have hD : 1 + 0.5 * dt * (1 / (t.mass * t.Cp)) * (t.h * t.A) ≠ 0 := by
    have : 1 + 0.5 * dt * (1 / (t.mass * t.Cp)) * (t.h * t.A)
        = 1 + dt * t.h * t.A / (2 * t.mass * t.Cp) := by
      rw [show (0.5 : K) = 1 / 2 by norm_num]
      field_simp
      ring
    rw [this]
    exact hden
  have hfl : ∀ T : K, t.f T I
      = (1 / (t.mass * t.Cp)) * ((t.h * t.A) * t.T_room + I ^ 2 * t.R)
        - (1 / (t.mass * t.Cp)) * (t.h * t.A) * T := by
    intro T
    simp only [thermal_t.f]
    ring
  refine ⟨?_, hf⟩
  have hD' : t.mass * t.Cp * 2 + dt * (t.h * t.A) ≠ 0 := by
    intro h0
    apply hden
    field_simp
    linear_combination h0
  have hT : t.trapezoidal I dt
      = (t.T_battery * (t.mass * t.Cp * 2) + dt * (t.mass * t.Cp * t.f t.T_battery I
          + ((t.h * t.A) * t.T_room + I ^ 2 * t.R)))
        / (t.mass * t.Cp * 2 + dt * (t.h * t.A)) := by
    simp only [thermal_t.trapezoidal]
    rw [show (0.5 : K) = 1 / 2 by norm_num] at hD ⊢
    rw [div_eq_div_iff hD hD']
    field_simp
    ring
  rw [hfl (t.trapezoidal I dt), hT]
  field_simp
  ring

/-- The branches of `losses_t::run_losses`.  The comparison is with the member `_nCycle`
of the losses object, which the constructor sets to `0` and which is increased by one each
time the lifetime derate is applied.  With
`I > 0` and `cycles_elapsed() > _nCycle` the lifetime derate is applied, then the thermal
derate, and `_nCycle` increases by one; with `I > 0` and `cycles_elapsed() ≤ _nCycle` only
the thermal derate is applied; with `I ≤ 0` the capacity and `_nCycle` are unchanged. -/
theorem run_losses_gating (u : util_t K) (l : losses_t) (lifetime : lifetime_t K)
    (thermal : thermal_t K) (c : capacity_model K) :
    (c.I > 0 → lifetime.cycles_elapsed > l.nCycle →
      losses_t.run_losses u l lifetime thermal c
        = ({ nCycle := l.nCycle + 1 },
           (c.updateCapacityForLifetime lifetime.capacity_percent).updateCapacityForThermal
             (thermal.get_capacity_percent u)))
    ∧ (c.I > 0 → lifetime.cycles_elapsed ≤ l.nCycle →
      losses_t.run_losses u l lifetime thermal c
        = (l, c.updateCapacityForThermal (thermal.get_capacity_percent u)))
    ∧ (c.I ≤ 0 → losses_t.run_losses u l lifetime thermal c = (l, c))
    ∧ losses_t.new.nCycle = 0 := by
  refine ⟨?_, ?_, ?_, rfl⟩
  · intro hI hn
    simp only [losses_t.run_losses, losses_t.lifetime_losses, if_pos hI, if_pos hn]
  · intro hI hn
    simp only [losses_t.run_losses, losses_t.lifetime_losses, if_pos hI,
      if_neg (not_lt.mpr hn)]
  · intro hI
    simp only [losses_t.run_losses, if_neg (not_lt.mpr hI)]

/-- C22 (evaluation of the code): `run_losses` compares `cycles_elapsed()` with its member
`_nCycle` and then raises `_nCycle` by one.  When the cycle count is ahead of `_nCycle` by
more than one, two successive invocations with a discharging current both apply the
lifetime derate before the thermal derate, although the lifetime model is the same at both
invocations, so that its cycle count at the second is not larger than at the first. -/
theorem C22_lifetime_derate_repeated (u : util_t K) (l : losses_t) (lifetime : lifetime_t K)
    (thermal : thermal_t K) (c c1 : capacity_model K) (hI : c.I > 0) (hI1 : c1.I > 0)
    (hn : lifetime.cycles_elapsed > l.nCycle + 1) :
    losses_t.run_losses u l lifetime thermal c
      = ({ nCycle := l.nCycle + 1 },
         (c.updateCapacityForLifetime lifetime.capacity_percent).updateCapacityForThermal
           (thermal.get_capacity_percent u))
    ∧ losses_t.run_losses u (losses_t.run_losses u l lifetime thermal c).1 lifetime thermal c1
      = ({ nCycle := l.nCycle + 1 + 1 },
         (c1.updateCapacityForLifetime lifetime.capacity_percent).updateCapacityForThermal
           (thermal.get_capacity_percent u)) := by
  have hn0 : lifetime.cycles_elapsed > l.nCycle := by
    have : l.nCycle < l.nCycle + 1 := by omega
    exact lt_trans this hn
  have h1 : losses_t.run_losses u l lifetime thermal c
      = ({ nCycle := l.nCycle + 1 },
         (c.updateCapacityForLifetime lifetime.capacity_percent).updateCapacityForThermal
           (thermal.get_capacity_percent u)) := by
    simp only [losses_t.run_losses, losses_t.lifetime_losses, if_pos hI, if_pos hn0]
  refine ⟨h1, ?_⟩
  rw [h1]
  simp only [losses_t.run_losses, losses_t.lifetime_losses, if_pos hI1, if_pos hn]

/-- C23: lifetime sampling of `battery_t::run`.  The lifetime state after `run(P)` (and
whether `run` completes) is that of one call `rainflow(prev_DOD())`, with `prev_DOD()` read
at entry, when `chargeChanged()` holds at entry or `_firstStep` is set, and is the state at
entry otherwise; after `run` the flag `_firstStep` is cleared, and `initialize` sets it. -/
theorem C23_run_lifetime_sampling (exp : K → K) (u : util_t K) (hours_to_seconds : K)
    (b : battery_t K) (P : K) :
    (battery_t.run exp u hours_to_seconds b P >>= fun b1 => pure (b1.lifetime, b1.firstStep))
      = (if b.capacity.chargeChanged = true ∨ b.firstStep = true then
          b.lifetime.rainflow u b.capacity.prev_DOD >>= fun lifetime => pure (lifetime, false)
        else pure (b.lifetime, false))
    ∧ ∀ (e dt : K) (capacity : capacity_model K) (voltage : voltage_t K)
        (lifetime : lifetime_t K) (thermal : thermal_t K) (losses : losses_t),
        ( battery_t.initialize e dt capacity voltage lifetime thermal losses).firstStep
          = true := by
  refine ⟨?_, fun _ _ _ _ _ _ _ => rfl⟩
  simp only [battery_t.run, battery_t.run_lifetime]
  by_cases hc : b.capacity.chargeChanged = true ∨ b.firstStep = true
  · have hc' : (b.capacity.chargeChanged || b.firstStep) = true := by
      simpa [Bool.or_eq_true] using hc
    rw [if_pos hc, if_pos hc']
    cases b.lifetime.rainflow u b.capacity.prev_DOD <;> rfl
  · have hc' : ¬ (b.capacity.chargeChanged || b.firstStep) = true := by
      simpa [Bool.or_eq_true] using hc
    rw [if_neg hc, if_neg hc']
    have hf : b.firstStep = false := by
      cases hb : b.firstStep
      · rfl
      · exact absurd (Or.inr hb) hc
    simp only [Outcome.pure_eq_done, Outcome.bind_done, battery_t.run_models, hf]

/-- C24: surplus branch of `dispatch_manual_t::dispatch`.  With `e_pv > e_load` the energy
commanded before the bank is run is `-(e_pv - e_load)` if charging is allowed, unless
grid charging is allowed too and `e_pv - e_load < energyNeededToFill`, in which case it is
`-energyNeededToFill`; it is `-energyNeededToFill` if only grid charging is allowed and `0`
if neither is.  For `e_pv = 10`, `e_load = 4`, charging allowed and grid charging not, it
is `-6`.  With `kilowatt_to_watt = 1000` the bank is run at `1000 * commanded / dt`. -/
theorem C24_dispatch_surplus (exp : K → K) (u : util_t K)
    (hours_to_seconds watt_to_kilowatt : K) (d : dispatch_manual_t K) (hour_of_year : Nat)
    (can_charge can_discharge can_grid_charge : Bool) (e_pv e_load fill : K)
    (h : e_pv > e_load) :
    (can_charge = true → ¬ (can_grid_charge = true ∧ e_pv - e_load < fill) →
      dispatch_manual_t.commanded_energy can_charge can_discharge can_grid_charge
        e_pv e_load fill = -(e_pv - e_load))
    ∧ (can_charge = true → can_grid_charge = true → e_pv - e_load < fill →
      dispatch_manual_t.commanded_energy can_charge can_discharge can_grid_charge
        e_pv e_load fill = -fill)
    ∧ (can_charge = false → can_grid_charge = true →
      dispatch_manual_t.commanded_energy can_charge can_discharge can_grid_charge
        e_pv e_load fill = -fill)
    ∧ (can_charge = false → can_grid_charge = false →
      dispatch_manual_t.commanded_energy can_charge can_discharge can_grid_charge
        e_pv e_load fill = 0)
    ∧ dispatch_manual_t.commanded_energy true can_discharge false (10 : K) 4 fill = -6
    ∧ dispatch_manual_t.dispatch exp u hours_to_seconds watt_to_kilowatt 1000 d
          hour_of_year e_pv e_load
        = (d.read_profile hour_of_year >>= fun d1 =>
            d1.BatteryBank.run exp u hours_to_seconds
              (1000 * dispatch_manual_t.commanded_energy d1.can_charge d1.can_discharge
                d1.can_grid_charge e_pv e_load (d1.energyNeededToFill watt_to_kilowatt)
                / d1.dt) >>= fun bank =>
            pure (d1.allocate bank d1.BatteryBank.bank_voltage e_pv e_load)) := by
  refine ⟨?_, ?_, ?_, ?_, ?_, rfl⟩
  · intro hc hg
    simp only [dispatch_manual_t.commanded_energy, if_pos h, hc, if_true]
    rw [if_neg (fun hh => hg ⟨hh.2, hh.1⟩)]
  · intro hc hg hlt
    simp only [dispatch_manual_t.commanded_energy, if_pos h, hc, if_true]
    rw [if_pos ⟨hlt, hg⟩]
  · intro hc hg
    simp [dispatch_manual_t.commanded_energy, if_pos h, hc, hg]
  · intro hc hg
    simp [dispatch_manual_t.commanded_energy, if_pos h, hc, hg]
  · have h10 : (10 : K) > 4 := by norm_num
    simp only [dispatch_manual_t.commanded_energy, if_pos h10]
    norm_num

/-- C25: deficit branch of `dispatch_manual_t::dispatch`.  With `e_load ≥ e_pv` the energy
commanded before the bank is run is `e_load - e_pv` if discharging is allowed (whatever the
grid-charge permission), `-energyNeededToFill` if discharging is not allowed and grid
charging is, and `0` if neither is.  For `e_pv = 4`, `e_load = 10` and discharging allowed
it is `6`. -/
theorem C25_dispatch_deficit (can_charge can_discharge can_grid_charge : Bool)
    (e_pv e_load fill : K) (h : e_load ≥ e_pv) :
    (can_discharge = true →
      dispatch_manual_t.commanded_energy can_charge can_discharge can_grid_charge
        e_pv e_load fill = e_load - e_pv)
    ∧ (can_discharge = false → can_grid_charge = true →
      dispatch_manual_t.commanded_energy can_charge can_discharge can_grid_charge
        e_pv e_load fill = -fill)
    ∧ (can_discharge = false → can_grid_charge = false →
      dispatch_manual_t.commanded_energy can_charge can_discharge can_grid_charge
        e_pv e_load fill = 0)
    ∧ dispatch_manual_t.commanded_energy can_charge true can_grid_charge (4 : K) 10 fill
        = 6 := by
  have hn : ¬ e_pv > e_load := not_lt.mpr h
  refine ⟨?_, ?_, ?_, ?_⟩
  · intro hd
    simp [dispatch_manual_t.commanded_energy, if_neg hn, if_pos h, hd]
  · intro hd hg
    simp [dispatch_manual_t.commanded_energy, if_neg hn, if_pos h, hd, hg]
  · intro hd hg
    simp [dispatch_manual_t.commanded_energy, if_neg hn, if_pos h, hd, hg]
  · have h1 : ¬ (4 : K) > 10 := by norm_num
    have h2 : (10 : K) ≥ 4 := by norm_num
    simp only [dispatch_manual_t.commanded_energy, if_neg h1, if_pos h2, if_true]
    norm_num

/-- C26: load allocation of `dispatch_manual_t::dispatch`.  After every completed call,
`pv_to_load + battery_to_load + grid_to_load = e_load`, `pv_to_load = min(e_pv, e_load)`,
and `battery_to_load = grid_to_load = 0` when `e_pv > e_load`. -/
theorem C26_dispatch_load_allocation (exp : K → K) (u : util_t K)
    (hours_to_seconds watt_to_kilowatt kilowatt_to_watt : K) (d d1 : dispatch_manual_t K)
    (hour_of_year : Nat) (e_pv e_load : K)
    (h : dispatch_manual_t.dispatch exp u hours_to_seconds watt_to_kilowatt kilowatt_to_watt
          d hour_of_year e_pv e_load = Outcome.done d1) :
    d1.pv_to_load + d1.battery_to_load + d1.grid_to_load = e_load
    ∧ d1.pv_to_load = min e_pv e_load
    ∧ (e_pv > e_load → d1.battery_to_load = 0 ∧ d1.grid_to_load = 0) := by
  obtain ⟨d0, bank, _, _, rfl⟩ := dispatch_done exp u hours_to_seconds watt_to_kilowatt
    kilowatt_to_watt d d1 hour_of_year e_pv e_load h
  simp only [dispatch_manual_t.allocate]
  by_cases hs : e_pv > e_load
  · simp only [if_pos hs, add_zero, min_eq_right hs.le]
    exact ⟨trivial, trivial, fun _ => ⟨trivial, trivial⟩⟩
  · simp only [if_neg hs, min_eq_left (not_lt.mp hs)]
    exact ⟨by ring, trivial, fun h => absurd h hs⟩

/-- C27: the flows to the load are not negative.  For `e_pv ≥ 0`, `e_load ≥ 0`, positive
time steps of the dispatcher and of the battery, a coulomb-counting battery with
`0 ≤ q0 ≤ qmax`, a positive cell voltage and cell count, a positive series count, a battery
count that is not negative, `watt_to_kilowatt ≥ 0` and `kilowatt_to_watt = 1000`, after a
completed `dispatch` the three flows `pv_to_load`, `battery_to_load` and `grid_to_load`
are `≥ 0`. -/
theorem C27_dispatch_flows_nonneg (exp : K → K) (u : util_t K)
    (hours_to_seconds watt_to_kilowatt : K) (d d1 : dispatch_manual_t K)
    (c : capacity_t K) (hour_of_year : Nat) (e_pv e_load : K)
    (hpv : 0 ≤ e_pv) (hload : 0 ≤ e_load) (hdt : 0 < d.dt)
    (hbdt : 0 < d.BatteryBank.battery.dt)
    (hc : d.BatteryBank.battery.capacity = capacity_model.lithium_ion c)
    (h0 : 0 ≤ c.q0) (h1 : c.q0 ≤ c.qmax)
    (hcell : 0 < d.BatteryBank.battery.voltage.cell_voltage)
    (hcells : 0 < d.BatteryBank.battery.voltage.num_cells)
    (hs : 0 < d.BatteryBank.num_batteries_series)
    (hn : 0 ≤ d.BatteryBank.num_batteries)
    (hw : 0 ≤ watt_to_kilowatt)
    (h : dispatch_manual_t.dispatch exp u hours_to_seconds watt_to_kilowatt 1000
          d hour_of_year e_pv e_load = Outcome.done d1) :
    0 ≤ d1.pv_to_load ∧ 0 ≤ d1.battery_to_load ∧ 0 ≤ d1.grid_to_load := by
  obtain ⟨d0, bank, hprofile, hrun, rfl⟩ := dispatch_done exp u hours_to_seconds
    watt_to_kilowatt 1000 d d1 hour_of_year e_pv e_load h
  obtain ⟨eb, edt⟩ := read_profile_done d d0 hour_of_year hprofile
  have hbat := bank_run_done exp u hours_to_seconds _ _ _ hrun
  have hI := battery_run_lithium_I exp u hours_to_seconds _ _ c _ (by rw [eb]; exact hc) hbat
  rw [eb] at hI
  have hbtw := lithium_core_I_between c
    (d0.commanded_power watt_to_kilowatt 1000 e_pv e_load
      / (d.BatteryBank.num_batteries_series : K))
    d.BatteryBank.battery.voltage.battery_voltage d.BatteryBank.battery.dt hbdt h0 h1
  rw [← hI] at hbtw
  -- the bank voltage and the energy per unit of current
  have hcellsK : (0 : K) < (d.BatteryBank.battery.voltage.num_cells : K) :=
    Int.cast_pos.mpr hcells
  have hsK : (0 : K) < (d.BatteryBank.num_batteries_series : K) := Int.cast_pos.mpr hs
  have hV : 0 < d.BatteryBank.battery.voltage.battery_voltage := mul_pos hcellsK hcell
  have hfill : 0 ≤ d0.energyNeededToFill watt_to_kilowatt := by
    simp only [dispatch_manual_t.energyNeededToFill, battery_bank_t.bank_charge_needed,
      battery_bank_t.cell_voltage, battery_t.cell_voltage, battery_t.chargeNeededToFill, eb]
    have hnK : (0 : K) ≤ (d.BatteryBank.num_batteries : K) := Int.cast_nonneg.mpr hn
    have hneed : 0 ≤ (if d.BatteryBank.battery.capacity.qmax
        - d.BatteryBank.battery.capacity.q0 > 0
      then d.BatteryBank.battery.capacity.qmax - d.BatteryBank.battery.capacity.q0
      else (0 : K)) := by
      split_ifs with hh
      · exact hh.le
      · exact le_refl _
    exact mul_nonneg (mul_nonneg (mul_nonneg hnK hneed) hcell.le) hw
  have hE : ¬ e_pv > e_load →
      dispatch_manual_t.commanded_energy d0.can_charge d0.can_discharge d0.can_grid_charge
        e_pv e_load (d0.energyNeededToFill watt_to_kilowatt) ≤ e_load - e_pv := by
    intro hd
    have hd' : e_pv ≤ e_load := not_lt.mp hd
    simp only [dispatch_manual_t.commanded_energy, if_neg hd, if_pos (ge_iff_le.mpr hd')]
    split_ifs <;> linarith
  have hw0 : 0 < (d.BatteryBank.num_batteries_series : K)
      * d.BatteryBank.battery.voltage.battery_voltage * d.dt / 1000 :=
    div_pos (mul_pos (mul_pos hsK hV) hdt) (by norm_num)
  have hfull : d0.commanded_power watt_to_kilowatt 1000 e_pv e_load
        / (d.BatteryBank.num_batteries_series : K)
        / d.BatteryBank.battery.voltage.battery_voltage
        * ((d.BatteryBank.num_batteries_series : K)
            * d.BatteryBank.battery.voltage.battery_voltage * d.dt / 1000)
      = dispatch_manual_t.commanded_energy d0.can_charge d0.can_discharge d0.can_grid_charge
        e_pv e_load (d0.energyNeededToFill watt_to_kilowatt) := by
    simp only [dispatch_manual_t.commanded_power, edt]
    have h1 := hsK.ne'
    have h2 := hV.ne'
    have h3 := hdt.ne'
    field_simp
    ring
  have hreal : bank.battery.capacity.I * d0.BatteryBank.bank_voltage * d0.dt / 1000
        ≤ dispatch_manual_t.commanded_energy d0.can_charge d0.can_discharge
            d0.can_grid_charge e_pv e_load (d0.energyNeededToFill watt_to_kilowatt)
      ∨ bank.battery.capacity.I * d0.BatteryBank.bank_voltage * d0.dt / 1000 ≤ 0 := by
    have hform : bank.battery.capacity.I * d0.BatteryBank.bank_voltage * d0.dt / 1000
        = bank.battery.capacity.I * ((d.BatteryBank.num_batteries_series : K)
            * d.BatteryBank.battery.voltage.battery_voltage * d.dt / 1000) := by
      simp only [battery_bank_t.bank_voltage, battery_t.battery_voltage, eb, edt]
      ring
    rw [hform]
    rcases hbtw with ⟨_, hle⟩ | ⟨_, hle⟩
    · left
      rw [← hfull]
      exact mul_le_mul_of_nonneg_right hle hw0.le
    · right
      exact mul_nonpos_of_nonpos_of_nonneg hle hw0.le
  simp only [dispatch_manual_t.allocate]
  by_cases hsurplus : e_pv > e_load
  · simp only [if_pos hsurplus]
    exact ⟨hload, le_refl _, le_refl _⟩
  · simp only [if_neg hsurplus]
    have hEd := hE hsurplus
    have hd' : e_pv ≤ e_load := not_lt.mp hsurplus
    refine ⟨hpv, ?_, ?_⟩
    · split_ifs with hp
      · exact hp.le
      · exact le_refl _
    · split_ifs with hp
      · rcases hreal with hr | hr <;> linarith
      · linarith

/-- C28: round trip of the realized energy.  With `kilowatt_to_watt = 1000`, a series
count, a time step and a battery voltage that are not zero, and a battery whose reported
current is the forwarded power divided by the battery voltage read before the step, the
energy `_e_tofrom_batt` recomputed by `dispatch` (`current * bank_voltage * dt / 1000`,
`bank_voltage` the series count times the battery voltage) is the commanded energy, and
`_e_grid = e_pv + _e_tofrom_batt - e_load`; `battery_bank_t::run(P)` runs the battery at
`P` divided by the series count. -/
theorem C28_realized_energy_round_trip (exp : K → K) (u : util_t K)
    (hours_to_seconds watt_to_kilowatt : K) (d d0 d1 : dispatch_manual_t K)
    (hour_of_year : Nat) (e_pv e_load : K)
    (hprofile : d.read_profile hour_of_year = Outcome.done d0)
    (h : dispatch_manual_t.dispatch exp u hours_to_seconds watt_to_kilowatt 1000
          d hour_of_year e_pv e_load = Outcome.done d1)
    (hs : d.BatteryBank.num_batteries_series ≠ 0) (hdt : d.dt ≠ 0)
    (hV : d.BatteryBank.battery.battery_voltage ≠ 0)
    (hI : d1.BatteryBank.battery.capacity.I
        = d0.commanded_power watt_to_kilowatt 1000 e_pv e_load
            / (d.BatteryBank.num_batteries_series : K)
          / d.BatteryBank.battery.battery_voltage) :
    d1.e_tofrom_batt
        = dispatch_manual_t.commanded_energy d0.can_charge d0.can_discharge
            d0.can_grid_charge e_pv e_load (d0.energyNeededToFill watt_to_kilowatt)
    ∧ d1.e_tofrom_batt
        = d1.BatteryBank.battery.capacity.I * d.BatteryBank.bank_voltage * d.dt / 1000
    ∧ d.BatteryBank.bank_voltage
        = (d.BatteryBank.num_batteries_series : K) * d.BatteryBank.battery.battery_voltage
    ∧ d1.e_grid = e_pv + d1.e_tofrom_batt - e_load
    ∧ ∀ P : K, d.BatteryBank.run exp u hours_to_seconds P
        = (d.BatteryBank.battery.run exp u hours_to_seconds
            (P / (d.BatteryBank.num_batteries_series : K)) >>= fun battery =>
            pure { d.BatteryBank with battery := battery }) := by
  obtain ⟨d0', bank, h0, _, rfl⟩ := dispatch_done exp u hours_to_seconds watt_to_kilowatt
    1000 d d1 hour_of_year e_pv e_load h
  rw [hprofile] at h0
  obtain rfl := Outcome.done.inj h0
  obtain ⟨eb, edt⟩ := read_profile_done d d0 hour_of_year hprofile
  have hs' : (d.BatteryBank.num_batteries_series : K) ≠ 0 := Int.cast_ne_zero.mpr hs
  have hV' : d.BatteryBank.battery.voltage.battery_voltage ≠ 0 := hV
  have hrt : (d0.allocate bank d0.BatteryBank.bank_voltage e_pv e_load).e_tofrom_batt
      = (d0.allocate bank d0.BatteryBank.bank_voltage e_pv e_load).BatteryBank.battery.capacity.I
          * d.BatteryBank.bank_voltage * d.dt / 1000 := by
    simp only [dispatch_manual_t.allocate, eb, edt]
  refine ⟨?_, hrt, rfl, rfl, fun P => rfl⟩
  rw [hrt, hI]
  simp only [dispatch_manual_t.commanded_power, battery_bank_t.bank_voltage,
    battery_t.battery_voltage, edt]
  field_simp
  ring

end DispatchTheorems

section DispatchClosed

/-- C29: the function `getMonthHour` on `0 ≤ hourOfYear < 8760`.  The month lies in
`1..12` and is the calendar month whose hours contain `hourOfYear` (`month_start`, non-leap
year); the hour is `(hourOfYear + 1) - 24 * floor(hourOfYear / 24) = hourOfYear mod 24 + 1`
and lies in `1..24`; the access `_sched(m - 1, h - 1)` is inside the 12 by 24 schedule. -/
theorem C29_getMonthHour (hourOfYear : Int) (h0 : 0 ≤ hourOfYear) (h1 : hourOfYear < 8760)
    (sched : Fin 12 → Fin 24 → ℚ) :
    1 ≤ (getMonthHour hourOfYear).1 ∧ (getMonthHour hourOfYear).1 ≤ 12
    ∧ month_start (getMonthHour hourOfYear).1 ≤ hourOfYear
    ∧ hourOfYear < month_start (getMonthHour hourOfYear).1
        + util.hours_in_month (getMonthHour hourOfYear).1
    ∧ (getMonthHour hourOfYear).2 = (hourOfYear + 1) - 24 * ⌊(hourOfYear : ℚ) / 24⌋
    ∧ (getMonthHour hourOfYear).2 = hourOfYear % 24 + 1
    ∧ 1 ≤ (getMonthHour hourOfYear).2 ∧ (getMonthHour hourOfYear).2 ≤ 24
    ∧ ∃ entry, sched_at sched ((getMonthHour hourOfYear).1 - 1)
        ((getMonthHour hourOfYear).2 - 1) = Outcome.done entry := by
  obtain ⟨a, b, c, d, e⟩ := getMonthHour_loop_spec hourOfYear h1 12 1 0 (by norm_num)
    (by norm_num) (by decide) h0
  have e' : (getMonthHour hourOfYear).2 = (hourOfYear + 1) - (hourOfYear / 24) * 24 := e
  have a' : 1 ≤ (getMonthHour hourOfYear).1 := a
  have b' : (getMonthHour hourOfYear).1 ≤ 12 := b
  refine ⟨a, b, c, d, ?_, ?_, ?_, ?_, ?_⟩
  · rw [getMonthHour_floor, e']; ring
  · rw [e']; omega
  · rw [e']; omega
  · rw [e']; omega
  · have hidx : 0 ≤ (getMonthHour hourOfYear).1 - 1 ∧ (getMonthHour hourOfYear).1 - 1 < 12
        ∧ 0 ≤ (getMonthHour hourOfYear).2 - 1 ∧ (getMonthHour hourOfYear).2 - 1 < 24 := by
      rw [e']; omega
    rw [sched_at, dif_pos hidx]
    exact ⟨_, rfl⟩

/-- C30 (amended): the dynamic voltage model is monotone in the charge for ordered
reference points.  With `Vnom ≤ Vexp ≤ Vfull` and `0 < Qnom ≤ Qfull` the fitted `K` is
`≥ 0`, so for every `I` and `Q > 0` the value `voltage_model(Q, I, q0)` does not decrease
when `q0` increases; and with a cell count `n ≠ 0`, `updateVoltage` sets the cell voltage to
`E0 - R*(I/n) - K*(1 - q0/Q)`. -/
theorem C30_voltage_monotone_for_ordered_points (pts : voltage_dynamic_t ℝ) (v : voltage_t ℝ)
    (hV1 : pts.Vnom ≤ pts.Vexp) (hV2 : pts.Vexp ≤ pts.Vfull)
    (hQ1 : 0 < pts.Qnom) (hQ2 : pts.Qnom ≤ pts.Qfull)
    (hd : v.dynamic = some (voltage_dynamic_t.parameter_compute Real.exp pts))
    (hn : v.num_cells ≠ 0) :
    (∀ Q I q0 dt : ℝ, (v.updateVoltage Q I q0 dt).cell_voltage
        = (voltage_dynamic_t.parameter_compute Real.exp pts).E0
          - (voltage_dynamic_t.parameter_compute Real.exp pts).R * (I / (v.num_cells : ℝ))
          - (voltage_dynamic_t.parameter_compute Real.exp pts).K_ * (1 - q0 / Q))
    ∧ 0 ≤ (voltage_dynamic_t.parameter_compute Real.exp pts).K_
    ∧ ∀ Q I q0a q0b : ℝ, 0 < Q → q0a ≤ q0b →
        (voltage_dynamic_t.parameter_compute Real.exp pts).voltage_model Q I q0a
          ≤ (voltage_dynamic_t.parameter_compute Real.exp pts).voltage_model Q I q0b := by
  have hK := parameter_compute_K_nonneg pts hV1 hV2 hQ1 hQ2
  refine ⟨fun Q I q0 dt => updateVoltage_dynamic v _ Q I q0 dt hd (Int.cast_ne_zero.mpr hn),
    hK, fun Q I q0a q0b hQ h => voltage_model_mono _ Q I q0a q0b hK hQ h⟩

/-- C30 (the claim as stated fails): for the reference points 4.1 V, 4.05 V, 3.4 V,
`Qfull = 2.25`, `Qexp = 0.04` and a nominal charge `Qnom = 2.5` above the full charge, the
fitted `K` is negative and the voltage at `Q = 1`, `I = 0` is lower at `q0 = 1` than at
`q0 = 0`. -/
theorem C30_voltage_decreases_with_charge :
    (0 : ℝ) < 1 ∧ (0 : ℝ) ≤ 1
    ∧ (voltage_dynamic_t.parameter_compute Real.exp
          { (voltage_dynamic_t.example_points : voltage_dynamic_t ℝ) with Qnom := 2.5 }).K_ < 0
    ∧ (voltage_dynamic_t.parameter_compute Real.exp
          { (voltage_dynamic_t.example_points : voltage_dynamic_t ℝ) with Qnom := 2.5 }
        ).voltage_model 1 0 1
      < (voltage_dynamic_t.parameter_compute Real.exp
          { (voltage_dynamic_t.example_points : voltage_dynamic_t ℝ) with Qnom := 2.5 }
        ).voltage_model 1 0 0 := by
  have he : 0 < Real.exp (-(3 / (0.04 : ℝ)) * 2.5) := Real.exp_pos _
  have hK : (voltage_dynamic_t.parameter_compute Real.exp
      { (voltage_dynamic_t.example_points : voltage_dynamic_t ℝ) with Qnom := 2.5 }).K_ < 0 := by
    simp only [voltage_dynamic_t.parameter_compute, voltage_dynamic_t.example_points]
    apply div_neg_of_neg_of_pos _ (by norm_num)
    apply mul_neg_of_pos_of_neg _ (by norm_num)
    nlinarith
  refine ⟨by norm_num, by norm_num, hK, ?_⟩
  simp only [voltage_dynamic_t.voltage_model]
  simp only [div_one, sub_self, mul_zero, sub_zero, zero_div, mul_one]
  linarith

/-- A lifetime derate that falls on a charging step is applied at the next discharging
step: two `run_losses` calls on a fresh losses object with the lifetime model at one
counted cycle (capacity 90 %) in both.  The first call, with a
charging current, changes nothing (`qmax` stays 100).  The second call, with a discharging
current, applies the lifetime derate (`_nCycle` becomes 1 and `qmax` becomes 90, where the
thermal derate alone leaves 100), although the cycle count is the same as at the first
call. -/
theorem run_losses_deferred_derate :
    (losses_t.run_losses util.modelled losses_t.new
        (lifetime_t.one_cycle_state : lifetime_t ℚ) thermal_t.example_state
        (capacity_model.example_with_current (-1))).1 = losses_t.new
    ∧ (losses_t.run_losses util.modelled losses_t.new
        (lifetime_t.one_cycle_state : lifetime_t ℚ) thermal_t.example_state
        (capacity_model.example_with_current (-1))).2.qmax = 100
    ∧ (losses_t.run_losses util.modelled
        (losses_t.run_losses util.modelled losses_t.new
          (lifetime_t.one_cycle_state : lifetime_t ℚ) thermal_t.example_state
          (capacity_model.example_with_current (-1))).1
        (lifetime_t.one_cycle_state : lifetime_t ℚ) thermal_t.example_state
        (capacity_model.example_with_current 1)).1.nCycle = 1
    ∧ (losses_t.run_losses util.modelled
        (losses_t.run_losses util.modelled losses_t.new
          (lifetime_t.one_cycle_state : lifetime_t ℚ) thermal_t.example_state
          (capacity_model.example_with_current (-1))).1
        (lifetime_t.one_cycle_state : lifetime_t ℚ) thermal_t.example_state
        (capacity_model.example_with_current 1)).2.qmax = 90
    ∧ ((capacity_model.example_with_current (1 : ℚ)).updateCapacityForThermal
        ((thermal_t.example_state : thermal_t ℚ).get_capacity_percent util.modelled)).qmax
        = 100 := by
  decide!

end DispatchClosed

section BufferTheorems

variable {K : Type} [LinearOrderedField K]

/-- C31: running average range.  The run of a sequence `xs` of `rainflow` calls on a
freshly constructed lifetime model completes, and with it the same run with the log
(`rainflow_all_logged`), which ends in the same state `s` and has recorded the list `rs` of
the ranges `Y` that the counting block counted, in order.  The cycle count is the length of
`rs`, the stored average range times the cycle count is the sum of `rs`, and with a cycle
count above zero the fade percentage is `bilinear(average_range, nCycles)`.  A final
`rainflow_finish` completes for every iteration bound from `(_Peaks.size() + 2)^2` on, with
one final state `s1` and one list `rs1` of further counted ranges, and the same three
statements hold of `s1` and `rs ++ rs1`. -/
theorem C31_running_average_range (u : util_t K) (m : matrix_t K) (s0 : lifetime_t K)
    (hnew : lifetime_t.new u m = Outcome.done s0) (xs : List K) :
    ∃ s rs s1 rs1, lifetime_t.rainflow_all_logged u (s0, []) xs = Outcome.done (s, rs)
      ∧ lifetime_t.rainflow_all u s0 xs = Outcome.done s
      ∧ s.cycles_elapsed = (rs.length : Int)
      ∧ s.average_range * (s.cycles_elapsed : K) = rs.sum
      ∧ (0 < s.cycles_elapsed →
          lifetime_t.bilinear u s s.average_range s.cycles_elapsed
            = Outcome.done s.capacity_percent)
      ∧ (∀ fuel : Nat, (s.Peaks.length + 2) ^ 2 ≤ fuel →
          lifetime_t.rainflow_finish_logged u fuel (s, rs) = Outcome.done (s1, rs ++ rs1)
          ∧ lifetime_t.rainflow_finish u fuel s = Outcome.done s1)
      ∧ s1.cycles_elapsed = ((rs ++ rs1).length : Int)
      ∧ s1.average_range * (s1.cycles_elapsed : K) = (rs ++ rs1).sum
      ∧ (0 < s1.cycles_elapsed →
          lifetime_t.bilinear u s1 s1.average_range s1.cycles_elapsed
            = Outcome.done s1.capacity_percent) := by
  obtain ⟨hinv0, _, hn0, ha0⟩ := lifetime_new_invariant u m s0 hnew
  obtain ⟨s, _, hall, hinv, _⟩ := rainflow_all_inv u xs s0 0 hinv0
  obtain ⟨s1, _, hfin, _⟩ := rainflow_finish_inv u s _ hinv
  -- the run with the log ends in the same state
  have he := rainflow_all_logged_erase u xs s0 []
  rw [hall] at he
  obtain ⟨⟨s', rs⟩, hlog, hs'⟩ := Outcome.map_eq_done _ _ _ he
  simp only at hs'
  subst hs'
  obtain ⟨rs0, e0, hc⟩ := rainflow_all_logged_counted u xs s0 [] _ hlog
  simp only [List.nil_append] at e0
  subst e0
  -- the final `rainflow_finish`, at the least bound
  have hf0 := hfin ((s'.Peaks.length + 2) ^ 2) (le_refl _)
  have hef := rainflow_finish_logged_erase u ((s'.Peaks.length + 2) ^ 2) s' rs
  rw [hf0] at hef
  obtain ⟨⟨s1', rs'⟩, hlogf, hs1'⟩ := Outcome.map_eq_done _ _ _ hef
  simp only at hs1'
  subst hs1'
  obtain ⟨rs1, e1, hc1⟩ := rainflow_finish_logged_counted u _ s' rs _ hlogf
  simp only at e1 hc1
  subst e1
  have hc01 := counted_trans u s0 s' s1' rs rs1 hc hc1
  obtain ⟨a1, a2, _, a4⟩ := counted_sum u s0 s' rs hc (by omega)
  obtain ⟨b1, b2, _, b4⟩ := counted_sum u s0 s1' (rs ++ rs1) hc01 (by omega)
  rw [hn0] at a1 b1
  rw [hn0, ha0] at a2 b2
  simp only [zero_add] at a1 b1
  simp only [Int.cast_zero, mul_zero, zero_add] at a2 b2
  refine ⟨s', rs, s1', rs1, hlog, hall, a1, a2, ?_, ?_, b1, b2, ?_⟩
  · intro hpos
    apply a4
    intro e
    rw [e] at a1
    simp only [lifetime_t.cycles_elapsed, a1, List.length_nil, Nat.cast_zero] at hpos
    exact absurd hpos (lt_irrefl _)
  · intro fuel hfuel
    exact ⟨finish_outer_logged_mono u _ _ 0 0 0 _ hlogf fuel hfuel, hfin fuel hfuel⟩
  · intro hpos
    apply b4
    intro e
    rw [e] at b1
    simp only [lifetime_t.cycles_elapsed, b1, List.length_nil, Nat.cast_zero] at hpos
    exact absurd hpos (lt_irrefl _)

/-- C33: charge conservation of the two-tank update.  For `k ≠ 0` and a state with
`q0 = q1 + q2`, `q1_compute(q1, q0, dt, I) + q2_compute(q2, q0, dt, I) = q0 - I*dt` for
every `I` and `dt` (and every value of the exponential), and after `updateCapacity` the
total charge is the old total charge minus the reported current times `dt`. -/
theorem C33_kibam_charge_conservation (exp : K → K) (s : capacity_kibam_t K)
    (vm : voltage_t K) (P dt I : K) (cycles : Int)
    (hk : s.k ≠ 0) (h : s.q0 = s.q1_0 + s.q2_0) :
    capacity_kibam_t.q1_compute exp s s.q1_0 s.q0 dt I
        + capacity_kibam_t.q2_compute exp s s.q2_0 s.q0 dt I = s.q0 - I * dt
    ∧ (capacity_kibam_t.updateCapacity exp s P vm dt cycles).1.q0
        = s.q0 - (capacity_kibam_t.updateCapacity exp s P vm dt cycles).1.I * dt := by
  refine ⟨kibam_tanks_sum exp s _ _ _ dt I hk h, ?_⟩
  simp only [capacity_kibam_t.updateCapacity, kibam_core_I]
  simp only [capacity_kibam_t.updateCapacity_core, check_charge_change_q0]
  exact kibam_tanks_sum exp s _ _ _ dt _ hk h

/-- C35: buffer accounting of `rainflow`.  After the `m ≥ 1` calls of a sequence `xs` on
a freshly constructed model, `_jlt = _Peaks.size() ≥ 1`,
`_Peaks.size() + 2 * cycles_elapsed() = m`, and `0 ≤ cycles_elapsed() ≤ (m - 1) / 2`. -/
theorem C35_rainflow_buffer_accounting (u : util_t K) (m : matrix_t K) (s0 : lifetime_t K)
    (hnew : lifetime_t.new u m = Outcome.done s0) (xs : List K) (hxs : xs ≠ []) :
    ∃ s, lifetime_t.rainflow_all u s0 xs = Outcome.done s
      ∧ s.jlt = (s.Peaks.length : Int) ∧ 1 ≤ s.Peaks.length
      ∧ (s.Peaks.length : Int) + 2 * s.cycles_elapsed = (xs.length : Int)
      ∧ 0 ≤ s.cycles_elapsed
      ∧ s.cycles_elapsed ≤ ((xs.length : Int) - 1) / 2 := by
  obtain ⟨hinv0, _, _, _⟩ := lifetime_new_invariant u m s0 hnew
  obtain ⟨s, rs, hall, ⟨_, hj, hn, hacc, hk⟩, _⟩ := rainflow_all_inv u xs s0 0 hinv0
  have hlen : xs.length ≠ 0 := fun e => hxs (List.length_eq_zero.mp e)
  obtain ⟨hk0, hk1, _⟩ := hk (by omega)
  simp only [zero_add] at hacc
  refine ⟨s, hall, hj, by omega, hacc, hn, ?_⟩
  show s.nCycles ≤ ((xs.length : Int) - 1) / 2
  omega

/-- C36: index safety of `rainflow`.  Every sequence of `rainflow` calls on a freshly
constructed model completes (an access outside `_Peaks` or a `pop_back` on an empty vector
makes the run `undefined` in the model), and after a sequence that is not empty the
reference cursor satisfies `0 ≤ _klt < _Peaks.size()` and `_Slt = _Peaks[_klt]`. -/
theorem C36_rainflow_index_safety (u : util_t K) (m : matrix_t K) (s0 : lifetime_t K)
    (hnew : lifetime_t.new u m = Outcome.done s0) (xs : List K) :
    ∃ s, lifetime_t.rainflow_all u s0 xs = Outcome.done s
      ∧ (xs ≠ [] → 0 ≤ s.klt ∧ s.klt < (s.Peaks.length : Int)
          ∧ vector_at s.Peaks s.klt = Outcome.done s.Slt) := by
  obtain ⟨hinv0, _, _, _⟩ := lifetime_new_invariant u m s0 hnew
  obtain ⟨s, rs, hall, ⟨_, _, _, _, hk⟩, _⟩ := rainflow_all_inv u xs s0 0 hinv0
  refine ⟨s, hall, fun hxs => hk ?_⟩
  have hlen : xs.length ≠ 0 := fun e => hxs (List.length_eq_zero.mp e)
  omega

/-- C37: termination of `rainflow` and `rainflow_finish`.  In every state reached by a
sequence `xs` of `rainflow` calls on a freshly constructed model (the empty sequence and
sequences of one or two samples included), a further `rainflow` call completes within the
iteration bound `_Peaks.size() + 1` of its loop, and `rainflow_finish` completes, with all
its accesses in bounds, for every bound on the iterations of its outer loop from
`(_Peaks.size() + 2)^2` on, with one and the same final state. -/
theorem C37_rainflow_termination (u : util_t K) (m : matrix_t K) (s0 : lifetime_t K)
    (hnew : lifetime_t.new u m = Outcome.done s0) (xs : List K) :
    ∃ s s1, lifetime_t.rainflow_all u s0 xs = Outcome.done s
      ∧ (∀ x : K, ∃ r, lifetime_t.rainflow u s x = Outcome.done r)
      ∧ (∀ fuel : Nat, (s.Peaks.length + 2) ^ 2 ≤ fuel →
          lifetime_t.rainflow_finish u fuel s = Outcome.done s1) := by
  obtain ⟨hinv0, _, _, _⟩ := lifetime_new_invariant u m s0 hnew
  obtain ⟨s, rs, hall, hinv, _⟩ := rainflow_all_inv u xs s0 0 hinv0
  obtain ⟨s1, rs1, hfin, _⟩ := rainflow_finish_inv u s _ hinv
  refine ⟨s, s1, hall, ?_, hfin⟩
  intro x
  obtain ⟨r, _, hr, _, _⟩ := rainflow_inv u s x _ hinv
  exact ⟨r, hr⟩

/-- C38: the thermal update is stable at zero current.  For `I = 0`, `mass*Cp > 0`,
`h*A ≥ 0` and `dt ≥ 0`, with `a = dt*h*A/(2*mass*Cp)`, one `trapezoidal` step gives
`T_new - T_room = (T_old - T_room) * (1 - a) / (1 + a)`, hence
`|T_new - T_room| ≤ |T_old - T_room|`. -/
theorem C38_thermal_zero_current_stable (t : thermal_t K) (dt : K)
    (hm : 0 < t.mass * t.Cp) (hA : 0 ≤ t.h * t.A) (hdt : 0 ≤ dt) :
    t.trapezoidal 0 dt - t.T_room
        = (t.T_battery - t.T_room) * (1 - dt * t.h * t.A / (2 * t.mass * t.Cp))
          / (1 + dt * t.h * t.A / (2 * t.mass * t.Cp))
    ∧ |t.trapezoidal 0 dt - t.T_room| ≤ |t.T_battery - t.T_room| := by
  have ha : 0 ≤ dt * t.h * t.A / (2 * t.mass * t.Cp) := by
    apply div_nonneg
    · rw [mul_assoc]; exact mul_nonneg hdt hA
    · nlinarith
  have hmne : t.mass * t.Cp ≠ 0 := hm.ne'
  obtain ⟨hmass, hCp⟩ := mul_ne_zero_iff.mp hmne
  have h1 : 0 < 1 + dt * t.h * t.A / (2 * t.mass * t.Cp) := by linarith
  have heq : t.trapezoidal 0 dt - t.T_room
        = (t.T_battery - t.T_room) * (1 - dt * t.h * t.A / (2 * t.mass * t.Cp))
          / (1 + dt * t.h * t.A / (2 * t.mass * t.Cp)) := by
    have hT : t.trapezoidal 0 dt
        = (t.T_battery + dt * t.h * t.A / (2 * t.mass * t.Cp) * (2 * t.T_room - t.T_battery))
          / (1 + dt * t.h * t.A / (2 * t.mass * t.Cp)) := by
      simp only [thermal_t.trapezoidal, thermal_t.f]
      rw [show (0.5 : K) = 1 / 2 by norm_num]
      congr 1
      · field_simp
        ring
      · field_simp
        ring
    rw [hT, eq_div_iff h1.ne', sub_mul, div_mul_cancel₀ _ h1.ne']
    ring
  refine ⟨heq, ?_⟩
  rw [heq, abs_div, abs_mul, abs_of_pos h1, div_le_iff₀ h1]
  apply mul_le_mul_of_nonneg_left _ (abs_nonneg _)
  rw [abs_le]
  constructor <;> linarith

/-- C39: the simple wake model never speeds up or reverses the wind.  `velDeltaPQ`
returns a value in `[0, 1]` for all inputs, and returns `0` with the turbulence intensity
unchanged when the crosswind distance exceeds 20 or the turbulence intensity, the axial
distance or the thrust coefficient is `≤ 0`.  A completed `wakeCalculations` leaves
`windSpeed[0]` unchanged and gives `0 ≤ windSpeed_out[i] ≤ windSpeed_in[i]` for every
`1 ≤ i < nTurbines` with `windSpeed_in[i] ≥ 0`; it completes when the five arrays have at
least `nTurbines` elements. -/
theorem C39_simple_wake_bounds (log sqrt exp : K → K) :
    (∀ rc ax th ti : K,
      0 ≤ (simpleWakeModel.velDeltaPQ log sqrt exp rc ax th ti).1
      ∧ (simpleWakeModel.velDeltaPQ log sqrt exp rc ax th ti).1 ≤ 1)
    ∧ (∀ rc ax th ti : K, rc > 20 ∨ ti ≤ 0 ∨ ax ≤ 0 ∨ th ≤ 0 →
      simpleWakeModel.velDeltaPQ log sqrt exp rc ax th ti = (0, ti))
    ∧ (∀ (n : Nat) (dd dc th ws ti : List K) (r : List K × List K),
      simpleWakeModel.wakeCalculations log sqrt exp n dd dc th ws ti = Outcome.done r →
      r.1[0]? = ws[0]?
      ∧ ∀ (i : Nat) (w : K), 1 ≤ i → i < n → ws[i]? = some w → 0 ≤ w →
          ∃ w', r.1[i]? = some w' ∧ 0 ≤ w' ∧ w' ≤ w)
    ∧ (∀ (n : Nat) (dd dc th ws ti : List K), n ≤ dd.length → n ≤ dc.length →
      n ≤ th.length → n ≤ ws.length → n ≤ ti.length →
      ∃ r, simpleWakeModel.wakeCalculations log sqrt exp n dd dc th ws ti
        = Outcome.done r) := by
  refine ⟨velDeltaPQ_unit log sqrt exp, ?_, ?_, ?_⟩
  · intro rc ax th ti h
    simp only [simpleWakeModel.velDeltaPQ, if_pos h]
  · intro n dd dc th ws ti r h
    have hnd : (List.range' 1 (n - 1)).Nodup := List.nodup_range' 1 (n - 1)
    obtain ⟨h1, h2⟩ := wake_turbines_spec log sqrt exp dd dc th _ _ r h hnd
    refine ⟨h1 0 (by simp only [List.mem_range'_1]; omega), ?_⟩
    intro i w hi1 hin hw hw0
    exact h2 i (by simp only [List.mem_range'_1]; omega) w hw hw0
  · intro n dd dc th ws ti h1 h2 h3 h4 h5
    apply wake_turbines_total
    intro i hi
    simp only [List.mem_range'_1] at hi
    refine ⟨by omega, by omega, by omega, ?_, ?_⟩
    · show i < ws.length
      omega
    · show i < ti.length
      omega

/-- C40: the method `s_efftable::interpolate` on a table of `n ≥ 2` points with strictly
increasing `x`.  It returns the `eta` of the first point for `x < x_0`; the linear
interpolant between the points `i - 1` and `i` for `x_(i-1) ≤ x < x_i`, `1 ≤ i ≤ n - 2`;
and the `eta` of the last point for every `x ≥ x_(n-2)`. -/
theorem C40_efftable_interpolate (t : s_efftable K) (x : K)
    (hn : 2 ≤ t.table.length)
    (hinc : List.Pairwise (fun a b : s_effmember K => a.x < b.x) t.table) :
    (∀ p0 : s_effmember K, t.table[0]? = some p0 → x < p0.x →
      t.interpolate x = Outcome.done p0.eta)
    ∧ (∀ (i : Nat) (p1 p : s_effmember K), 1 ≤ i → i + 2 ≤ t.table.length →
      t.table[i - 1]? = some p1 → t.table[i]? = some p → p1.x ≤ x → x < p.x →
      t.interpolate x
        = Outcome.done (p1.eta + (p.eta - p1.eta) * (x - p1.x) / (p.x - p1.x)))
    ∧ (∀ p2 pl : s_effmember K, t.table[t.table.length - 2]? = some p2 →
      t.table[t.table.length - 1]? = some pl → p2.x ≤ x →
      t.interpolate x = Outcome.done pl.eta) := by
  have hfront : ∀ p0 : s_effmember K, t.table[0]? = some p0 →
      vector_front t.table = Outcome.done p0 := by
    intro p0 h0
    cases hT : t.table with
    | nil => rw [hT] at h0; simp at h0
    | cons a l =>
      rw [hT] at h0
      simp only [List.getElem?_cons_zero, Option.some.injEq] at h0
      subst h0
      rfl
  have h0ex : ∃ p0, t.table[0]? = some p0 :=
    ⟨t.table[0], List.getElem?_eq_getElem (by omega)⟩
  have hprefix : ∀ (i : Nat) (q : s_effmember K), t.table[i]? = some q → q.x ≤ x →
      ∀ k, 0 ≤ k → k < 0 + (i + 1) → ∃ p, t.table[k]? = some p ∧ p.x ≤ x := by
    intro i q hq hqx k _ hk
    have hi : i < t.table.length := by
      by_contra hc
      rw [List.getElem?_eq_none (by omega)] at hq
      exact absurd hq (by simp)
    have hkl : k < t.table.length := by omega
    refine ⟨t.table[k], List.getElem?_eq_getElem hkl, ?_⟩
    exact le_trans (table_increasing t hinc k i _ q (by omega)
      (List.getElem?_eq_getElem hkl) hq) hqx
  refine ⟨?_, ?_, ?_⟩
  · intro p0 h0 hx
    have hne : ¬ ((0 : Int) = (t.table.length : Int) - 1) := by omega
    simp only [s_efftable.interpolate, hfront p0 h0, Outcome.bind_done]
    rw [s_efftable.interpolate_loop]
    have := vector_at_get _ 0 _ h0
    simp only [Nat.cast_zero] at this
    simp only [if_neg hne, this, Outcome.bind_done, if_pos hx, if_true, hfront p0 h0,
      Outcome.pure_eq_done]
  · intro i p1 p hi1 hi2 hp1 hp hx1 hx
    obtain ⟨p0, h0⟩ := h0ex
    simp only [s_efftable.interpolate, hfront p0 h0, Outcome.bind_done]
    have hfuel : t.table.length + 1 = (t.table.length - i) + 1 + i := by omega
    have hadv := interpolate_loop_advance t x i ((t.table.length - i) + 1) 0 (by omega)
      (by
        have := hprefix (i - 1) p1 hp1 hx1
        intro k hk1 hk2
        exact this k hk1 (by omega))
    rw [hfuel]
    simp only [Nat.cast_zero, zero_add] at hadv
    rw [hadv, s_efftable.interpolate_loop]
    have hne : ¬ ((i : Int) = (t.table.length : Int) - 1) := by omega
    have hne0 : ¬ ((i : Int) = 0) := by omega
    have hi' : ((i : Int) - 1) = ((i - 1 : Nat) : Int) := by omega
    simp only [if_neg hne, vector_at_get _ _ _ hp, Outcome.bind_done, if_pos hx, if_neg hne0,
      hi', vector_at_get _ _ _ hp1, Outcome.pure_eq_done]
  · intro p2 pl hp2 hpl hx
    obtain ⟨p0, h0⟩ := h0ex
    simp only [s_efftable.interpolate, hfront p0 h0, Outcome.bind_done]
    have hfuel : t.table.length + 1 = 2 + (t.table.length - 1) := by omega
    have hadv := interpolate_loop_advance t x (t.table.length - 1) 2 0 (by omega)
      (by
        have := hprefix (t.table.length - 2) p2 hp2 hx
        intro k hk1 hk2
        exact this k hk1 (by omega))
    rw [hfuel]
    simp only [Nat.cast_zero, zero_add] at hadv
    rw [hadv, s_efftable.interpolate_loop]
    have he : (((t.table.length - 1 : Nat) : Int) = (t.table.length : Int) - 1) := by omega
    simp only [if_pos he, vector_back_last _ _ hpl, Outcome.bind_done, Outcome.pure_eq_done]

end BufferTheorems

section BufferReal

/-- C34: the rate limits are the boundary currents.  For `k > 0`, `c > 0`, `dt > 0`:
`q1_compute` at `Idmax_compute` is `0`, `q1_compute` at `Icmax_compute` is `c * qmax`,
`q1_compute` does not increase with `I`, and a discharging step of `updateCapacity`
(`P/V > 0`) reports `I ≤ Idmax` and ends with `q1 ≥ 0`. -/
theorem C34_kibam_rate_limits (s : capacity_kibam_t ℝ) (vm : voltage_t ℝ) (q10 q0 P dt : ℝ)
    (cycles : Int) (hk : 0 < s.k) (hc : 0 < s.c) (hdt : 0 < dt) :
    capacity_kibam_t.q1_compute Real.exp s q10 q0 dt
        (capacity_kibam_t.Idmax_compute Real.exp s q10 q0 dt) = 0
    ∧ capacity_kibam_t.q1_compute Real.exp s q10 q0 dt
        (capacity_kibam_t.Icmax_compute Real.exp s q10 q0 dt) = s.c * s.qmax
    ∧ (∀ I1 I2 : ℝ, I1 ≤ I2 →
        capacity_kibam_t.q1_compute Real.exp s q10 q0 dt I2
          ≤ capacity_kibam_t.q1_compute Real.exp s q10 q0 dt I1)
    ∧ (0 < P / vm.battery_voltage →
        (capacity_kibam_t.updateCapacity Real.exp s P vm dt cycles).1.I
            ≤ capacity_kibam_t.Idmax_compute Real.exp s s.q1_0 s.q0 dt
        ∧ 0 ≤ (capacity_kibam_t.updateCapacity Real.exp s P vm dt cycles).1.q1_0) := by
  have hden := kibam_rate_denom_pos s.k s.c dt hk hc hdt
  have hmono : ∀ I1 I2 : ℝ, I1 ≤ I2 →
      capacity_kibam_t.q1_compute Real.exp s q10 q0 dt I2
        ≤ capacity_kibam_t.q1_compute Real.exp s q10 q0 dt I1 := by
    intro I1 I2 h
    rw [kibam_q1_affine s q10 q0 dt I1 hk.ne', kibam_q1_affine s q10 q0 dt I2 hk.ne']
    apply div_le_div_of_nonneg_right _ hk.le
    nlinarith [mul_le_mul_of_nonneg_right h hden.le]
  have hzero : ∀ a b : ℝ, capacity_kibam_t.q1_compute Real.exp s a b dt
        (capacity_kibam_t.Idmax_compute Real.exp s a b dt) = 0 := by
    intro a b
    rw [kibam_q1_affine s a b dt _ hk.ne']
    simp only [capacity_kibam_t.Idmax_compute]
    rw [div_mul_cancel₀ _ hden.ne']
    simp
  refine ⟨hzero q10 q0, ?_, hmono, ?_⟩
  · rw [kibam_q1_affine s q10 q0 dt _ hk.ne']
    simp only [capacity_kibam_t.Icmax_compute]
    rw [div_mul_cancel₀ _ hden.ne']
    field_simp
    ring
  · intro hpos
    have hI : (capacity_kibam_t.updateCapacity Real.exp s P vm dt cycles).1.I
        ≤ capacity_kibam_t.Idmax_compute Real.exp s s.q1_0 s.q0 dt := by
      simp only [capacity_kibam_t.updateCapacity, kibam_core_I,
        capacity_kibam_t.clamped_current, if_pos hpos]
      exact min_le_right _ _
    refine ⟨hI, ?_⟩
    have hq : (capacity_kibam_t.updateCapacity Real.exp s P vm dt cycles).1.q1_0
        = capacity_kibam_t.q1_compute Real.exp s s.q1_0 s.q0 dt
            (capacity_kibam_t.updateCapacity Real.exp s P vm dt cycles).1.I := by
      simp only [capacity_kibam_t.updateCapacity, kibam_core_I]
      simp only [capacity_kibam_t.updateCapacity_core]
    rw [hq, ← hzero s.q1_0 s.q0]
    have hm2 : ∀ I1 I2 : ℝ, I1 ≤ I2 →
        capacity_kibam_t.q1_compute Real.exp s s.q1_0 s.q0 dt I2
          ≤ capacity_kibam_t.q1_compute Real.exp s s.q1_0 s.q0 dt I1 := by
      intro I1 I2 h
      rw [kibam_q1_affine s _ _ dt I1 hk.ne', kibam_q1_affine s _ _ dt I2 hk.ne']
      apply div_le_div_of_nonneg_right _ hk.le
      nlinarith [mul_le_mul_of_nonneg_right h hden.le]
    exact hm2 _ _ hI

end BufferReal

/-! ## Instances at concrete inputs -/

section Witnesses

/-- C1 at concrete inputs.  The sum is `100` after each operation on a coulomb-counting
model of `10` Ah and on the half-charged KiBam state, where no divisor is zero.  The
samples `0, 30, 0, 100, 0` make the lifetime model of `fade_table_example` count one range
of `100` and hold the relative capacity `0`; the next `run_losses` with a discharging
current passes it to `updateCapacityForLifetime`, which leaves `_q0 = 0` and `_qmax = 0`. -/
theorem C1_SOC_add_DOD_witness :
    (capacity_lithium_ion_t.updateCapacity (capacity_lithium_ion_t.new (10 : ℚ)) 10
          (voltage_basic_t 1 2) 1 0).1.SOC
        + (capacity_lithium_ion_t.updateCapacity (capacity_lithium_ion_t.new (10 : ℚ)) 10
          (voltage_basic_t 1 2) 1 0).1.DOD = 100
    ∧ (capacity_lithium_ion_t.updateCapacityForThermal
          (capacity_lithium_ion_t.new (10 : ℚ)) 50).SOC
        + (capacity_lithium_ion_t.updateCapacityForThermal
          (capacity_lithium_ion_t.new (10 : ℚ)) 50).DOD = 100
    ∧ (capacity_lithium_ion_t.updateCapacityForLifetime
          (capacity_lithium_ion_t.new (10 : ℚ)) 90).SOC
        + (capacity_lithium_ion_t.updateCapacityForLifetime
          (capacity_lithium_ion_t.new (10 : ℚ)) 90).DOD = 100
    ∧ (capacity_kibam_t.updateCapacity (fun _ => 1 / 2)
          (capacity_kibam_t.half_charged : capacity_kibam_t ℚ) 10 (voltage_basic_t 1 2) 1 0
        ).1.SOC
        + (capacity_kibam_t.updateCapacity (fun _ => 1 / 2)
          (capacity_kibam_t.half_charged : capacity_kibam_t ℚ) 10 (voltage_basic_t 1 2) 1 0
        ).1.DOD = 100
    ∧ (capacity_kibam_t.updateCapacityForThermal
          (capacity_kibam_t.half_charged : capacity_kibam_t ℚ) 50).SOC
        + (capacity_kibam_t.updateCapacityForThermal
          (capacity_kibam_t.half_charged : capacity_kibam_t ℚ) 50).DOD = 100
    ∧ (capacity_kibam_t.updateCapacityForLifetime
          (capacity_kibam_t.half_charged : capacity_kibam_t ℚ) 90).SOC
        + (capacity_kibam_t.updateCapacityForLifetime
          (capacity_kibam_t.half_charged : capacity_kibam_t ℚ) 90).DOD = 100
    ∧ (lifetime_t.rainflow_all util.modelled
          (lifetime_t.example_state [] 0 0 0 : lifetime_t ℚ) [0, 30, 0, 100, 0]).result?.map
        (fun lifetime => (lifetime.cycles_elapsed, lifetime.average_range,
          lifetime.capacity_percent)) = some (1, 100, 0)
    ∧ (lifetime_t.rainflow_all util.modelled
          (lifetime_t.example_state [] 0 0 0 : lifetime_t ℚ) [0, 30, 0, 100, 0]).result?.map
        (fun lifetime =>
          ((losses_t.run_losses util.modelled losses_t.new lifetime thermal_t.example_state
              (capacity_model.example_with_current 1)).2.q0,
           (losses_t.run_losses util.modelled losses_t.new lifetime thermal_t.example_state
              (capacity_model.example_with_current 1)).2.qmax)) = some (0, 0) := by
  have h := C1_SOC_add_DOD (fun _ => (1 / 2 : ℚ))
  obtain ⟨_, h2, h3, h4, _, h6, h7, h8, _, _⟩ := h
  refine ⟨h2 _ 10 (voltage_basic_t 1 2) 1 0 (by decide!) (by decide!),
    h3 _ 50 (by decide!), h4 _ 90 (by decide!),
    h6 capacity_kibam_t.half_charged 10 (voltage_basic_t 1 2) 1 0 (by decide!) (by decide!)
      (by decide!) (by decide!),
    h7 _ 50 (by decide!), h8 _ 90 (by decide!), by decide!, by decide!⟩

/-- C5 at a concrete input: a fresh coulomb-counting model of `10` Ah at `2` V, a discharge
of `4` W for one hour, then a charge of `2` W for half an hour. -/
theorem C5_coulomb_integral_witness :
    capacity_lithium_ion_t.steps_unclamped
        (capacity_lithium_ion_t.new (10 : ℚ), voltage_basic_t 1 2)
        [(4, 1, 0), (-2, 1 / 2, 0)]
    ∧ (capacity_lithium_ion_t.new (10 : ℚ)).q0
        - (capacity_lithium_ion_t.steps
            (capacity_lithium_ion_t.new (10 : ℚ), voltage_basic_t 1 2)
            [(4, 1, 0), (-2, 1 / 2, 0)]).1.q0
      = capacity_lithium_ion_t.charge_removed
          (capacity_lithium_ion_t.new (10 : ℚ), voltage_basic_t 1 2)
          [(4, 1, 0), (-2, 1 / 2, 0)] :=
  have hsteps : capacity_lithium_ion_t.steps_unclamped
      (capacity_lithium_ion_t.new (10 : ℚ), voltage_basic_t 1 2)
      [(4, 1, 0), (-2, 1 / 2, 0)] := by
    norm_num [capacity_lithium_ion_t.steps_unclamped, capacity_lithium_ion_t.no_clamp,
      capacity_lithium_ion_t.updateCapacity, capacity_lithium_ion_t.updateCapacity_core,
      check_charge_change_q0, check_charge_change_qmax, voltage_t.updateVoltage,
      voltage_t.battery_voltage, voltage_basic_t, capacity_lithium_ion_t.new, capacity_t.new]
  ⟨hsteps, (C5_coulomb_integral _ _ hsteps).1⟩

/-- C6 at a concrete input: a full coulomb-counting model of `10` Ah at `2` V, discharged
at `20` W for one hour and charged back at `20` W for one hour. -/
theorem C6_round_trip_witness :
    (voltage_basic_t 1 (2 : ℚ)).dynamic = none ∧ (0 : ℚ) < 1
    ∧ (capacity_lithium_ion_t.updateCapacity (capacity_lithium_ion_t.new (10 : ℚ)) 20
        (voltage_basic_t 1 2) 1 0).1.q0 = 0
    ∧ (capacity_lithium_ion_t.updateCapacity
        (capacity_lithium_ion_t.updateCapacity (capacity_lithium_ion_t.new (10 : ℚ)) 20
          (voltage_basic_t 1 2) 1 0).1 (-20)
        (capacity_lithium_ion_t.updateCapacity (capacity_lithium_ion_t.new (10 : ℚ)) 20
          (voltage_basic_t 1 2) 1 0).2 1 0).1.q0
      = (capacity_lithium_ion_t.new (10 : ℚ)).qmax :=
  ⟨rfl, by norm_num,
    (C6_round_trip (capacity_lithium_ion_t.new (10 : ℚ)) (voltage_basic_t 1 2) 20 1 0 0 rfl
      (by norm_num)).2.1 rfl
      (by norm_num [capacity_lithium_ion_t.new, capacity_t.new])
      (by norm_num [voltage_t.battery_voltage, voltage_basic_t, capacity_lithium_ion_t.new,
        capacity_t.new])⟩

/-- C7 at a concrete input: a full coulomb-counting model of `10` Ah at `2` V asked for
`40` W over one hour, twice what it holds, ends empty with the current `10` A and the power
`20` W; asked to take `40` W it stays full with current and power `0`. -/
theorem C7_coulomb_clamp_witness :
    (0 : ℚ) < 1 ∧ (voltage_basic_t 1 (2 : ℚ)).battery_voltage ≠ 0
    ∧ 0 ≤ (capacity_lithium_ion_t.new (10 : ℚ)).q0
    ∧ (capacity_lithium_ion_t.new (10 : ℚ)).q0 ≤ (capacity_lithium_ion_t.new (10 : ℚ)).qmax
    ∧ (capacity_lithium_ion_t.updateCapacity (capacity_lithium_ion_t.new (10 : ℚ)) 40
            (voltage_basic_t 1 2) 1 0).1.q0 = 0
    ∧ (capacity_lithium_ion_t.updateCapacity (capacity_lithium_ion_t.new (10 : ℚ)) 40
            (voltage_basic_t 1 2) 1 0).1.I = 10
    ∧ (capacity_lithium_ion_t.updateCapacity (capacity_lithium_ion_t.new (10 : ℚ)) 40
            (voltage_basic_t 1 2) 1 0).1.P = 20
    ∧ (capacity_lithium_ion_t.updateCapacity (capacity_lithium_ion_t.new (10 : ℚ)) (-40)
            (voltage_basic_t 1 2) 1 0).1.q0 = 10
    ∧ (capacity_lithium_ion_t.updateCapacity (capacity_lithium_ion_t.new (10 : ℚ)) (-40)
            (voltage_basic_t 1 2) 1 0).1.I = 0
    ∧ (capacity_lithium_ion_t.updateCapacity (capacity_lithium_ion_t.new (10 : ℚ)) (-40)
            (voltage_basic_t 1 2) 1 0).1.P = 0 := by
  have hV : (voltage_basic_t 1 (2 : ℚ)).battery_voltage ≠ 0 := by
    norm_num [voltage_t.battery_voltage, voltage_basic_t]
  have hV2 : (voltage_basic_t 1 (2 : ℚ)).battery_voltage = 2 := by
    norm_num [voltage_t.battery_voltage, voltage_basic_t]
  have h0 : 0 ≤ (capacity_lithium_ion_t.new (10 : ℚ)).q0 := by
    norm_num [capacity_lithium_ion_t.new, capacity_t.new]
  have h1 : (capacity_lithium_ion_t.new (10 : ℚ)).q0
      ≤ (capacity_lithium_ion_t.new (10 : ℚ)).qmax := le_refl _
  have hq : (capacity_lithium_ion_t.new (10 : ℚ)).q0 = 10 := rfl
  have hm : (capacity_lithium_ion_t.new (10 : ℚ)).qmax = 10 := rfl
  have d := C7_coulomb_clamp (capacity_lithium_ion_t.new (10 : ℚ)) (voltage_basic_t 1 2) 40 1 0
    (by norm_num) hV h0 h1
  have c := C7_coulomb_clamp (capacity_lithium_ion_t.new (10 : ℚ)) (voltage_basic_t 1 2) (-40)
    1 0 (by norm_num) hV h0 h1
  obtain ⟨_, _, _, _, _, d6, _, d8, _⟩ := d
  obtain ⟨_, _, _, _, _, c6, c7, _, _⟩ := c
  have d8' := d8 (by rw [hq, hV2]; norm_num)
  have c7' := c7 (by rw [hq, hm, hV2]; norm_num)
  rw [d8'.2, hq, hV2] at d6
  rw [c7'.2, hq, hm, hV2] at c6
  refine ⟨by norm_num, hV, h0, h1, d8'.1, ?_, ?_, ?_, ?_, ?_⟩
  · rw [d8'.2, hq]; norm_num
  · rw [d6]; norm_num
  · rw [c7'.1, hm]
  · rw [c7'.2, hq, hm]; norm_num
  · rw [c6]; norm_num

/-- C8 at a concrete input: the half-charged KiBam state at `2` V asked for `200` W over
one hour. -/
theorem C8_kibam_current_clamp_witness :
    (0 : ℝ) ≤ (capacity_kibam_t.half_charged : capacity_kibam_t ℝ).q1_0
    ∧ (0 : ℝ) < (capacity_kibam_t.half_charged : capacity_kibam_t ℝ).k
    ∧ (voltage_basic_t 1 (2 : ℝ)).battery_voltage ≠ 0
    ∧ |(capacity_kibam_t.updateCapacity Real.exp capacity_kibam_t.half_charged 200
          (voltage_basic_t 1 2) 1 0).1.I|
      ≤ |200 / (voltage_basic_t 1 (2 : ℝ)).battery_voltage| :=
  have hq1 : (0 : ℝ) ≤ (capacity_kibam_t.half_charged : capacity_kibam_t ℝ).q1_0 := by
    norm_num [capacity_kibam_t.half_charged]
  have hk : (0 : ℝ) < (capacity_kibam_t.half_charged : capacity_kibam_t ℝ).k := by
    norm_num [capacity_kibam_t.half_charged]
  have hV : (voltage_basic_t 1 (2 : ℝ)).battery_voltage ≠ 0 := by
    norm_num [voltage_t.battery_voltage, voltage_basic_t]
  ⟨hq1, hk, hV,
    (C8_kibam_current_clamp capacity_kibam_t.half_charged (voltage_basic_t 1 2) 200 1 0 hq1
      (by norm_num [capacity_kibam_t.half_charged]) hk
      (by norm_num [capacity_kibam_t.half_charged])
      (by norm_num [capacity_kibam_t.half_charged]) (by norm_num) hV).2.2.1⟩

/-- C9 at a concrete input: the half-charged KiBam state at `2` V asked for `200` W over
one hour.  The requested current is `100` A, the discharge limit is below `60` A, and the
reported power stays `200` W. -/
theorem C9_kibam_power_not_realized_witness :
    capacity_kibam_t.Idmax_compute Real.exp (capacity_kibam_t.half_charged : capacity_kibam_t ℝ)
        (capacity_kibam_t.half_charged : capacity_kibam_t ℝ).q1_0
        (capacity_kibam_t.half_charged : capacity_kibam_t ℝ).q0 1
      < 200 / (voltage_basic_t 1 (2 : ℝ)).battery_voltage
    ∧ (capacity_kibam_t.updateCapacity Real.exp capacity_kibam_t.half_charged 200
          (voltage_basic_t 1 2) 1 0).1.P = 200
    ∧ (capacity_kibam_t.updateCapacity Real.exp capacity_kibam_t.half_charged 200
          (voltage_basic_t 1 2) 1 0).1.P
      ≠ (capacity_kibam_t.updateCapacity Real.exp capacity_kibam_t.half_charged 200
          (voltage_basic_t 1 2) 1 0).1.I * (voltage_basic_t 1 (2 : ℝ)).battery_voltage :=
  have hV : (voltage_basic_t 1 (2 : ℝ)).battery_voltage ≠ 0 := by
    norm_num [voltage_t.battery_voltage, voltage_basic_t]
  have hpos : (0 : ℝ) < 200 / (voltage_basic_t 1 (2 : ℝ)).battery_voltage := by
    norm_num [voltage_t.battery_voltage, voltage_basic_t]
  have hclamp : capacity_kibam_t.Idmax_compute Real.exp
        (capacity_kibam_t.half_charged : capacity_kibam_t ℝ)
        (capacity_kibam_t.half_charged : capacity_kibam_t ℝ).q1_0
        (capacity_kibam_t.half_charged : capacity_kibam_t ℝ).q0 1
      < 200 / (voltage_basic_t 1 (2 : ℝ)).battery_voltage := by
    have he1 : Real.exp (-(1 / 2 : ℝ) * 1) < 1 := Real.exp_lt_one_iff.mpr (by norm_num)
    have hden : (0 : ℝ) < 1 - Real.exp (-(1 / 2 : ℝ) * 1)
        + 1 / 2 * (1 / 2 * 1 - 1 + Real.exp (-(1 / 2 : ℝ) * 1)) := by linarith
    simp only [capacity_kibam_t.Idmax_compute, capacity_kibam_t.half_charged,
      voltage_t.battery_voltage, voltage_basic_t]
    rw [div_lt_iff₀ hden]
    norm_num
    linarith
  have h := C9_kibam_power_not_realized Real.exp capacity_kibam_t.half_charged
    (voltage_basic_t 1 2) 200 1 0 hV hpos hclamp
  ⟨hclamp, h.2.1, h.2.2⟩

/-- C12 at a concrete input: the buffer `[0, 1, 3, 4, 5]` with reference `S = 1`; the
range `|4 - 3| = 1` is counted and the buffer becomes `[0, 1, 5]`. -/
theorem C12_closed_cycle_rule_witness :
    (lifetime_t.example_state ([0, 1, 3, 4, 5] : List ℚ) 4 1 1).DOD_vect ≠ []
    ∧ |(5 : ℚ) - 4| ≥ |4 - 3|
    ∧ ∃ s1, (lifetime_t.rainflow_ranges (lifetime_t.example_state ([0, 1, 3, 4, 5] : List ℚ) 4 1 1)
          >>= lifetime_t.rainflow_compareRanges util.modelled)
        = Outcome.done (LT_code.LT_RERANGE, s1)
      ∧ s1.cycles_elapsed = 1 ∧ s1.Peaks = [0, 1, 5] := by
  have hT : (lifetime_t.example_state ([0, 1, 3, 4, 5] : List ℚ) 4 1 1).DOD_vect ≠ [] := by
    decide
  have hXY : |(5 : ℚ) - 4| ≥ |4 - 3| := by norm_num
  obtain ⟨s1, h1, hn, _, hP, _⟩ := C12_closed_cycle_rule util.modelled
    (lifetime_t.example_state ([0, 1, 3, 4, 5] : List ℚ) 4 1 1) [0, 1] 3 4 5 hT rfl rfl hXY
    (by decide) (by decide)
  exact ⟨hT, hXY, s1, h1, hn, hP⟩

/-- C13 at a concrete input: the buffer `[0, 10, 30]` with reference `S = 0 = peak[j-2]`
and `X = 20 > Y = 10`; nothing is counted and the reference moves to `peak[1] = 10`. -/
theorem C13_open_range_rule_witness :
    |(30 : ℚ) - 10| ≥ |10 - 0|
    ∧ (lifetime_t.rainflow_ranges (lifetime_t.example_state ([0, 10, 30] : List ℚ) 2 0 0)
          >>= lifetime_t.rainflow_compareRanges util.modelled)
        = Outcome.done (LT_code.LT_GET_DATA,
            { lifetime_t.example_state ([0, 10, 30] : List ℚ) 2 0 0 with
              Ylt := |10 - 0|, Xlt := |30 - 10|, klt := 0 + 1, Slt := 10 }) := by
  have hXY : |(30 : ℚ) - 10| ≥ |10 - 0| := by norm_num
  exact ⟨hXY, (C13_open_range_rule util.modelled
    (lifetime_t.example_state ([0, 10, 30] : List ℚ) 2 0 0) [] 0 10 30 rfl rfl hXY
    (Or.inr rfl)).2 (by norm_num) 10 (by decide!)⟩

/-- C15 at a concrete input: the fresh model of the example fade table and the sequence
`0, 10, 15, 17`, whose ranges are `10`, `5`, `2`, observed after its third sample. -/
theorem C15_decreasing_ranges_count_nothing_witness :
    lifetime_t.new util.modelled (fade_table_example : matrix_t ℚ)
        = Outcome.done (lifetime_t.example_state [] 0 0 0)
    ∧ ranges_decreasing ([0, 10, 15] ++ [17] : List ℚ)
    ∧ ∃ s1, lifetime_t.rainflow_all util.modelled
          (lifetime_t.example_state ([] : List ℚ) 0 0 0) [0, 10, 15] = Outcome.done s1
        ∧ s1.cycles_elapsed = 0 ∧ s1.Peaks = [0, 10, 15] := by
  have hnew : lifetime_t.new util.modelled (fade_table_example : matrix_t ℚ)
      = Outcome.done (lifetime_t.example_state [] 0 0 0) := by decide!
  have hrd : ranges_decreasing ([0, 10, 15] ++ [17] : List ℚ) := by
    norm_num [ranges_decreasing]
  exact ⟨hnew, hrd, C15_decreasing_ranges_count_nothing util.modelled fade_table_example
    (lifetime_t.example_state [] 0 0 0) [0, 10, 15] [17] hnew hrd⟩

/-- C20 at a concrete input: the example thermal state at rest for one hour and then for
half an hour, with `3600` seconds per hour. -/
theorem C20_thermal_steady_state_witness :
    (thermal_t.example_state : thermal_t ℚ).T_battery
        = (thermal_t.example_state : thermal_t ℚ).T_room
    ∧ thermal_t.steps_regular 3600 (thermal_t.example_state : thermal_t ℚ) [1, 1 / 2]
    ∧ (thermal_t.rest_steps 3600 (thermal_t.example_state : thermal_t ℚ) [1, 1 / 2]).T_battery
        = (thermal_t.example_state : thermal_t ℚ).T_room := by
  have hreg : thermal_t.steps_regular 3600 (thermal_t.example_state : thermal_t ℚ)
      [1, 1 / 2] := by
    norm_num [thermal_t.steps_regular, thermal_t.example_state]
  exact ⟨rfl, hreg, (C20_thermal_steady_state 3600 thermal_t.example_state [1, 1 / 2] rfl
    (by norm_num [thermal_t.example_state]) hreg).2.2.2⟩

theorem C21_trapezoidal_solves_implicit_equation_witness :
    (thermal_t.example_state : thermal_t ℚ).mass * (thermal_t.example_state : thermal_t ℚ).Cp
        ≠ 0
    ∧ (thermal_t.example_state : thermal_t ℚ).trapezoidal 10 3600
        = (thermal_t.example_state : thermal_t ℚ).T_battery
          + (3600 / 2) * ((thermal_t.example_state : thermal_t ℚ).f
              (thermal_t.example_state : thermal_t ℚ).T_battery 10
            + (thermal_t.example_state : thermal_t ℚ).f
              ((thermal_t.example_state : thermal_t ℚ).trapezoidal 10 3600) 10) := by
  have h1 : (thermal_t.example_state : thermal_t ℚ).mass
      * (thermal_t.example_state : thermal_t ℚ).Cp ≠ 0 := by decide!
  exact ⟨h1, (C21_trapezoidal_solves_implicit_equation thermal_t.example_state 10 3600 h1
    (by decide!)).1⟩

/-- C22 at a concrete input: a fresh losses object, the lifetime model at two counted
cycles (capacity 90 %), the thermal model at 96 %, and a full coulomb-counting capacity of
100 Ah discharging.  The first `run_losses` leaves `q0 = 86.4`; the second, on the
capacity it returned and with the same lifetime model, applies the lifetime derate again
and leaves `q0 = 74.6496`, where the thermal derate alone would leave `82.944`. -/
theorem C22_lifetime_derate_repeated_witness :
    (capacity_model.example_with_current (1 : ℚ)).I > 0
    ∧ (losses_t.run_losses util.modelled losses_t.new
        (lifetime_t.two_cycle_state : lifetime_t ℚ) thermal_t.example_state
        (capacity_model.example_with_current 1)).2.I > 0
    ∧ (lifetime_t.two_cycle_state : lifetime_t ℚ).cycles_elapsed > losses_t.new.nCycle + 1
    ∧ (losses_t.run_losses util.modelled losses_t.new
        (lifetime_t.two_cycle_state : lifetime_t ℚ) thermal_t.example_state
        (capacity_model.example_with_current 1)).2.q0 = 86.4
    ∧ losses_t.run_losses util.modelled
        (losses_t.run_losses util.modelled losses_t.new
          (lifetime_t.two_cycle_state : lifetime_t ℚ) thermal_t.example_state
          (capacity_model.example_with_current 1)).1
        (lifetime_t.two_cycle_state : lifetime_t ℚ) thermal_t.example_state
        (losses_t.run_losses util.modelled losses_t.new
          (lifetime_t.two_cycle_state : lifetime_t ℚ) thermal_t.example_state
          (capacity_model.example_with_current 1)).2
      = ({ nCycle := losses_t.new.nCycle + 1 + 1 },
         ((losses_t.run_losses util.modelled losses_t.new
            (lifetime_t.two_cycle_state : lifetime_t ℚ) thermal_t.example_state
            (capacity_model.example_with_current 1)).2.updateCapacityForLifetime
              (lifetime_t.two_cycle_state : lifetime_t ℚ).capacity_percent
          ).updateCapacityForThermal
            ((thermal_t.example_state : thermal_t ℚ).get_capacity_percent util.modelled))
    ∧ (losses_t.run_losses util.modelled
        (losses_t.run_losses util.modelled losses_t.new
          (lifetime_t.two_cycle_state : lifetime_t ℚ) thermal_t.example_state
          (capacity_model.example_with_current 1)).1
        (lifetime_t.two_cycle_state : lifetime_t ℚ) thermal_t.example_state
        (losses_t.run_losses util.modelled losses_t.new
          (lifetime_t.two_cycle_state : lifetime_t ℚ) thermal_t.example_state
          (capacity_model.example_with_current 1)).2).2.q0 = 74.6496
    ∧ ((losses_t.run_losses util.modelled losses_t.new
          (lifetime_t.two_cycle_state : lifetime_t ℚ) thermal_t.example_state
          (capacity_model.example_with_current 1)).2.updateCapacityForThermal
        ((thermal_t.example_state : thermal_t ℚ).get_capacity_percent util.modelled)).q0
        = 82.944 := by
  have hI : (capacity_model.example_with_current (1 : ℚ)).I > 0 := by decide!
  have hI1 : (losses_t.run_losses util.modelled losses_t.new
      (lifetime_t.two_cycle_state : lifetime_t ℚ) thermal_t.example_state
      (capacity_model.example_with_current 1)).2.I > 0 := by decide!
  have hn : (lifetime_t.two_cycle_state : lifetime_t ℚ).cycles_elapsed
      > losses_t.new.nCycle + 1 := by decide
  exact ⟨hI, hI1, hn, by decide!,
    (C22_lifetime_derate_repeated util.modelled losses_t.new lifetime_t.two_cycle_state
      thermal_t.example_state (capacity_model.example_with_current 1) _ hI hI1 hn).2,
    by decide!, by decide!⟩

theorem run_losses_gating_example :
    (capacity_model.example_with_current (1 : ℚ)).I > 0
    ∧ (lifetime_t.one_cycle_state : lifetime_t ℚ).cycles_elapsed > losses_t.new.nCycle
    ∧ losses_t.run_losses util.modelled losses_t.new
        (lifetime_t.one_cycle_state : lifetime_t ℚ) thermal_t.example_state
        (capacity_model.example_with_current 1)
      = ({ nCycle := losses_t.new.nCycle + 1 },
         ((capacity_model.example_with_current (1 : ℚ)).updateCapacityForLifetime
            (lifetime_t.one_cycle_state : lifetime_t ℚ).capacity_percent
          ).updateCapacityForThermal
            ((thermal_t.example_state : thermal_t ℚ).get_capacity_percent util.modelled))
    ∧ losses_t.run_losses util.modelled { nCycle := 1 }
        (lifetime_t.one_cycle_state : lifetime_t ℚ) thermal_t.example_state
        (capacity_model.example_with_current 1)
      = ({ nCycle := 1 },
         (capacity_model.example_with_current (1 : ℚ)).updateCapacityForThermal
            ((thermal_t.example_state : thermal_t ℚ).get_capacity_percent util.modelled))
    ∧ losses_t.run_losses util.modelled losses_t.new
        (lifetime_t.one_cycle_state : lifetime_t ℚ) thermal_t.example_state
        (capacity_model.example_with_current (-1))
      = (losses_t.new, capacity_model.example_with_current (-1)) := by
  have hI : (capacity_model.example_with_current (1 : ℚ)).I > 0 := by decide!
  have hn : (lifetime_t.one_cycle_state : lifetime_t ℚ).cycles_elapsed
      > losses_t.new.nCycle := by decide
  exact ⟨hI, hn,
    (run_losses_gating util.modelled losses_t.new lifetime_t.one_cycle_state
      thermal_t.example_state (capacity_model.example_with_current 1)).1 hI hn,
    (run_losses_gating util.modelled { nCycle := 1 } lifetime_t.one_cycle_state
      thermal_t.example_state (capacity_model.example_with_current 1)).2.1 hI (by decide),
    (run_losses_gating util.modelled losses_t.new lifetime_t.one_cycle_state
      thermal_t.example_state (capacity_model.example_with_current (-1))).2.2.1
      (by decide!)⟩

theorem C24_dispatch_surplus_witness :
    (10 : ℚ) > 4
    ∧ dispatch_manual_t.commanded_energy true true false (10 : ℚ) 4 7 = -(10 - 4)
    ∧ dispatch_manual_t.commanded_energy true true true (10 : ℚ) 4 7 = -7
    ∧ dispatch_manual_t.commanded_energy false true true (10 : ℚ) 4 7 = -7
    ∧ dispatch_manual_t.commanded_energy false true false (10 : ℚ) 4 7 = 0 := by
  have h : (10 : ℚ) > 4 := by norm_num
  exact ⟨h,
    (C24_dispatch_surplus id util.modelled 3600 (1 / 1000)
      (dispatch_manual_t.example_state true true false) 0 true true false 10 4 7 h).1 rfl
      (by simp),
    (C24_dispatch_surplus id util.modelled 3600 (1 / 1000)
      (dispatch_manual_t.example_state true true false) 0 true true true 10 4 7 h).2.1 rfl
      rfl (by norm_num),
    (C24_dispatch_surplus id util.modelled 3600 (1 / 1000)
      (dispatch_manual_t.example_state true true false) 0 false true true 10 4 7 h).2.2.1
      rfl rfl,
    (C24_dispatch_surplus id util.modelled 3600 (1 / 1000)
      (dispatch_manual_t.example_state true true false) 0 false true false 10 4 7
      h).2.2.2.1 rfl rfl⟩

theorem C25_dispatch_deficit_witness :
    (10 : ℚ) ≥ 4
    ∧ dispatch_manual_t.commanded_energy false true true (4 : ℚ) 10 7 = 10 - 4
    ∧ dispatch_manual_t.commanded_energy true false true (4 : ℚ) 10 7 = -7
    ∧ dispatch_manual_t.commanded_energy true false false (4 : ℚ) 10 7 = 0 := by
  have h : (10 : ℚ) ≥ 4 := by norm_num
  exact ⟨h, (C25_dispatch_deficit false true true 4 10 7 h).1 rfl,
    (C25_dispatch_deficit true false true 4 10 7 h).2.1 rfl rfl,
    (C25_dispatch_deficit true false false 4 10 7 h).2.2.1 rfl rfl⟩

theorem C26_dispatch_load_allocation_witness :
    ∃ d1, dispatch_manual_t.dispatch id util.modelled 3600 (1 / 1000) 1000
        (dispatch_manual_t.example_state true true false : dispatch_manual_t ℚ) 0 4 10
          = Outcome.done d1
      ∧ d1.pv_to_load + d1.battery_to_load + d1.grid_to_load = 10
      ∧ d1.pv_to_load = min 4 10 := by
  obtain ⟨d1, h⟩ := Outcome.done_of_isSome
    (dispatch_manual_t.dispatch id util.modelled 3600 (1 / 1000) 1000
      (dispatch_manual_t.example_state true true false : dispatch_manual_t ℚ) 0 4 10)
    (by decide!)
  exact ⟨d1, h, (C26_dispatch_load_allocation _ _ _ _ _ _ _ _ _ _ h).1,
    (C26_dispatch_load_allocation _ _ _ _ _ _ _ _ _ _ h).2.1⟩

theorem C27_dispatch_flows_nonneg_witness :
    (0 : ℚ) ≤ 4 ∧ (0 : ℚ) ≤ 10
    ∧ ∃ d1, dispatch_manual_t.dispatch id util.modelled 3600 (1 / 1000) 1000
        (dispatch_manual_t.example_state true true false : dispatch_manual_t ℚ) 0 4 10
          = Outcome.done d1
      ∧ 0 ≤ d1.pv_to_load ∧ 0 ≤ d1.battery_to_load ∧ 0 ≤ d1.grid_to_load := by
  obtain ⟨d1, h⟩ := Outcome.done_of_isSome
    (dispatch_manual_t.dispatch id util.modelled 3600 (1 / 1000) 1000
      (dispatch_manual_t.example_state true true false : dispatch_manual_t ℚ) 0 4 10)
    (by decide!)
  have hpv : (0 : ℚ) ≤ 4 := by norm_num
  have hload : (0 : ℚ) ≤ 10 := by norm_num
  exact ⟨hpv, hload, d1, h,
    C27_dispatch_flows_nonneg id util.modelled 3600 (1 / 1000)
      (dispatch_manual_t.example_state true true false) d1
      { capacity_lithium_ion_t.new 100 with q0 := 50, SOC := 50, DOD := 50 } 0 4 10
      hpv hload (by decide!) (by decide!) rfl (by decide!) (by decide!) (by decide!)
      (by decide) (by decide) (by decide) (by norm_num) h⟩

theorem C28_realized_energy_round_trip_witness :
    ∃ d1, dispatch_manual_t.dispatch id util.modelled 3600 (1 / 1000) 1000
        (dispatch_manual_t.example_state true true false : dispatch_manual_t ℚ) 0 (23 / 5) 4
          = Outcome.done d1
      ∧ d1.BatteryBank.battery.capacity.I = -25
      ∧ d1.e_tofrom_batt = -(23 / 5 - 4)
      ∧ d1.e_grid = 23 / 5 + d1.e_tofrom_batt - 4 := by
  obtain ⟨d1, h⟩ := Outcome.done_of_isSome
    (dispatch_manual_t.dispatch id util.modelled 3600 (1 / 1000) 1000
      (dispatch_manual_t.example_state true true false : dispatch_manual_t ℚ) 0 (23 / 5) 4)
    (by decide!)
  have hI0 : (dispatch_manual_t.dispatch id util.modelled 3600 (1 / 1000) 1000
      (dispatch_manual_t.example_state true true false : dispatch_manual_t ℚ) 0 (23 / 5) 4
      ).result?.map (fun d => d.BatteryBank.battery.capacity.I) = some (-25) := by decide!
  rw [h] at hI0
  have hI1 : d1.BatteryBank.battery.capacity.I = -25 := by
    simpa [Outcome.result?] using hI0
  have hcmd : dispatch_manual_t.commanded_energy true true false (23 / 5 : ℚ) 4
      (dispatch_manual_t.energyNeededToFill (1 / 1000)
        { (dispatch_manual_t.example_state true true false : dispatch_manual_t ℚ) with
          can_charge := true, can_discharge := true, can_grid_charge := false })
      = -(23 / 5 - 4) := by decide!
  have hthm := C28_realized_energy_round_trip id util.modelled 3600 (1 / 1000)
    (dispatch_manual_t.example_state true true false) _ d1 0 (23 / 5) 4
    (read_profile_example true true false) h (by decide) (by decide!) (by decide!)
    (by rw [hI1]; decide!)
  exact ⟨d1, h, hI1, hthm.1.trans hcmd, hthm.2.2.2.1⟩

theorem C29_getMonthHour_witness :
    (0 : Int) ≤ 743 ∧ (743 : Int) < 8760
    ∧ getMonthHour 743 = (1, 24) ∧ getMonthHour 744 = (2, 1) ∧ getMonthHour 8759 = (12, 24)
    ∧ (getMonthHour 743).2 = 743 % 24 + 1 := by
  refine ⟨by decide, by decide, by decide!, by decide!, by decide!, ?_⟩
  exact (C29_getMonthHour 743 (by decide) (by decide) (fun _ _ => 1)).2.2.2.2.2.1

theorem C30_voltage_monotone_for_ordered_points_witness :
    (voltage_dynamic_t.example_points : voltage_dynamic_t ℝ).Vnom
        ≤ (voltage_dynamic_t.example_points : voltage_dynamic_t ℝ).Vexp
    ∧ ∀ Q I q0a q0b : ℝ, 0 < Q → q0a ≤ q0b →
        (voltage_dynamic_t.parameter_compute Real.exp voltage_dynamic_t.example_points
          ).voltage_model Q I q0a
          ≤ (voltage_dynamic_t.parameter_compute Real.exp voltage_dynamic_t.example_points
          ).voltage_model Q I q0b := by
  have h1 : (voltage_dynamic_t.example_points : voltage_dynamic_t ℝ).Vnom
        ≤ (voltage_dynamic_t.example_points : voltage_dynamic_t ℝ).Vexp := by
    norm_num [voltage_dynamic_t.example_points]
  exact ⟨h1, (C30_voltage_monotone_for_ordered_points voltage_dynamic_t.example_points
    (voltage_dynamic_t.new Real.exp 6 4 4.1 4.05 3.4 2.25 0.04 2 0.2 2.5) h1
    (by norm_num [voltage_dynamic_t.example_points])
    (by norm_num [voltage_dynamic_t.example_points])
    (by norm_num [voltage_dynamic_t.example_points])
    (by simp only [voltage_dynamic_t.new, voltage_dynamic_t.example_points])
    (by norm_num [voltage_dynamic_t.new])).2.2⟩

/-- C31 at a concrete input: on the fresh model of `fade_table_example` the samples
`10, 60, 20, 90, 5, 70, 30, 100, 0` count the ranges `40` and `40` (average `40`), and
`rainflow_finish` counts two more ranges of `10` (average `25` over four cycles). -/
theorem C31_running_average_range_witness :
    lifetime_t.new util.modelled (fade_table_example : matrix_t ℚ)
        = Outcome.done (lifetime_t.example_state [] 0 0 0)
    ∧ ∃ (s s1 : lifetime_t ℚ),
        lifetime_t.rainflow_all_logged util.modelled
          ((lifetime_t.example_state [] 0 0 0 : lifetime_t ℚ), [])
          [10, 60, 20, 90, 5, 70, 30, 100, 0] = Outcome.done (s, [40, 40])
      ∧ lifetime_t.rainflow_all util.modelled
          (lifetime_t.example_state [] 0 0 0 : lifetime_t ℚ)
          [10, 60, 20, 90, 5, 70, 30, 100, 0] = Outcome.done s
      ∧ s.cycles_elapsed = 2 ∧ s.average_range = 40
      ∧ lifetime_t.bilinear util.modelled s 40 2 = Outcome.done s.capacity_percent
      ∧ (∀ fuel : Nat, (s.Peaks.length + 2) ^ 2 ≤ fuel →
          lifetime_t.rainflow_finish_logged util.modelled fuel (s, [40, 40])
            = Outcome.done (s1, [40, 40, 10, 10])
          ∧ lifetime_t.rainflow_finish util.modelled fuel s = Outcome.done s1)
      ∧ s1.cycles_elapsed = 4 ∧ s1.average_range = 25 := by
  have hnew : lifetime_t.new util.modelled (fade_table_example : matrix_t ℚ)
      = Outcome.done (lifetime_t.example_state [] 0 0 0) := by decide!
  obtain ⟨s, rs, s1, rs1, h1, h2, h3, h4, h5, h6, h7, h8, _⟩ :=
    C31_running_average_range util.modelled fade_table_example _ hnew
      [10, 60, 20, 90, 5, 70, 30, 100, 0]
  have e : (lifetime_t.rainflow_all_logged util.modelled
      ((lifetime_t.example_state [] 0 0 0 : lifetime_t ℚ), [])
      [10, 60, 20, 90, 5, 70, 30, 100, 0]).result?.map
        (fun r => (r.2, r.1.Peaks.length)) = some ([40, 40], 5) := by decide!
  have e2 : ((lifetime_t.rainflow_all_logged util.modelled
      ((lifetime_t.example_state [] 0 0 0 : lifetime_t ℚ), [])
      [10, 60, 20, 90, 5, 70, 30, 100, 0]) >>=
        lifetime_t.rainflow_finish_logged util.modelled 49).result?.map Prod.snd
      = some [40, 40, 10, 10] := by decide!
  rw [h1] at e e2
  simp only [Outcome.result?, Option.map_some', Option.some.injEq, Prod.mk.injEq] at e
  obtain ⟨e, elen⟩ := e
  subst e
  have h49 := (h6 49 (by rw [elen]; decide)).1
  simp only [Outcome.bind_done] at e2
  rw [h49] at e2
  simp only [Outcome.result?, Option.map_some', Option.some.injEq, List.cons_append,
    List.nil_append, List.cons.injEq, true_and] at e2
  subst e2
  simp only [List.length_cons, List.length_nil, List.sum_cons, List.sum_nil,
    List.cons_append, List.nil_append] at h3 h4 h6 h7 h8
  have h3' : s.cycles_elapsed = 2 := by rw [h3]; rfl
  have h7' : s1.cycles_elapsed = 4 := by rw [h7]; rfl
  rw [h3'] at h4 h5
  rw [h7'] at h8
  have ha : s.average_range = 40 := by push_cast at h4; linarith
  have hb : s1.average_range = 25 := by push_cast at h8; linarith
  rw [ha] at h5
  exact ⟨hnew, s, s1, h1, h2, h3', ha, h5 (by decide), h6, h7', hb⟩

theorem C33_kibam_charge_conservation_witness :
    (capacity_kibam_t.half_charged : capacity_kibam_t ℚ).k ≠ 0
    ∧ (capacity_kibam_t.half_charged : capacity_kibam_t ℚ).q0
        = (capacity_kibam_t.half_charged : capacity_kibam_t ℚ).q1_0
          + (capacity_kibam_t.half_charged : capacity_kibam_t ℚ).q2_0
    ∧ capacity_kibam_t.q1_compute (fun _ => 1 / 2)
          (capacity_kibam_t.half_charged : capacity_kibam_t ℚ) 30 60 1 5
        + capacity_kibam_t.q2_compute (fun _ => 1 / 2)
          (capacity_kibam_t.half_charged : capacity_kibam_t ℚ) 30 60 1 5 = 60 - 5 * 1
    ∧ (capacity_kibam_t.updateCapacity (fun _ => 1 / 2)
          (capacity_kibam_t.half_charged : capacity_kibam_t ℚ) 10 (voltage_basic_t 1 2) 1 0
        ).1.q0
      = 60 - (capacity_kibam_t.updateCapacity (fun _ => 1 / 2)
          (capacity_kibam_t.half_charged : capacity_kibam_t ℚ) 10 (voltage_basic_t 1 2) 1 0
        ).1.I * 1 := by
  have hk : (capacity_kibam_t.half_charged : capacity_kibam_t ℚ).k ≠ 0 := by decide!
  have hq : (capacity_kibam_t.half_charged : capacity_kibam_t ℚ).q0
      = (capacity_kibam_t.half_charged : capacity_kibam_t ℚ).q1_0
        + (capacity_kibam_t.half_charged : capacity_kibam_t ℚ).q2_0 := by decide!
  have h := C33_kibam_charge_conservation (fun _ => (1 / 2 : ℚ))
    capacity_kibam_t.half_charged (voltage_basic_t 1 2) 10 1 5 0 hk hq
  exact ⟨hk, hq, h.1, h.2⟩

theorem C34_kibam_rate_limits_witness :
    (0 : ℝ) < (capacity_kibam_t.half_charged : capacity_kibam_t ℝ).k
    ∧ (0 : ℝ) < (capacity_kibam_t.half_charged : capacity_kibam_t ℝ).c
    ∧ capacity_kibam_t.q1_compute Real.exp
        (capacity_kibam_t.half_charged : capacity_kibam_t ℝ) 30 60 1
        (capacity_kibam_t.Idmax_compute Real.exp capacity_kibam_t.half_charged 30 60 1) = 0
    ∧ capacity_kibam_t.q1_compute Real.exp
        (capacity_kibam_t.half_charged : capacity_kibam_t ℝ) 30 60 1
        (capacity_kibam_t.Icmax_compute Real.exp capacity_kibam_t.half_charged 30 60 1)
      = (capacity_kibam_t.half_charged : capacity_kibam_t ℝ).c
        * (capacity_kibam_t.half_charged : capacity_kibam_t ℝ).qmax
    ∧ 0 ≤ (capacity_kibam_t.updateCapacity Real.exp
        (capacity_kibam_t.half_charged : capacity_kibam_t ℝ) 200 (voltage_basic_t 1 2) 1 0
        ).1.q1_0 := by
  have hk : (0 : ℝ) < (capacity_kibam_t.half_charged : capacity_kibam_t ℝ).k := by
    norm_num [capacity_kibam_t.half_charged]
  have hc : (0 : ℝ) < (capacity_kibam_t.half_charged : capacity_kibam_t ℝ).c := by
    norm_num [capacity_kibam_t.half_charged]
  have h := C34_kibam_rate_limits capacity_kibam_t.half_charged (voltage_basic_t 1 2)
    30 60 200 1 0 hk hc (by norm_num)
  exact ⟨hk, hc, h.1, h.2.1, (h.2.2.2 (by
    norm_num [voltage_t.battery_voltage, voltage_basic_t])).2⟩

theorem C35_rainflow_buffer_accounting_witness :
    lifetime_t.new util.modelled (fade_table_example : matrix_t ℚ)
        = Outcome.done (lifetime_t.example_state [] 0 0 0)
    ∧ ∃ s, lifetime_t.rainflow_all util.modelled
          (lifetime_t.example_state [] 0 0 0 : lifetime_t ℚ) [50, 0, 100, 1, 100]
          = Outcome.done s
      ∧ s.jlt = (s.Peaks.length : Int)
      ∧ (s.Peaks.length : Int) + 2 * s.cycles_elapsed = 5
      ∧ s.cycles_elapsed ≤ 2 := by
  have hnew : lifetime_t.new util.modelled (fade_table_example : matrix_t ℚ)
      = Outcome.done (lifetime_t.example_state [] 0 0 0) := by decide!
  obtain ⟨s, h1, h2, _, h4, _, h6⟩ :=
    C35_rainflow_buffer_accounting util.modelled fade_table_example _ hnew
      [50, 0, 100, 1, 100] (by simp)
  exact ⟨hnew, s, h1, h2, h4, h6⟩

theorem C36_rainflow_index_safety_witness :
    lifetime_t.new util.modelled (fade_table_example : matrix_t ℚ)
        = Outcome.done (lifetime_t.example_state [] 0 0 0)
    ∧ ∃ s, lifetime_t.rainflow_all util.modelled
          (lifetime_t.example_state [] 0 0 0 : lifetime_t ℚ) [50, 0, 100, 1, 100]
          = Outcome.done s
      ∧ s.klt < (s.Peaks.length : Int)
      ∧ vector_at s.Peaks s.klt = Outcome.done s.Slt := by
  have hnew : lifetime_t.new util.modelled (fade_table_example : matrix_t ℚ)
      = Outcome.done (lifetime_t.example_state [] 0 0 0) := by decide!
  obtain ⟨s, h1, h2⟩ :=
    C36_rainflow_index_safety util.modelled fade_table_example _ hnew [50, 0, 100, 1, 100]
  exact ⟨hnew, s, h1, (h2 (by simp)).2.1, (h2 (by simp)).2.2⟩

theorem C37_rainflow_termination_witness :
    lifetime_t.new util.modelled (fade_table_example : matrix_t ℚ)
        = Outcome.done (lifetime_t.example_state [] 0 0 0)
    ∧ (∃ s1, ∀ fuel : Nat, 4 ≤ fuel →
        lifetime_t.rainflow_finish util.modelled fuel
          (lifetime_t.example_state [] 0 0 0 : lifetime_t ℚ) = Outcome.done s1)
    ∧ ∃ s s1, lifetime_t.rainflow_all util.modelled
          (lifetime_t.example_state [] 0 0 0 : lifetime_t ℚ) [50, 0, 100, 1, 100]
          = Outcome.done s
      ∧ ∀ fuel : Nat, (s.Peaks.length + 2) ^ 2 ≤ fuel →
          lifetime_t.rainflow_finish util.modelled fuel s = Outcome.done s1 := by
  have hnew : lifetime_t.new util.modelled (fade_table_example : matrix_t ℚ)
      = Outcome.done (lifetime_t.example_state [] 0 0 0) := by decide!
  obtain ⟨s, s1, h1, _, h3⟩ :=
    C37_rainflow_termination util.modelled fade_table_example _ hnew [50, 0, 100, 1, 100]
  obtain ⟨t, t1, g1, _, g3⟩ :=
    C37_rainflow_termination util.modelled fade_table_example _ hnew []
  simp only [lifetime_t.rainflow_all, Outcome.pure_eq_done, Outcome.done.injEq] at g1
  subst g1
  exact ⟨hnew, ⟨t1, fun fuel hf => g3 fuel (by
    show ((lifetime_t.example_state [] 0 0 0 : lifetime_t ℚ).Peaks.length + 2) ^ 2 ≤ fuel
    simpa [lifetime_t.example_state] using hf)⟩, s, s1, h1, h3⟩

theorem C38_thermal_zero_current_stable_witness :
    0 < (thermal_t.example_state : thermal_t ℚ).mass
        * (thermal_t.example_state : thermal_t ℚ).Cp
    ∧ |({ (thermal_t.example_state : thermal_t ℚ) with T_battery := 313.15 }
          ).trapezoidal 0 3600 - 293.15| ≤ |(313.15 : ℚ) - 293.15| := by
  have hm : 0 < (thermal_t.example_state : thermal_t ℚ).mass
      * (thermal_t.example_state : thermal_t ℚ).Cp := by decide!
  exact ⟨hm, (C38_thermal_zero_current_stable
    ({ (thermal_t.example_state : thermal_t ℚ) with T_battery := 313.15 }) 3600 hm
    (by decide!) (by decide!)).2⟩

theorem C39_simple_wake_bounds_witness :
    ∃ r, simpleWakeModel.wakeCalculations (fun _ => (0 : ℚ)) (fun x => x) (fun _ => 1) 3
        [0, 4, 8] [0, 1, 30] [7 / 10, 7 / 10, 7 / 10] [10, 10, 10] [1 / 10, 1 / 10, 1 / 10]
      = Outcome.done r
      ∧ r.1[0]? = some 10
      ∧ ∃ w, r.1[1]? = some w ∧ 0 ≤ w ∧ w ≤ 10 := by
  obtain ⟨r, hr⟩ := (C39_simple_wake_bounds (fun _ => (0 : ℚ)) (fun x => x) (fun _ => 1)).2.2.2
    3 [0, 4, 8] [0, 1, 30] [7 / 10, 7 / 10, 7 / 10] [10, 10, 10] [1 / 10, 1 / 10, 1 / 10]
    (by decide) (by decide) (by decide) (by decide) (by decide)
  have h := (C39_simple_wake_bounds (fun _ => (0 : ℚ)) (fun x => x)
    (fun _ => 1)).2.2.1 3 _ _ _ _ _ r hr
  exact ⟨r, hr, h.1, h.2 1 10 (by decide) (by decide) rfl (by norm_num)⟩

theorem C40_efftable_interpolate_witness :
    2 ≤ (s_efftable.example_table : s_efftable ℚ).table.length
    ∧ (s_efftable.example_table : s_efftable ℚ).interpolate (-1) = Outcome.done 10
    ∧ (s_efftable.example_table : s_efftable ℚ).interpolate (3 / 2) = Outcome.done 30
    ∧ (s_efftable.example_table : s_efftable ℚ).interpolate (5 / 2) = Outcome.done 80
    ∧ (s_efftable.example_table : s_efftable ℚ).interpolate 7 = Outcome.done 80 := by
  have hn : 2 ≤ (s_efftable.example_table : s_efftable ℚ).table.length := by decide
  have hinc : List.Pairwise (fun a b : s_effmember ℚ => a.x < b.x)
      (s_efftable.example_table : s_efftable ℚ).table := by
    simp [s_efftable.example_table]
    norm_num
  have h1 := (C40_efftable_interpolate s_efftable.example_table (-1 : ℚ) hn hinc).1
    { x := 0, eta := 10 } rfl (by norm_num)
  have h2 := (C40_efftable_interpolate s_efftable.example_table (3 / 2 : ℚ) hn hinc).2.1
    2 { x := 1, eta := 20 } { x := 2, eta := 40 } (by decide) (by decide) rfl rfl
    (by norm_num) (by norm_num)
  have h3 := (C40_efftable_interpolate s_efftable.example_table (5 / 2 : ℚ) hn hinc).2.2
    { x := 2, eta := 40 } { x := 3, eta := 80 } rfl rfl (by norm_num)
  have h4 := (C40_efftable_interpolate s_efftable.example_table (7 : ℚ) hn hinc).2.2
    { x := 2, eta := 40 } { x := 3, eta := 80 } rfl rfl (by norm_num)
  refine ⟨hn, h1, ?_, h3, h4⟩
  rw [h2]
  norm_num

end Witnesses

end SSC
